import Mathlib

/-!
# TimescaleDB reference-counted metadata cache (`src/cache.c`)

A shallow embedding of `cache.c`.  Pointers to `Cache` structs are natural
numbers, the heap of cache structs is a total map from pointers to structs,
and the process-wide `pinned_caches` list is a list of pointers.  The three
calls that make up the physical teardown in `cache_destroy` append to a log, so
that "the cache was physically destroyed" is an observable of the state.

The code is written for PostgreSQL 9.6 and 10 (`#if PG10 ... #elif PG96` in
`process_utility.c`), whose `List` is a singly linked list of cells.
-/

set_option linter.unusedSectionVars false
set_option linter.unusedVariables false

namespace TimescaleCache

/-- Ways a call stops without returning: the two `elog(ERROR, ...)` reports of
`cache.c` and a failed `Assert` (assert-enabled builds only). -/
inductive CacheError where
  | ERROR_cache_already_init
  | ERROR_hash_not_init
  | TRAP_failed_assertion
  deriving DecidableEq, Repr

/-- The three `hash_search` actions used by `cache.c`. -/
inductive HASHACTION where
  | HASH_FIND
  | HASH_ENTER
  | HASH_REMOVE
  deriving DecidableEq, Repr

/-- Transaction events delivered to a callback registered with
`RegisterXactCallback` (PostgreSQL `XactEvent`). -/
inductive XactEvent where
  | XACT_EVENT_COMMIT
  | XACT_EVENT_PARALLEL_COMMIT
  | XACT_EVENT_ABORT
  | XACT_EVENT_PARALLEL_ABORT
  | XACT_EVENT_PREPARE
  | XACT_EVENT_PRE_COMMIT
  | XACT_EVENT_PARALLEL_PRE_COMMIT
  | XACT_EVENT_PRE_PREPARE
  deriving DecidableEq, Repr

/-- Sub-transaction events delivered to a callback registered with
`RegisterSubXactCallback` (PostgreSQL `SubXactEvent`). -/
inductive SubXactEvent where
  | SUBXACT_EVENT_START_SUB
  | SUBXACT_EVENT_COMMIT_SUB
  | SUBXACT_EVENT_ABORT_SUB
  | SUBXACT_EVENT_PRE_COMMIT_SUB
  deriving DecidableEq, Repr

/-- A pointer to a `Cache` struct. -/
abbrev CachePtr := Nat

/-- Modelled from the spec: `CacheStats` is declared in `cache.h`, which is not
among the sources; the spec lists "running statistics (hits, misses, live-entry
count)".  The field names are the ones `cache.c` uses; the counters are
mathematical integers because the declared widths are not available. -/
structure CacheStats where
  numelements : Int
  hits : Int
  misses : Int
  deriving DecidableEq, Repr

/-- One slot of the backing hash table: the key and the entry contents, `none`
while the slot has been entered by `HASH_ENTER` and not yet written. -/
abbrev Slot (κ ε : Type) := κ × Option ε

/-- Modelled from the spec: `struct Cache` is declared in `cache.h`, which is
not among the sources.  The fields are those `cache.c` reads and writes:
`htab` (`none` is the `NULL` of a cache that was never initialised), `refcount`
(a C `int`: `cache_release` copies `cache->refcount - 1` into an `int`),
`release_on_commit`, `stats`, and the optional callbacks, which the spec gives
as `create_entry(key) -> entry`, `update_entry(existing) -> entry` and an
optional `pre_destroy_hook`.  `pre_destroy_hook` only records whether a hook is
set; its invocation is an event of the teardown log. -/
structure Cache (κ ε : Type) where
  htab : Option (List (Slot κ ε))
  refcount : Int
  release_on_commit : Bool
  stats : CacheStats
  create_entry : Option (κ → ε)
  update_entry : Option (κ → Option ε → ε)
  pre_destroy_hook : Bool

/-- The calls of the physical teardown in `cache_destroy`, each tagged with the
cache it is applied to. -/
inductive TeardownEvent where
  | pre_destroy_hook (cache : CachePtr)
  | hash_destroy (cache : CachePtr)
  | MemoryContextDelete (cache : CachePtr)
  deriving DecidableEq, Repr

/-- The process-wide state `cache.c` works on: the cache structs, the static
list `pinned_caches`, and the log of teardown calls made so far. -/
@[ext]
structure Backend (κ ε : Type) where
  caches : CachePtr → Cache κ ε
  pinned_caches : List CachePtr
  teardown_log : List TeardownEvent

variable {κ ε : Type} [DecidableEq κ]

/-- Store `c` at pointer `cache`. -/
def Backend.setCache (w : Backend κ ε) (cache : CachePtr) (c : Cache κ ε) : Backend κ ε :=
  { w with caches := fun p => if p = cache then c else w.caches p }

/-- The teardown of `cache` is complete when its memory context is deleted;
this counts how often that happened. -/
def Backend.teardowns (w : Backend κ ε) (cache : CachePtr) : Nat :=
  w.teardown_log.count (TeardownEvent.MemoryContextDelete cache)

/-- PostgreSQL `lappend`: add a cell at the end of the list. -/
def lappend (l : List CachePtr) (cache : CachePtr) : List CachePtr :=
  l ++ [cache]

/-- PostgreSQL `list_delete_ptr`: unlink the first cell holding the pointer, if
there is one. -/
def list_delete_ptr (l : List CachePtr) (cache : CachePtr) : List CachePtr :=
  l.erase cache

/-- PostgreSQL dynahash `hash_search` on a table given as its list of slots (a
table holds at most one slot per key): returns the table after the action, the
slot found or entered (`none` is a `NULL` result) and the `found` flag.
`HASH_ENTER` on an absent key adds an unwritten slot; `HASH_REMOVE` drops the
slot of the key. -/
def hash_search (htab : List (Slot κ ε)) (key : κ) :
    HASHACTION → List (Slot κ ε) × Option (Slot κ ε) × Bool
  | .HASH_FIND =>
    match htab.find? (fun s => s.1 = key) with
    | some s => (htab, some s, true)
    | none => (htab, none, false)
  | .HASH_ENTER =>
    match htab.find? (fun s => s.1 = key) with
    | some s => (htab, some s, true)
    | none => ((key, none) :: htab, some (key, none), false)
  | .HASH_REMOVE =>
    match htab.find? (fun s => s.1 = key) with
    | some s => (htab.filter (fun t => t.1 ≠ key), some s, true)
    | none => (htab, none, false)

/-- Write `contents` into the slot of `key` (what a callback does to the slot
that `query->result` points to). -/
def write_slot (htab : List (Slot κ ε)) (key : κ) (contents : ε) : List (Slot κ ε) :=
  htab.map (fun s => if s.1 = key then (key, some contents) else s)

/-- The C function `cache_init`: an error if the backing table exists, else
creates an empty table and sets `refcount = 1`, `release_on_commit = true`.
The `Assert(MemoryContextContains(...))` is about where the struct is
allocated and has no counterpart here. -/
def cache_init (w : Backend κ ε) (cache : CachePtr) : Except CacheError (Backend κ ε) :=
  let c := w.caches cache
  if c.htab.isSome then
    .error .ERROR_cache_already_init
  else
    .ok (w.setCache cache { c with htab := some [], refcount := 1, release_on_commit := true })

/-- The C function `cache_destroy`: returns at once while `refcount > 0`;
otherwise runs the hook if one is set, then `hash_destroy`, then
`MemoryContextDelete`. -/
def cache_destroy (w : Backend κ ε) (cache : CachePtr) : Backend κ ε :=
  let c := w.caches cache
  if 0 < c.refcount then
    w
  else
    { w with teardown_log := w.teardown_log ++
        ((if c.pre_destroy_hook then [TeardownEvent.pre_destroy_hook cache] else []) ++
          [TeardownEvent.hash_destroy cache, TeardownEvent.MemoryContextDelete cache]) }

/-- The statement `cache->refcount--`. -/
def decr_refcount (w : Backend κ ε) (cache : CachePtr) : Backend κ ε :=
  let c := w.caches cache
  w.setCache cache { c with refcount := c.refcount - 1 }

/-- The statement pair `cache->refcount--; cache_destroy(cache);` of
`cache_invalidate` and of the loop in `relase_all_pinned_caches`. -/
def decr_and_destroy (w : Backend κ ε) (cache : CachePtr) : Backend κ ε :=
  cache_destroy (decr_refcount w cache) cache

/-- The C function `cache_invalidate`; `none` is a `NULL` argument. -/
def cache_invalidate (w : Backend κ ε) : Option CachePtr → Backend κ ε
  | none => w
  | some cache => decr_and_destroy w cache

/-- The largest value of a C `int` (4 bytes). -/
def INT_MAX : Int := 2147483647

/-- The smallest value of a C `int` (4 bytes). -/
def INT_MIN : Int := -2147483648

/-- The value a 4-byte two's-complement `int` holds after an arithmetic result
`n`: `n` itself between `INT_MIN` and `INT_MAX`, and `n` reduced modulo `2^32`
into that range otherwise, so `INT_MAX + 1` is `INT_MIN`. -/
def int32_wrap (n : Int) : Int :=
  (n + 2147483648) % 4294967296 - 2147483648

/-- The C function `cache_pin`: appends to `pinned_caches`, then increments
`refcount` (`cache->refcount++` on a 4-byte `int`, which wraps at `INT_MAX`),
and returns its argument. -/
def cache_pin (w : Backend κ ε) (cache : CachePtr) : Backend κ ε × CachePtr :=
  let w1 := { w with pinned_caches := lappend w.pinned_caches cache }
  let c := w1.caches cache
  (w1.setCache cache { c with refcount := int32_wrap (c.refcount + 1) }, cache)

/-- The C function `cache_release`.  `asserts` says whether the build has
`Assert` enabled; the returned integer is the local `refcount`, computed before
the decrement as `cache->refcount - 1`. -/
def cache_release (asserts : Bool) (w : Backend κ ε) (cache : CachePtr) :
    Except CacheError (Backend κ ε × Int) :=
  let refcount := (w.caches cache).refcount - 1
  if asserts && !decide (0 < (w.caches cache).refcount) then
    .error .TRAP_failed_assertion
  else
    let w1 := decr_refcount w cache
    let w2 := { w1 with pinned_caches := list_delete_ptr w1.pinned_caches cache }
    .ok (cache_destroy w2 cache, refcount)

/-- The C function `cache_fetch`, with the query given by its key. -/
def cache_fetch (w : Backend κ ε) (cache : CachePtr) (key : κ) :
    Except CacheError (Backend κ ε × Option (Slot κ ε)) :=
  let c := w.caches cache
  let action := if c.create_entry.isNone then HASHACTION.HASH_FIND else HASHACTION.HASH_ENTER
  match c.htab with
  | none => .error .ERROR_hash_not_init
  | some htab =>
    match hash_search htab key action with
    | (htab1, result, true) =>
      let stats1 := { c.stats with hits := c.stats.hits + 1 }
      match c.update_entry with
      | some update =>
        let contents := update key (result.bind Prod.snd)
        .ok (w.setCache cache { c with htab := some (write_slot htab1 key contents), stats := stats1 },
             some (key, some contents))
      | none => .ok (w.setCache cache { c with htab := some htab1, stats := stats1 }, result)
    | (htab1, result, false) =>
      let stats1 := { c.stats with misses := c.stats.misses + 1 }
      match c.create_entry with
      | some create =>
        let contents := create key
        .ok (w.setCache cache { c with
               htab := some (write_slot htab1 key contents),
               stats := { stats1 with numelements := stats1.numelements + 1 } },
             some (key, some contents))
      | none => .ok (w.setCache cache { c with htab := some htab1, stats := stats1 }, result)

/-- The C function `cache_remove`.  The table is handed to `hash_search`
without a check, so the call has no defined outcome (`none`) on a cache whose
table is `NULL`. -/
def cache_remove (w : Backend κ ε) (cache : CachePtr) (key : κ) : Option (Backend κ ε × Bool) :=
  let c := w.caches cache
  match c.htab with
  | none => none
  | some htab =>
    match hash_search htab key HASHACTION.HASH_REMOVE with
    | (htab1, _, true) =>
      some (w.setCache cache { c with
         htab := some htab1,
         stats := { c.stats with numelements := c.stats.numelements - 1 } }, true)
    | (htab1, _, false) => some (w.setCache cache { c with htab := some htab1 }, false)

/-- The C function `relase_all_pinned_caches`: one decrement and one
`cache_destroy` per cell of `pinned_caches`, then the list is freed and reset
to `NIL`. -/
def relase_all_pinned_caches (w : Backend κ ε) : Backend κ ε :=
  let w1 := w.pinned_caches.foldl decr_and_destroy w
  { w1 with pinned_caches := [] }

/-- The body of the `foreach` in the `default:` branch of `cache_xact_end` for
one cell. -/
def xact_end_cell (asserts : Bool) (w : Backend κ ε) (cache : CachePtr) :
    Except CacheError (Backend κ ε) :=
  if asserts && (w.caches cache).release_on_commit then
    .error .TRAP_failed_assertion
  else if (w.caches cache).release_on_commit then
    (cache_release asserts w cache).map Prod.fst
  else
    .ok w

/-- The C function `cache_xact_end`.  The abort cases have no `break`, so they
fall through into the `default:` loop.  That loop visits the cells that are in
`pinned_caches` when it starts: `foreach` follows each cell's `next` link, and
the only cell `cache_release` unlinks during a visit is the visited one (every
earlier cell of the same cache was unlinked in its own visit). -/
def cache_xact_end (asserts : Bool) (w : Backend κ ε) (event : XactEvent) :
    Except CacheError (Backend κ ε) :=
  let w1 := match event with
    | .XACT_EVENT_ABORT => relase_all_pinned_caches w
    | .XACT_EVENT_PARALLEL_ABORT => relase_all_pinned_caches w
    | _ => w
  w1.pinned_caches.foldlM (xact_end_cell asserts) w1

/-- The C function `cache_subxact_abort`: after the `Assert`, releases all
pinned caches whatever the event. -/
def cache_subxact_abort (asserts : Bool) (w : Backend κ ε) (event : SubXactEvent) :
    Except CacheError (Backend κ ε) :=
  if asserts && !(decide (event = SubXactEvent.SUBXACT_EVENT_ABORT_SUB) ||
      decide (w.pinned_caches.length = 0)) then
    .error .TRAP_failed_assertion
  else
    .ok (relase_all_pinned_caches w)


/-- A cache struct as an allocator hands it out: no table, all counters zero,
no callbacks. -/
def blank_cache : Cache Nat Nat :=
  { htab := none, refcount := 0, release_on_commit := false,
    stats := { numelements := 0, hits := 0, misses := 0 },
    create_entry := none, update_entry := none, pre_destroy_hook := false }

/-- A backend in which no cache has been initialised and nothing is pinned. -/
def blank_backend : Backend Nat Nat :=
  { caches := fun _ => blank_cache, pinned_caches := [], teardown_log := [] }

/-- The blank backend after `cache_init` of the cache at pointer `cache`. -/
def fresh_backend (cache : CachePtr) : Backend Nat Nat :=
  blank_backend.setCache cache
    { blank_cache with htab := some [], refcount := 1, release_on_commit := true }


/-- A backend whose cache 0 is initialised and has `refcount = INT_MAX`. -/
def saturated_backend : Backend Nat Nat :=
  blank_backend.setCache 0
    { blank_cache with htab := some [], refcount := 2147483647, release_on_commit := true }


/-- Two caches pinned three times in all: cache 0 (released on commit) holds
two pins, cache 1 (kept across commits) holds one. -/
def pinned_backend : Backend Nat Nat :=
  { caches := fun p =>
      if p = 0 then { blank_cache with htab := some [], refcount := 3, release_on_commit := true }
      else if p = 1 then { blank_cache with htab := some [], refcount := 1 }
      else blank_cache,
    pinned_caches := [0, 1, 0],
    teardown_log := [] }


/-- A backend whose cache 0 is initialised with a `create_entry` callback and
holds one entry, for key 7. -/
def lookup_backend : Backend Nat Nat :=
  blank_backend.setCache 0
    { blank_cache with
      htab := some [(7, some 70)], refcount := 1, release_on_commit := true,
      stats := { numelements := 1, hits := 0, misses := 1 },
      create_entry := some (fun key => 10 * key) }


/-- A call into `cache.c` that changes reference counts: the three functions
used by owners and consumers of a cache, and the two callbacks registered with
the transaction machinery in `_cache_init`. -/
inductive CacheOp where
  | pin (cache : CachePtr)
  | release (cache : CachePtr)
  | invalidate (cache : Option CachePtr)
  | xact_end (event : XactEvent)
  | subxact (event : SubXactEvent)
  deriving DecidableEq, Repr

/-- Perform one call, keeping the state only. -/
def cache_op (asserts : Bool) (w : Backend κ ε) : CacheOp → Except CacheError (Backend κ ε)
  | .pin cache => .ok (cache_pin w cache).1
  | .release cache => (cache_release asserts w cache).map Prod.fst
  | .invalidate cache => .ok (cache_invalidate w cache)
  | .xact_end event => cache_xact_end asserts w event
  | .subxact event => cache_subxact_abort asserts w event

/-- Perform a sequence of calls, left to right. -/
def run_cache_ops (asserts : Bool) (w : Backend κ ε) (ops : List CacheOp) :
    Except CacheError (Backend κ ε) :=
  ops.foldlM (cache_op asserts) w

/-- How many times a call that returns decrements the `refcount` of `cache`
when made in state `w`. -/
def op_decrements (w : Backend κ ε) (cache : CachePtr) : CacheOp → Nat
  | .pin _ => 0
  | .release c => if c = cache then 1 else 0
  | .invalidate none => 0
  | .invalidate (some c) => if c = cache then 1 else 0
  | .xact_end .XACT_EVENT_ABORT => w.pinned_caches.count cache
  | .xact_end .XACT_EVENT_PARALLEL_ABORT => w.pinned_caches.count cache
  | .xact_end _ =>
    if (w.caches cache).release_on_commit then w.pinned_caches.count cache else 0
  | .subxact _ => w.pinned_caches.count cache

/-- A call respects the reference count of `cache` in state `w` when it does
not decrement `refcount` more often than its value (so every single decrement
is applied to a positive `refcount`), and, being `cache_pin` on `cache`, is
made while `0 < refcount < INT_MAX` (the cache is live and the increment does
not wrap). -/
def op_in_order (w : Backend κ ε) (cache : CachePtr) (op : CacheOp) : Bool :=
  decide ((op_decrements w cache op : Int) ≤ (w.caches cache).refcount) &&
  (decide (op ≠ CacheOp.pin cache) ||
    (decide (0 < (w.caches cache).refcount) && decide ((w.caches cache).refcount < INT_MAX)))

/-- Every call of the sequence returns and respects the reference count of
`cache` in the state it is made in. -/
def cache_ops_in_order (asserts : Bool) (cache : CachePtr) :
    Backend κ ε → List CacheOp → Bool
  | _, [] => true
  | w, op :: ops =>
    op_in_order w cache op &&
    match cache_op asserts w op with
    | .ok w1 => cache_ops_in_order asserts cache w1 ops
    | .error _ => false

/-- The state of `cache` relative to `base` teardowns recorded earlier: the
`refcount` is not negative, and the teardown has run once more if it is 0 and
not again otherwise. -/
def RefcountInv (base : Nat) (cache : CachePtr) (w : Backend κ ε) : Prop :=
  0 ≤ (w.caches cache).refcount ∧
  w.teardowns cache = base + (if (w.caches cache).refcount = 0 then 1 else 0)


/-! ## The DDL hooks (`src/process_utility.c`) and the extension state (`src/extension.c`)

Statements are values of the parse-tree types below, with the fields the code
reads.  Everything the code asks of PostgreSQL or of TimescaleDB modules that
are not part of these sources is either a lookup in an environment `Env` (the
catalog as it is when the hook runs) or an external call; external calls are
recorded, in order, as `Effect`s, and a call raises exactly when the
environment says so.  A raised error leaves the function at once, as
`ereport(ERROR, ...)` does.
-/

/-- A PostgreSQL object identifier. -/
abbrev Oid := Nat

/-- PostgreSQL `InvalidOid`. -/
def InvalidOid : Oid := 0

/-- PostgreSQL `OidIsValid`. -/
def OidIsValid (oid : Oid) : Bool := oid != InvalidOid

/-- An SQL identifier (a relation, column, schema, role or index name). -/
abbrev Ident := Nat

/-- The SQLSTATE classes named in the sources; `other` is any code raised
inside an external call. -/
inductive ErrorCode where
  | ERRCODE_FEATURE_NOT_SUPPORTED
  | ERRCODE_UNDEFINED_OBJECT
  | ERRCODE_IO_OPERATION_NOT_SUPPORTED
  | ERRCODE_INSUFFICIENT_PRIVILEGE
  | ERRCODE_INTERNAL_ERROR
  | other (sqlstate : Nat)
  deriving DecidableEq, Repr

/-- Where an error is raised: one constructor per `ereport(ERROR, ...)` and
`elog(ERROR, ...)` of `process_utility.c` and `extension.c`, `in_callee` for an
error raised inside an external call, and `ill_formed_node` for a parse tree
that breaks one of the `Assert(IsA(...))` shape checks. -/
inductive ErrorSite where
  | chunk_operation_not_supported
  | drop_hypertable_with_other_objects
  | reindex_specific_index
  | foreign_key_to_hypertable
  | unexpected_constraint_type
  | concurrent_index_creation
  | index_end_not_yet_supported
  | cache_lookup_failed_for_index
  | no_previously_clustered_index
  | hash_partitioned_column_type
  | native_partitioning
  | constraint_using_existing_index
  | transition_tables
  | not_fired_by_event_trigger
  | mismatched_version
  | aclcheck_not_owner
  | failed_assertion
  | ill_formed_node
  | in_callee
  deriving DecidableEq, Repr

/-- A raised error: its SQLSTATE class and where it was raised. -/
structure PUError where
  code : ErrorCode
  site : ErrorSite
  deriving DecidableEq, Repr

/-- PostgreSQL `RangeVar`: a possibly schema-qualified relation name. -/
structure RangeVar where
  schemaname : Option Ident
  relname : Ident
  deriving DecidableEq, Repr

/-- PostgreSQL `ObjectType`, with the values the code switches on. -/
inductive ObjectType where
  | OBJECT_TABLE
  | OBJECT_INDEX
  | OBJECT_COLUMN
  | OBJECT_TRIGGER
  | OBJECT_OTHER
  deriving DecidableEq, Repr

/-- PostgreSQL `DropBehavior`. -/
inductive DropBehavior where
  | DROP_RESTRICT
  | DROP_CASCADE
  deriving DecidableEq, Repr

/-- PostgreSQL `ConstrType`, with the values the code switches on. -/
inductive ConstrType where
  | CONSTR_FOREIGN
  | CONSTR_UNIQUE
  | CONSTR_PRIMARY
  | CONSTR_EXCLUSION
  | CONSTR_CHECK
  | CONSTR_OTHER
  deriving DecidableEq, Repr

/-- PostgreSQL `Constraint` node. -/
structure Constraint where
  contype : ConstrType
  conname : Option Ident
  pktable : RangeVar
  keys : List Ident
  exclusions : List Ident
  indexname : Option Ident
  deriving DecidableEq, Repr

/-- PostgreSQL `IndexStmt` node. -/
structure IndexStmt where
  relation : RangeVar
  idxname : Option Ident
  indexParams : List Ident
  primary : Bool
  isconstraint : Bool
  concurrent : Bool
  deriving DecidableEq, Repr

/-- PostgreSQL `ColumnDef` node. -/
structure ColumnDef where
  typeName : Ident
  constraints : List Constraint
  deriving DecidableEq, Repr

/-- PostgreSQL `AlterTableType`, with the values the code switches on. -/
inductive AlterTableType where
  | AT_AddIndex
  | AT_AddIndexConstraint
  | AT_AddConstraint
  | AT_AddConstraintRecurse
  | AT_DropConstraint
  | AT_DropConstraintRecurse
  | AT_AlterColumnType
  | AT_AttachPartition
  | AT_ChangeOwner
  | AT_SetRelOptions
  | AT_ResetRelOptions
  | AT_ReplaceRelOptions
  | AT_AddOids
  | AT_DropOids
  | AT_SetTableSpace
  | AT_Other
  deriving DecidableEq, Repr

/-- The node `cmd->def` of an `AlterTableCmd` points to. -/
inductive AlterTableDef where
  | NULL
  | T_IndexStmt (stmt : IndexStmt)
  | T_Constraint (constr : Constraint)
  | T_ColumnDef (coldef : ColumnDef)
  | T_PartitionCmd (name : RangeVar)
  deriving DecidableEq, Repr

/-- PostgreSQL `AlterTableCmd` node; `newowner` is the role name of the
`RoleSpec`. -/
structure AlterTableCmd where
  subtype : AlterTableType
  name : Option Ident
  newowner : Option Ident
  def_ : AlterTableDef
  deriving DecidableEq, Repr

/-- PostgreSQL `ReindexObjectType`. -/
inductive ReindexObjectType where
  | REINDEX_OBJECT_INDEX
  | REINDEX_OBJECT_TABLE
  | REINDEX_OBJECT_SCHEMA
  | REINDEX_OBJECT_SYSTEM
  | REINDEX_OBJECT_DATABASE
  deriving DecidableEq, Repr

/-- PostgreSQL `TruncateStmt` node. -/
structure TruncateStmt where
  relations : List (Option RangeVar)
  behavior : DropBehavior
  deriving DecidableEq, Repr

/-- PostgreSQL `AlterObjectSchemaStmt` node. -/
structure AlterObjectSchemaStmt where
  objectType : ObjectType
  relation : Option RangeVar
  newschema : Ident
  deriving DecidableEq, Repr

/-- PostgreSQL `AlterTableStmt` node. -/
structure AlterTableStmt where
  relkind : ObjectType
  relation : RangeVar
  cmds : List AlterTableCmd
  deriving DecidableEq, Repr

/-- PostgreSQL `RenameStmt` node. -/
structure RenameStmt where
  renameType : ObjectType
  relation : Option RangeVar
  subname : Ident
  newname : Ident
  deriving DecidableEq, Repr

/-- PostgreSQL `CreateTrigStmt` node. -/
structure CreateTrigStmt where
  row : Bool
  relation : RangeVar
  trigname : Ident
  transitionRels : List Ident
  deriving DecidableEq, Repr

/-- PostgreSQL `DropStmt` node; an object is a list of name parts. -/
structure DropStmt where
  removeType : ObjectType
  objects : List (List Ident)
  behavior : DropBehavior
  missing_ok : Bool
  deriving DecidableEq, Repr

/-- PostgreSQL `CopyStmt` node. -/
structure CopyStmt where
  is_from : Bool
  relation : Option RangeVar
  deriving DecidableEq, Repr

/-- PostgreSQL `VacuumStmt` node; `vacopt_vacuum` is the `VACOPT_VACUUM` bit of
`options`. -/
structure VacuumStmt where
  relation : Option RangeVar
  vacopt_vacuum : Bool
  deriving DecidableEq, Repr

/-- PostgreSQL `ReindexStmt` node. -/
structure ReindexStmt where
  kind : ReindexObjectType
  relation : Option RangeVar
  options : Nat
  deriving DecidableEq, Repr

/-- PostgreSQL `ClusterStmt` node. -/
structure ClusterStmt where
  relation : Option RangeVar
  indexname : Option Ident
  verbose : Bool
  deriving DecidableEq, Repr

/-- An element of `CreateStmt.tableElts`, by node tag. -/
inductive TableElt where
  | T_ColumnDef (coldef : ColumnDef)
  | T_Constraint (constr : Constraint)
  | T_TableLikeClause
  | T_Other
  deriving DecidableEq, Repr

/-- PostgreSQL `CreateStmt` node. -/
structure CreateStmt where
  relation : RangeVar
  constraints : List Constraint
  tableElts : List TableElt
  deriving DecidableEq, Repr

/-- A utility statement, by node tag; `T_Other` is every tag the hooks do not
switch on. -/
inductive Node where
  | T_TruncateStmt (stmt : TruncateStmt)
  | T_AlterObjectSchemaStmt (stmt : AlterObjectSchemaStmt)
  | T_AlterTableStmt (stmt : AlterTableStmt)
  | T_RenameStmt (stmt : RenameStmt)
  | T_IndexStmt (stmt : IndexStmt)
  | T_CreateTrigStmt (stmt : CreateTrigStmt)
  | T_DropStmt (stmt : DropStmt)
  | T_CopyStmt (stmt : CopyStmt)
  | T_VacuumStmt (stmt : VacuumStmt)
  | T_ReindexStmt (stmt : ReindexStmt)
  | T_ClusterStmt (stmt : ClusterStmt)
  | T_CreateStmt (stmt : CreateStmt)
  | T_Other
  deriving DecidableEq, Repr

/-- PostgreSQL `ProcessUtilityContext`. -/
inductive ProcessUtilityContext where
  | PROCESS_UTILITY_TOPLEVEL
  | PROCESS_UTILITY_QUERY
  | PROCESS_UTILITY_SUBCOMMAND
  deriving DecidableEq, Repr

/-- The struct `ProcessUtilityArgs`: the arguments of the `ProcessUtility`
hook.  `completion_tag` says whether that pointer is not `NULL`;
`query_string`, `params` and `dest` (and, on PostgreSQL 10, `pstmt` and
`queryEnv`) are only passed on and are gathered in `passed_on`. -/
structure ProcessUtilityArgs where
  parsetree : Node
  context : ProcessUtilityContext
  completion_tag : Bool
  passed_on : Nat
  deriving DecidableEq, Repr

/-- PostgreSQL `CollectedCommandType`. -/
inductive CollectedCommandType where
  | SCT_Simple
  | SCT_AlterTable
  | SCT_Other
  deriving DecidableEq, Repr

/-- PostgreSQL `CollectedATSubcmd`: a subcommand and the object it made. -/
structure CollectedATSubcmd where
  parsetree : AlterTableCmd
  address : Oid
  deriving DecidableEq, Repr

/-- PostgreSQL `CollectedCommand`, with the members of the union `d` that the
code reads: `d.simple.address.objectId`, `d.simple.secondaryObject.objectId`
and `d.alterTable.subcmds`. -/
structure CollectedCommand where
  type : CollectedCommandType
  parsetree : Node
  address : Oid
  secondaryObject : Oid
  subcmds : List CollectedATSubcmd
  deriving DecidableEq, Repr

/-- Modelled from the spec: a partitioning dimension of a logical table ("each
with column name, kind, and type"); `struct Dimension` (`dimension.h`) is not
among the sources.  `closed` is `IS_CLOSED_DIMENSION`. -/
structure Dimension where
  id : Nat
  column_name : Ident
  closed : Bool
  deriving DecidableEq, Repr

/-- Modelled from the spec: the logical-table descriptor ("identifier,
schema/table name, physical root identifier, ordered partitioning
dimensions"); `struct Hypertable` (`hypertable.h`) is not among the sources. -/
structure Hypertable where
  id : Nat
  schema_name : Ident
  table_name : Ident
  main_table_relid : Oid
  dimensions : List Dimension
  deriving DecidableEq, Repr

/-- Modelled from the spec: a partition ("one physical storage unit");
`struct Chunk` (`chunk.h`) is not among the sources. -/
structure Chunk where
  id : Nat
  table_id : Oid
  schema_name : Ident
  table_name : Ident
  deriving DecidableEq, Repr

/-- The struct `ChunkIndexMapping` (`chunk_index.h`, not among the sources): a
partition and its index that corresponds to an index of the logical table. -/
structure ChunkIndexMapping where
  chunkoid : Oid
  indexoid : Oid
  deriving DecidableEq, Repr

/-- The states of `enum ExtensionState` that `extension.c` switches on. -/
inductive ExtensionState where
  | EXTENSION_STATE_NOT_INSTALLED
  | EXTENSION_STATE_UNKNOWN
  | EXTENSION_STATE_TRANSITIONING
  | EXTENSION_STATE_CREATED
  deriving DecidableEq, Repr

/-- PostgreSQL `Trigger`, with what the code reads of it; `is_chunk_trigger` is
the answer of `trigger_is_chunk_trigger`. -/
structure Trigger where
  tgname : Ident
  is_chunk_trigger : Bool
  deriving DecidableEq, Repr

/-- The external calls made by the statement handlers and by `extension.c`,
named after the called function or macro, with the arguments that identify the
call. -/
inductive Effect where
  | hypertable_cache_pin
  | cache_release
  | process_truncate_hypertable (ht : Nat) (cascade : Bool)
  | hypertable_set_schema (ht : Nat) (newschema : Ident)
  | executor_level_enter
  | timescaledb_DoCopy (ht : Nat)
  | executor_level_exit
  | snprintf_completion_tag
  | PreventCommandDuringRecovery
  | ExecVacuum (schemaname relname : Ident) (is_toplevel : Bool)
  | catalog_become_owner
  | catalog_restore_user
  | process_drop_hypertable (ht : Nat) (cascade : Bool)
  | chunk_delete_by_relid (relid : Oid)
  | RemoveTriggerById (trigger_oid : Oid)
  | chunk_index_delete_children_of (ht : Nat) (idxrelid : Oid) (should_drop : Bool)
  | chunk_index_delete (chunk : Nat) (idxrelid : Oid) (drop_index : Bool)
  | ReindexTable (schemaname relname : Ident)
  | hypertable_set_name (ht : Nat) (newname : Ident)
  | dimension_update_name (dim : Nat) (newname : Ident)
  | chunk_index_rename_parent (ht : Nat) (relid : Oid) (newname : Ident)
  | chunk_index_rename (chunk : Nat) (relid : Oid) (newname : Ident)
  | process_change_hypertable_owner (main_table_relid : Oid) (rolename : Ident)
  | chunk_constraint_create_on_chunk (chunk : Nat) (constraint_oid : Oid)
  | chunk_constraint_delete_by_hypertable_constraint_name (chunk : Nat) (name : Ident)
  | indexing_verify_columns (ht : Nat) (keys : List Ident)
  | indexing_verify_index (ht : Nat) (stmt : IndexStmt)
  | chunk_index_create_from_stmt (chunk : Nat) (chunk_relid : Oid) (ht : Nat) (idx : Oid)
  | PreventTransactionChain (is_top_level : Bool)
  | PopActiveSnapshot
  | CommitTransactionCommand
  | StartTransactionCommand
  | PushActiveSnapshot
  | chunk_index_mark_clustered (chunkoid indexoid : Oid)
  | cluster_rel (chunkoid indexoid : Oid) (verbose : Bool)
  | MemoryContextDelete
  | dimension_update_type (dim : Nat) (new_type : Oid)
  | chunk_recreate_all_constraints_for_dimension (dim : Nat)
  | AlterTableInternal (chunk_relid : Oid) (cmd : AlterTableCmd)
  | chunk_index_set_tablespace (ht : Nat) (indexrelid : Oid) (name : Option Ident)
  | trigger_create_on_chunk (trigger_oid : Oid) (chunk_relid : Oid)
  | EventTriggerInhibitCommandCollection
  | EventTriggerUndoInhibitCommandCollection
  | catalog_reset
  deriving DecidableEq, Repr

/-- What the hook `timescaledb_ddl_command_start` does as seen by the host: the
external calls made by the extension state check and by the statement handler,
and the two ways of running the host's own execution of the statement. -/
inductive HookEvent where
  | handler (effect : Effect)
  | prev_ProcessUtility_hook (args : ProcessUtilityArgs)
  | standard_ProcessUtility (args : ProcessUtilityArgs)
  deriving DecidableEq, Repr

/-- What the code can ask of its surroundings while one hook runs.  The lookups
are PostgreSQL catalog functions and functions of TimescaleDB modules that are
not among the sources (an invalid `Oid` or `none` is their "not found");
`raises` says which external calls raise, and with which SQLSTATE class;
`asserts` says whether the build has `Assert` enabled and `PG10` whether it is
built for PostgreSQL 10 (otherwise 9.6). -/
structure Env where
  asserts : Bool
  PG10 : Bool
  raises : Effect → Option ErrorCode
  default_raises : ProcessUtilityArgs → Option ErrorCode
  RangeVarGetRelid : RangeVar → Oid
  makeRangeVarFromNameList : List Ident → Option RangeVar
  hypertable_of : Oid → Option Hypertable
  chunk_exists_relid : Oid → Bool
  chunk_of : Oid → Option Chunk
  find_inheritance_children : Oid → List Oid
  IndexGetRelation : Oid → Oid
  trigger_by_name : Oid → Ident → Option Trigger
  get_trigger_oid : Oid → Ident → Oid
  get_relation_constraint_oid : Oid → Ident → Oid
  get_constraint_index : Oid → Oid
  get_rel_namespace : Oid → Oid
  get_relname_relid : Ident → Oid → Oid
  get_rel_name : Oid → Ident
  RelationGetIndexList : Oid → List Oid
  indisclustered : Oid → Option Bool
  pg_class_ownercheck : Oid → Bool
  chunk_index_get_mappings : Nat → Oid → List ChunkIndexMapping
  TypenameGetTypid : Ident → Oid
  event_trigger_ddl_commands : List CollectedCommand
  guc_restoring : Bool
  extension_current_state : ExtensionState
  version_check_possible : Bool
  sql_version_matches : Bool
  extension_proxy_table : Option Oid

/-- The file-level variables of `process_utility.c` and `extension.c`;
`prev_ProcessUtility_hook` says whether that pointer is not `NULL`. -/
structure PUState where
  expect_chunk_modification : Bool
  prev_ProcessUtility_hook : Bool
  extstate : ExtensionState
  extension_proxy_oid : Oid
  deriving DecidableEq, Repr

/-- The outcome of running a piece of code: its result or the error it raised,
the file-level variables afterwards, and the external calls it made, in
order. -/
structure Run (ω α : Type) where
  result : Except PUError α
  state : PUState
  emitted : List ω

/-- A piece of code: started in a state, it produces an outcome. -/
structure Cmd (ω α : Type) where
  run : PUState → Run ω α

/-- Return a value without doing anything. -/
def Cmd.pure {ω α : Type} (a : α) : Cmd ω α :=
  ⟨fun s => ⟨.ok a, s, []⟩⟩

/-- Sequencing: the second piece runs, in the state the first one left, only if
the first one returned; the calls made add up. -/
def Cmd.bind {ω α β : Type} (c : Cmd ω α) (f : α → Cmd ω β) : Cmd ω β :=
  ⟨fun s =>
    match c.run s with
    | ⟨.error e, s1, out1⟩ => ⟨.error e, s1, out1⟩
    | ⟨.ok a, s1, out1⟩ =>
      match (f a).run s1 with
      | ⟨r, s2, out2⟩ => ⟨r, s2, out1 ++ out2⟩⟩

instance {ω : Type} : Monad (Cmd ω) where
  pure := Cmd.pure
  bind := Cmd.bind

/-- The statement `ereport(ERROR, ...)` or `elog(ERROR, ...)`. -/
def raise {ω α : Type} (code : ErrorCode) (site : ErrorSite) : Cmd ω α :=
  ⟨fun s => ⟨.error ⟨code, site⟩, s, []⟩⟩

/-- An external call that cannot raise. -/
def emit {ω : Type} (e : ω) : Cmd ω Unit :=
  ⟨fun s => ⟨.ok (), s, [e]⟩⟩

/-- An external call: it is recorded, and it raises if the environment says
so. -/
def call (env : Env) (e : Effect) : Cmd Effect Unit :=
  ⟨fun s =>
    match env.raises e with
    | some code => ⟨.error ⟨code, ErrorSite.in_callee⟩, s, [e]⟩
    | none => ⟨.ok (), s, [e]⟩⟩

/-- Read the file-level variables. -/
def get_state {ω : Type} : Cmd ω PUState :=
  ⟨fun s => ⟨.ok s, s, []⟩⟩

/-- Write the file-level variables. -/
def set_state {ω : Type} (s1 : PUState) : Cmd ω Unit :=
  ⟨fun _ => ⟨.ok (), s1, []⟩⟩

/-- Run handler-level code inside the hook: its external calls become hook
events. -/
def as_handler {α : Type} (c : Cmd Effect α) : Cmd HookEvent α :=
  ⟨fun s =>
    match c.run s with
    | ⟨r, s1, out⟩ => ⟨r, s1, out.map HookEvent.handler⟩⟩

/-- A `foreach` loop whose body only acts. -/
def for_each {ω β : Type} (body : β → Cmd ω Unit) : List β → Cmd ω Unit
  | [] => Cmd.pure ()
  | x :: rest => Cmd.bind (body x) (fun _ => for_each body rest)

/-- A `foreach` loop whose body updates a local variable. -/
def for_each_with {ω β γ : Type} (body : γ → β → Cmd ω γ) : γ → List β → Cmd ω γ
  | acc, [] => Cmd.pure acc
  | acc, x :: rest => Cmd.bind (body acc x) (fun acc1 => for_each_with body acc1 rest)

/-- The C macro `Assert(condition)`: checked in an assert-enabled build only. -/
def Assert {ω : Type} (env : Env) (condition : Bool) : Cmd ω Unit :=
  if env.asserts && !condition then
    raise ErrorCode.ERRCODE_INTERNAL_ERROR ErrorSite.failed_assertion
  else
    Cmd.pure ()

/-- Modelled from the spec: `hypertable_cache_get_entry` (`hypertable_cache.c`,
not among the sources) is the lookup of the LogicalTableRegistry, which "maps a
table identifier to a decoded logical-table descriptor"; `none` is the `NULL`
returned for a relation that is not a logical table. -/
def hypertable_cache_get_entry (env : Env) (relid : Oid) : Option Hypertable :=
  if OidIsValid relid then env.hypertable_of relid else none

/-- Modelled from the spec: `hypertable_cache_get_entry_rv`
(`hypertable_cache.c`, not among the sources) resolves the name and looks the
relation up in the registry. -/
def hypertable_cache_get_entry_rv (env : Env) (rv : RangeVar) : Option Hypertable :=
  hypertable_cache_get_entry env (env.RangeVarGetRelid rv)

/-- Modelled from the spec: `hypertable_relid` (`hypertable.c`, not among the
sources) resolves the name "through LogicalTableRegistry (pin, lookup,
release)" and returns the root table of the logical table, or `InvalidOid`. -/
def hypertable_relid (env : Env) (rv : RangeVar) : Cmd Effect Oid := do
  emit Effect.hypertable_cache_pin
  let ht := hypertable_cache_get_entry_rv env rv
  emit Effect.cache_release
  match ht with
  | some ht => pure ht.main_table_relid
  | none => pure InvalidOid

/-- The lookup `chunk_get_by_relid(relid, ndims, true)` (`chunk.c`, not among
the sources): with `fail_if_not_found` set it raises for a relation that is not
a partition.  With the flag unset the lookup is `env.chunk_of`. -/
def chunk_get_by_relid_or_raise (env : Env) (relid : Oid) : Cmd Effect Chunk :=
  match env.chunk_of relid with
  | some chunk => pure chunk
  | none => raise (ErrorCode.other 0) ErrorSite.in_callee

/-- A catalog lookup called with `missing_ok = false`: it raises when the
object is not found. -/
def found_or_raise (oid : Oid) : Cmd Effect Oid :=
  if OidIsValid oid then pure oid
  else raise ErrorCode.ERRCODE_UNDEFINED_OBJECT ErrorSite.in_callee

/-- The C function `process_utility_set_expect_chunk_modification`. -/
def process_utility_set_expect_chunk_modification {ω : Type} (expect : Bool) : Cmd ω Unit :=
  ⟨fun s => ⟨.ok (), { s with expect_chunk_modification := expect }, []⟩⟩

/-- The C function `prev_ProcessUtility`: the earlier hook if there is one,
else `standard_ProcessUtility`, with the arguments it was given. -/
def prev_ProcessUtility (env : Env) (args : ProcessUtilityArgs) : Cmd HookEvent Unit :=
  ⟨fun s =>
    let event := if s.prev_ProcessUtility_hook then HookEvent.prev_ProcessUtility_hook args
      else HookEvent.standard_ProcessUtility args
    match env.default_raises args with
    | some code => ⟨.error ⟨code, ErrorSite.in_callee⟩, s, [event]⟩
    | none => ⟨.ok (), s, [event]⟩⟩

/-- The C function `check_chunk_operation_allowed`. -/
def check_chunk_operation_allowed (env : Env) (relid : Oid) : Cmd Effect Unit := do
  let s ← get_state
  if s.expect_chunk_modification then
    pure ()
  else if env.chunk_exists_relid relid then
    raise ErrorCode.ERRCODE_FEATURE_NOT_SUPPORTED ErrorSite.chunk_operation_not_supported
  else
    pure ()

/-- The C function `process_truncate`. -/
def process_truncate (env : Env) (truncatestmt : TruncateStmt) : Cmd Effect Unit := do
  emit Effect.hypertable_cache_pin
  for_each (fun (relation : Option RangeVar) =>
    match relation with
    | none => pure ()
    | some relation =>
      let relid := env.RangeVarGetRelid relation
      if OidIsValid relid then
        match hypertable_cache_get_entry env relid with
        | some ht =>
          call env (Effect.process_truncate_hypertable ht.id
            (decide (truncatestmt.behavior = DropBehavior.DROP_CASCADE)))
        | none => pure ()
      else pure ()) truncatestmt.relations
  emit Effect.cache_release

/-- The C function `process_alterobjectschema`. -/
def process_alterobjectschema (env : Env) (alterstmt : AlterObjectSchemaStmt) :
    Cmd Effect Unit :=
  match alterstmt.relation with
  | none => pure ()
  | some relation =>
    if alterstmt.objectType ≠ ObjectType.OBJECT_TABLE then pure ()
    else
      let relid := env.RangeVarGetRelid relation
      if !OidIsValid relid then pure ()
      else do
        emit Effect.hypertable_cache_pin
        match hypertable_cache_get_entry env relid with
        | some ht => call env (Effect.hypertable_set_schema ht.id alterstmt.newschema)
        | none => pure ()
        emit Effect.cache_release

/-- The C function `process_copy`. -/
def process_copy (env : Env) (stmt : CopyStmt) (completion_tag : Bool) : Cmd Effect Bool :=
  match stmt.relation with
  | none => pure false
  | some relation =>
    if !stmt.is_from then pure false
    else
      let relid := env.RangeVarGetRelid relation
      if !OidIsValid relid then pure false
      else do
        emit Effect.hypertable_cache_pin
        match hypertable_cache_get_entry env relid with
        | none => do
          emit Effect.cache_release
          pure false
        | some ht => do
          call env Effect.executor_level_enter
          call env (Effect.timescaledb_DoCopy ht.id)
          call env Effect.executor_level_exit
          if completion_tag then emit Effect.snprintf_completion_tag else pure ()
          emit Effect.cache_release
          pure true

/-- The C function `foreach_chunk`; `none` is a `NULL` hypertable. -/
def foreach_chunk (env : Env) (ht : Option Hypertable)
    (process_chunk : Hypertable → Oid → Cmd Effect Unit) : Cmd Effect Int :=
  match ht with
  | none => pure (-1)
  | some ht => do
    let chunks := env.find_inheritance_children ht.main_table_relid
    for_each (process_chunk ht) chunks
    pure (chunks.length : Int)

/-- The C function `foreach_chunk_relid`. -/
def foreach_chunk_relid (env : Env) (relid : Oid)
    (process_chunk : Hypertable → Oid → Cmd Effect Unit) : Cmd Effect Int := do
  emit Effect.hypertable_cache_pin
  let ht := hypertable_cache_get_entry env relid
  match ht with
  | none => pure (-1)
  | some _ => do
    let ret ← foreach_chunk env ht process_chunk
    emit Effect.cache_release
    pure ret

/-- The C function `foreach_chunk_relation`. -/
def foreach_chunk_relation (env : Env) (rv : RangeVar)
    (process_chunk : Hypertable → Oid → Cmd Effect Unit) : Cmd Effect Int :=
  foreach_chunk_relid env (env.RangeVarGetRelid rv) process_chunk

/-- The C function `vacuum_chunk`; the statement's relation is renamed to the
partition before `ExecVacuum`. -/
def vacuum_chunk (env : Env) (is_toplevel : Bool) (ht : Hypertable) (chunk_relid : Oid) :
    Cmd Effect Unit := do
  let chunk ← chunk_get_by_relid_or_raise env chunk_relid
  call env (Effect.ExecVacuum chunk.schema_name chunk.table_name is_toplevel)

/-- The C function `process_vacuum`. -/
def process_vacuum (env : Env) (stmt : VacuumStmt) (context : ProcessUtilityContext) :
    Cmd Effect Bool :=
  match stmt.relation with
  | none => pure false
  | some relation => do
    let relid ← hypertable_relid env relation
    if !OidIsValid relid then pure false
    else do
      call env Effect.PreventCommandDuringRecovery
      let n ← foreach_chunk_relation env relation
        (vacuum_chunk env (decide (context = ProcessUtilityContext.PROCESS_UTILITY_TOPLEVEL)))
      pure (decide (n ≥ 0))

/-- The C function `process_drop_table`. -/
def process_drop_table (env : Env) (stmt : DropStmt) : Cmd Effect Bool := do
  emit Effect.hypertable_cache_pin
  let handled ← for_each_with (fun (handled : Bool) (object : List Ident) =>
    match env.makeRangeVarFromNameList object with
    | none => pure handled
    | some relation =>
      let relid := env.RangeVarGetRelid relation
      if OidIsValid relid then
        match hypertable_cache_get_entry env relid with
        | some ht => do
          if stmt.objects.length ≠ 1 then
            raise ErrorCode.ERRCODE_INTERNAL_ERROR ErrorSite.drop_hypertable_with_other_objects
          else pure ()
          call env Effect.catalog_become_owner
          call env (Effect.process_drop_hypertable ht.id
            (decide (stmt.behavior = DropBehavior.DROP_CASCADE)))
          call env Effect.catalog_restore_user
          pure true
        | none => do
          call env (Effect.chunk_delete_by_relid relid)
          pure handled
      else pure handled) false stmt.objects
  emit Effect.cache_release
  pure handled

/-- The C function `process_drop_trigger_chunk`. -/
def process_drop_trigger_chunk (env : Env) (trigger : Trigger) (ht : Hypertable)
    (chunk_relid : Oid) : Cmd Effect Unit := do
  let trigger_oid ← found_or_raise (env.get_trigger_oid chunk_relid trigger.tgname)
  call env (Effect.RemoveTriggerById trigger_oid)

/-- The C function `process_drop_trigger`; the last part of an object is the
trigger name, the parts before it name the relation. -/
def process_drop_trigger (env : Env) (stmt : DropStmt) : Cmd Effect Unit := do
  emit Effect.hypertable_cache_pin
  for_each (fun (object : List Ident) =>
    match object.getLast? with
    | none => raise ErrorCode.ERRCODE_INTERNAL_ERROR ErrorSite.ill_formed_node
    | some trigname =>
      let relname := object.dropLast
      if relname ≠ [] then
        match env.makeRangeVarFromNameList relname with
        | none => raise ErrorCode.ERRCODE_INTERNAL_ERROR ErrorSite.ill_formed_node
        | some relation =>
          match hypertable_cache_get_entry_rv env relation with
          | some ht =>
            match env.trigger_by_name ht.main_table_relid trigname with
            | some trigger =>
              if trigger.is_chunk_trigger then do
                let _ ← foreach_chunk env (some ht) (process_drop_trigger_chunk env trigger)
                pure ()
              else pure ()
            | none =>
              if stmt.missing_ok then pure ()
              else raise ErrorCode.ERRCODE_UNDEFINED_OBJECT ErrorSite.in_callee
          | none => pure ()
      else pure ()) stmt.objects
  emit Effect.cache_release

/-- The C function `process_drop_index`.  The pin is taken inside the loop, once
per index that resolves, and the function has no `cache_release`. -/
def process_drop_index (env : Env) (stmt : DropStmt) : Cmd Effect Unit :=
  for_each (fun (object : List Ident) =>
    match env.makeRangeVarFromNameList object with
    | none => pure ()
    | some relation =>
      let idxrelid := env.RangeVarGetRelid relation
      if OidIsValid idxrelid then do
        let tblrelid ← found_or_raise (env.IndexGetRelation idxrelid)
        emit Effect.hypertable_cache_pin
        match hypertable_cache_get_entry env tblrelid with
        | some ht => call env (Effect.chunk_index_delete_children_of ht.id idxrelid true)
        | none =>
          match env.chunk_of tblrelid with
          | some chunk => call env (Effect.chunk_index_delete chunk.id idxrelid false)
          | none => pure ()
      else pure ()) stmt.objects

/-- The C function `process_drop`. -/
def process_drop (env : Env) (stmt : DropStmt) : Cmd Effect Unit :=
  match stmt.removeType with
  | ObjectType.OBJECT_TABLE => do
    let _ ← process_drop_table env stmt
    pure ()
  | ObjectType.OBJECT_TRIGGER => process_drop_trigger env stmt
  | ObjectType.OBJECT_INDEX => process_drop_index env stmt
  | _ => pure ()

/-- The C function `reindex_chunk`. -/
def reindex_chunk (env : Env) (stmt : ReindexStmt) (ht : Hypertable) (chunk_relid : Oid) :
    Cmd Effect Unit := do
  let chunk ← chunk_get_by_relid_or_raise env chunk_relid
  match stmt.kind with
  | ReindexObjectType.REINDEX_OBJECT_TABLE =>
    call env (Effect.ReindexTable chunk.schema_name chunk.table_name)
  | _ => pure ()

/-- The `switch (stmt->kind)` of `process_reindex`; its value is the local
`ret`. -/
def process_reindex_switch (env : Env) (stmt : ReindexStmt) (relid : Oid) : Cmd Effect Bool :=
  match stmt.kind with
  | ReindexObjectType.REINDEX_OBJECT_TABLE =>
    match hypertable_cache_get_entry env relid with
    | some ht => do
      call env Effect.PreventCommandDuringRecovery
      let n ← foreach_chunk env (some ht) (reindex_chunk env stmt)
      pure (decide (n ≥ 0))
    | none => pure false
  | ReindexObjectType.REINDEX_OBJECT_INDEX =>
    match hypertable_cache_get_entry env (env.IndexGetRelation relid) with
    | some _ =>
      raise ErrorCode.ERRCODE_FEATURE_NOT_SUPPORTED ErrorSite.reindex_specific_index
    | none => pure false
  | _ => pure false

/-- The C function `process_reindex`. -/
def process_reindex (env : Env) (stmt : ReindexStmt) : Cmd Effect Bool :=
  match stmt.relation with
  | none => pure false
  | some relation =>
    let relid := env.RangeVarGetRelid relation
    if !OidIsValid relid then pure false
    else do
      emit Effect.hypertable_cache_pin
      let ret ← process_reindex_switch env stmt relid
      emit Effect.cache_release
      pure ret

/-- Modelled from the spec: `hyperspace_get_dimension_by_name` (`dimension.c`,
not among the sources) finds the partitioning dimension of a column among the
"ordered partitioning dimensions" of the descriptor. -/
def hyperspace_get_dimension_by_name (ht : Hypertable) (name : Ident) : Option Dimension :=
  ht.dimensions.find? (fun dim => dim.column_name = name)

/-- The C function `process_rename_table`. -/
def process_rename_table (env : Env) (relid : Oid) (stmt : RenameStmt) : Cmd Effect Unit :=
  match hypertable_cache_get_entry env relid with
  | some ht => call env (Effect.hypertable_set_name ht.id stmt.newname)
  | none => pure ()

/-- The C function `process_rename_column`. -/
def process_rename_column (env : Env) (relid : Oid) (stmt : RenameStmt) : Cmd Effect Unit :=
  match hypertable_cache_get_entry env relid with
  | none => pure ()
  | some ht =>
    match hyperspace_get_dimension_by_name ht stmt.subname with
    | none => pure ()
    | some dim => call env (Effect.dimension_update_name dim.id stmt.newname)

/-- The C function `process_rename_index`. -/
def process_rename_index (env : Env) (relid : Oid) (stmt : RenameStmt) : Cmd Effect Unit :=
  let tablerelid := env.IndexGetRelation relid
  if !OidIsValid tablerelid then pure ()
  else
    match hypertable_cache_get_entry env tablerelid with
    | some ht => call env (Effect.chunk_index_rename_parent ht.id relid stmt.newname)
    | none =>
      match env.chunk_of tablerelid with
      | some chunk => call env (Effect.chunk_index_rename chunk.id relid stmt.newname)
      | none => pure ()

/-- The C function `process_rename`. -/
def process_rename (env : Env) (stmt : RenameStmt) : Cmd Effect Unit :=
  match stmt.relation with
  | none => pure ()
  | some relation =>
    let relid := env.RangeVarGetRelid relation
    if !OidIsValid relid then pure ()
    else do
      emit Effect.hypertable_cache_pin
      match stmt.renameType with
      | ObjectType.OBJECT_TABLE => process_rename_table env relid stmt
      | ObjectType.OBJECT_COLUMN => process_rename_column env relid stmt
      | ObjectType.OBJECT_INDEX => process_rename_index env relid stmt
      | _ => pure ()
      emit Effect.cache_release

/-- The C function `process_altertable_change_owner`; `cmd->newowner` must be a
`RoleSpec`. -/
def process_altertable_change_owner (env : Env) (ht : Hypertable) (cmd : AlterTableCmd) :
    Cmd Effect Unit :=
  match cmd.newowner with
  | none => raise ErrorCode.ERRCODE_INTERNAL_ERROR ErrorSite.ill_formed_node
  | some rolename => do
    process_utility_set_expect_chunk_modification true
    call env (Effect.process_change_hypertable_owner ht.main_table_relid rolename)
    process_utility_set_expect_chunk_modification false

/-- The C function `process_add_constraint_chunk`. -/
def process_add_constraint_chunk (env : Env) (hypertable_constraint_oid : Oid)
    (ht : Hypertable) (chunk_relid : Oid) : Cmd Effect Unit := do
  let chunk ← chunk_get_by_relid_or_raise env chunk_relid
  call env (Effect.chunk_constraint_create_on_chunk chunk.id hypertable_constraint_oid)

/-- The C function `process_altertable_add_constraint`. -/
def process_altertable_add_constraint (env : Env) (ht : Hypertable) (constraint_name : Ident) :
    Cmd Effect Unit := do
  let hypertable_constraint_oid ←
    found_or_raise (env.get_relation_constraint_oid ht.main_table_relid constraint_name)
  let _ ← foreach_chunk env (some ht) (process_add_constraint_chunk env hypertable_constraint_oid)
  pure ()

/-- The C function `process_drop_constraint_chunk`. -/
def process_drop_constraint_chunk (env : Env) (hypertable_constraint_name : Ident)
    (ht : Hypertable) (chunk_relid : Oid) : Cmd Effect Unit := do
  let chunk ← chunk_get_by_relid_or_raise env chunk_relid
  call env (Effect.chunk_constraint_delete_by_hypertable_constraint_name chunk.id
    hypertable_constraint_name)

/-- The C function `process_altertable_drop_constraint`. -/
def process_altertable_drop_constraint (env : Env) (ht : Hypertable) (cmd : AlterTableCmd) :
    Cmd Effect Unit :=
  match cmd.name with
  | none => raise ErrorCode.ERRCODE_INTERNAL_ERROR ErrorSite.ill_formed_node
  | some constraint_name => do
    let hypertable_constraint_oid ←
      found_or_raise (env.get_relation_constraint_oid ht.main_table_relid constraint_name)
    let hypertable_constraint_index_oid := env.get_constraint_index hypertable_constraint_oid
    call env Effect.catalog_become_owner
    let _ ← foreach_chunk env (some ht) (process_drop_constraint_chunk env constraint_name)
    if OidIsValid hypertable_constraint_index_oid then
      call env (Effect.chunk_index_delete_children_of ht.id hypertable_constraint_index_oid false)
    else pure ()
    call env Effect.catalog_restore_user

/-- The C function `verify_constraint_plaintable`. -/
def verify_constraint_plaintable (env : Env) (relation : RangeVar) (constr : Constraint) :
    Cmd Effect Unit := do
  emit Effect.hypertable_cache_pin
  match constr.contype with
  | ConstrType.CONSTR_FOREIGN =>
    match hypertable_cache_get_entry_rv env constr.pktable with
    | some _ =>
      raise ErrorCode.ERRCODE_FEATURE_NOT_SUPPORTED ErrorSite.foreign_key_to_hypertable
    | none => pure ()
  | _ => pure ()
  emit Effect.cache_release

/-- The part of `verify_constraint_hypertable` after the node has been taken
apart: the `switch (contype)`. -/
def verify_constraint_hypertable_switch (env : Env) (ht : Hypertable) (contype : ConstrType)
    (keys : List Ident) (indexname : Option Ident) : Cmd Effect Unit :=
  match contype with
  | ConstrType.CONSTR_FOREIGN => pure ()
  | ConstrType.CONSTR_UNIQUE =>
    if indexname.isSome then pure ()
    else call env (Effect.indexing_verify_columns ht.id keys)
  | ConstrType.CONSTR_PRIMARY =>
    if indexname.isSome then pure ()
    else call env (Effect.indexing_verify_columns ht.id keys)
  | ConstrType.CONSTR_EXCLUSION => call env (Effect.indexing_verify_columns ht.id keys)
  | _ => pure ()

/-- The C function `verify_constraint_hypertable`; the node is a `Constraint`
or an `IndexStmt`, any other node is an error. -/
def verify_constraint_hypertable (env : Env) (ht : Hypertable) (constr_node : AlterTableDef) :
    Cmd Effect Unit :=
  match constr_node with
  | AlterTableDef.T_Constraint constr =>
    verify_constraint_hypertable_switch env ht constr.contype
      (if constr.contype = ConstrType.CONSTR_EXCLUSION then constr.exclusions else constr.keys)
      constr.indexname
  | AlterTableDef.T_IndexStmt stmt =>
    verify_constraint_hypertable_switch env ht
      (if stmt.primary then ConstrType.CONSTR_PRIMARY else ConstrType.CONSTR_UNIQUE)
      stmt.indexParams stmt.idxname
  | _ => raise ErrorCode.ERRCODE_INTERNAL_ERROR ErrorSite.unexpected_constraint_type

/-- The C function `verify_constraint`. -/
def verify_constraint (env : Env) (relation : RangeVar) (constr : Constraint) :
    Cmd Effect Unit := do
  emit Effect.hypertable_cache_pin
  match hypertable_cache_get_entry_rv env relation with
  | none => verify_constraint_plaintable env relation constr
  | some ht => verify_constraint_hypertable env ht (AlterTableDef.T_Constraint constr)
  emit Effect.cache_release

/-- The C function `verify_constraint_list`. -/
def verify_constraint_list (env : Env) (relation : RangeVar) (constraint_list : List Constraint) :
    Cmd Effect Unit :=
  for_each (verify_constraint env relation) constraint_list

/-- The C function `process_index_chunk`; `obj` is `info->obj.objectId`. -/
def process_index_chunk (env : Env) (obj : Oid) (ht : Hypertable) (chunk_relid : Oid) :
    Cmd Effect Unit := do
  let chunk ← chunk_get_by_relid_or_raise env chunk_relid
  call env (Effect.chunk_index_create_from_stmt chunk.id chunk_relid ht.id obj)

/-- The C function `process_index_start`. -/
def process_index_start (env : Env) (stmt : IndexStmt) : Cmd Effect Unit := do
  emit Effect.hypertable_cache_pin
  match hypertable_cache_get_entry_rv env stmt.relation with
  | some ht => do
    if stmt.concurrent then
      raise ErrorCode.ERRCODE_FEATURE_NOT_SUPPORTED ErrorSite.concurrent_index_creation
    else pure ()
    call env (Effect.indexing_verify_index ht.id stmt)
  | none => pure ()
  emit Effect.cache_release

/-- The C function `process_index_end`. -/
def process_index_end (env : Env) (stmt : IndexStmt) (cmd : CollectedCommand) :
    Cmd Effect Bool := do
  emit Effect.hypertable_cache_pin
  let handled ← (match hypertable_cache_get_entry_rv env stmt.relation with
    | some ht => do
      let obj ← (match cmd.type with
        | CollectedCommandType.SCT_Simple => pure cmd.address
        | _ => raise ErrorCode.ERRCODE_INTERNAL_ERROR ErrorSite.index_end_not_yet_supported
        : Cmd Effect Oid)
      call env Effect.catalog_become_owner
      let _ ← foreach_chunk env (some ht) (process_index_chunk env obj)
      call env Effect.catalog_restore_user
      pure true
    | none => pure false : Cmd Effect Bool)
  emit Effect.cache_release
  pure handled

/-- The loop of `find_clustered_index` over the index list of the table: it
stops at the first index marked clustered; `env.indisclustered` is `none` when
`SearchSysCache1` finds no tuple for the index. -/
def find_clustered_index_loop (env : Env) : List Oid → Cmd Effect Oid
  | [] => Cmd.pure InvalidOid
  | index_relid :: rest =>
    match env.indisclustered index_relid with
    | none => raise ErrorCode.ERRCODE_INTERNAL_ERROR ErrorSite.cache_lookup_failed_for_index
    | some true => Cmd.pure index_relid
    | some false => find_clustered_index_loop env rest

/-- The C function `find_clustered_index`. -/
def find_clustered_index (env : Env) (table_relid : Oid) : Cmd Effect Oid := do
  let index_relid ← find_clustered_index_loop env (env.RelationGetIndexList table_relid)
  if !OidIsValid index_relid then
    raise ErrorCode.ERRCODE_UNDEFINED_OBJECT ErrorSite.no_previously_clustered_index
  else pure index_relid

/-- The `if (NULL == stmt->indexname) ... else ...` of `process_cluster_start`
that resolves the index to cluster on. -/
def cluster_index_relid (env : Env) (ht : Hypertable) (stmt : ClusterStmt) : Cmd Effect Oid :=
  match stmt.indexname with
  | none => find_clustered_index env ht.main_table_relid
  | some indexname =>
    pure (env.get_relname_relid indexname (env.get_rel_namespace ht.main_table_relid))

/-- The body of the `foreach` of `process_cluster_start` for one captured
(partition, index) pair. -/
def cluster_chunk (env : Env) (verbose : Bool) (cim : ChunkIndexMapping) : Cmd Effect Unit := do
  call env Effect.StartTransactionCommand
  call env Effect.PushActiveSnapshot
  call env (Effect.chunk_index_mark_clustered cim.chunkoid cim.indexoid)
  call env (Effect.cluster_rel cim.chunkoid cim.indexoid verbose)
  call env Effect.PopActiveSnapshot
  call env Effect.CommitTransactionCommand

/-- The part of `process_cluster_start` that follows the resolution of the
index, from `chunk_index_get_mappings` to `MemoryContextDelete(mcxt)`. -/
def cluster_chunks (env : Env) (ht : Hypertable) (stmt : ClusterStmt) (index_relid : Oid) :
    Cmd Effect Unit := do
  let chunk_indexes := env.chunk_index_get_mappings ht.id index_relid
  call env Effect.PopActiveSnapshot
  call env Effect.CommitTransactionCommand
  for_each (cluster_chunk env stmt.verbose) chunk_indexes
  call env Effect.StartTransactionCommand
  call env Effect.MemoryContextDelete

/-- The C function `process_cluster_start`. -/
def process_cluster_start (env : Env) (stmt : ClusterStmt) (context : ProcessUtilityContext) :
    Cmd Effect Bool :=
  match stmt.relation with
  | none => pure false
  | some relation => do
    emit Effect.hypertable_cache_pin
    match hypertable_cache_get_entry_rv env relation with
    | some ht => do
      let is_top_level := decide (context = ProcessUtilityContext.PROCESS_UTILITY_TOPLEVEL)
      if !env.pg_class_ownercheck ht.main_table_relid then
        raise ErrorCode.ERRCODE_INSUFFICIENT_PRIVILEGE ErrorSite.aclcheck_not_owner
      else pure ()
      call env (Effect.PreventTransactionChain is_top_level)
      let index_relid ← cluster_index_relid env ht stmt
      if !OidIsValid index_relid then do
        emit Effect.cache_release
        pure false
      else do
        cluster_chunks env ht stmt index_relid
        emit Effect.cache_release
        pure false
    | none => do
      emit Effect.cache_release
      pure false

/-- The C function `process_create_table_end`. -/
def process_create_table_end (env : Env) (stmt : CreateStmt) : Cmd Effect Unit := do
  verify_constraint_list env stmt.relation stmt.constraints
  for_each (fun (elt : TableElt) =>
    match elt with
    | TableElt.T_ColumnDef coldef => verify_constraint_list env stmt.relation coldef.constraints
    | TableElt.T_Constraint constr => verify_constraint env stmt.relation constr
    | _ => pure ()) stmt.tableElts

/-- The C function `process_alter_column_type_start`. -/
def process_alter_column_type_start (ht : Hypertable) (cmd : AlterTableCmd) : Cmd Effect Unit :=
  for_each (fun (dim : Dimension) =>
    if dim.closed && decide (some dim.column_name = cmd.name) then
      raise ErrorCode.ERRCODE_IO_OPERATION_NOT_SUPPORTED ErrorSite.hash_partitioned_column_type
    else pure ()) ht.dimensions

/-- The C function `process_alter_column_type_end`; `cmd->def` must be a
`ColumnDef` and `cmd->name` the column. -/
def process_alter_column_type_end (env : Env) (ht : Hypertable) (cmd : AlterTableCmd) :
    Cmd Effect Unit :=
  match cmd.def_, cmd.name with
  | AlterTableDef.T_ColumnDef coldef, some name =>
    let new_type := env.TypenameGetTypid coldef.typeName
    match hyperspace_get_dimension_by_name ht name with
    | none => pure ()
    | some dim => do
      call env (Effect.dimension_update_type dim.id new_type)
      process_utility_set_expect_chunk_modification true
      call env (Effect.chunk_recreate_all_constraints_for_dimension dim.id)
      process_utility_set_expect_chunk_modification false
  | _, _ => raise ErrorCode.ERRCODE_INTERNAL_ERROR ErrorSite.ill_formed_node

/-- The C function `process_altertable_chunk`. -/
def process_altertable_chunk (env : Env) (cmd : AlterTableCmd) (ht : Hypertable)
    (chunk_relid : Oid) : Cmd Effect Unit :=
  call env (Effect.AlterTableInternal chunk_relid cmd)

/-- The C function `process_altertable_end_index`; `AlterTableLookupRelation`
resolves the statement's relation. -/
def process_altertable_end_index (env : Env) (stmt : AlterTableStmt) : Cmd Effect Unit := do
  let indexrelid := env.RangeVarGetRelid stmt.relation
  let tablerelid ← found_or_raise (env.IndexGetRelation indexrelid)
  emit Effect.hypertable_cache_pin
  match hypertable_cache_get_entry env tablerelid with
  | some ht =>
    for_each (fun (cmd : AlterTableCmd) =>
      match cmd.subtype with
      | AlterTableType.AT_SetTableSpace =>
        call env (Effect.chunk_index_set_tablespace ht.id indexrelid cmd.name)
      | _ => pure ()) stmt.cmds
  | none => pure ()
  emit Effect.cache_release

/-- The body of the `foreach` of `process_altertable_start_table` for one
subcommand; `ht` is `NULL` (`none`) for a plain table. -/
def process_altertable_start_table_cmd (env : Env) (stmt : AlterTableStmt)
    (ht : Option Hypertable) (cmd : AlterTableCmd) : Cmd Effect Unit :=
  match cmd.subtype with
  | AlterTableType.AT_AddIndex =>
    match cmd.def_, ht with
    | AlterTableDef.T_IndexStmt istmt, some ht =>
      if istmt.isconstraint then verify_constraint_hypertable env ht cmd.def_ else pure ()
    | AlterTableDef.T_IndexStmt _, none => pure ()
    | _, _ => raise ErrorCode.ERRCODE_INTERNAL_ERROR ErrorSite.ill_formed_node
  | AlterTableType.AT_DropConstraint =>
    match ht with
    | some ht => process_altertable_drop_constraint env ht cmd
    | none => pure ()
  | AlterTableType.AT_DropConstraintRecurse =>
    match ht with
    | some ht => process_altertable_drop_constraint env ht cmd
    | none => pure ()
  | AlterTableType.AT_AddConstraint =>
    match cmd.def_, ht with
    | AlterTableDef.T_Constraint constr, none =>
      verify_constraint_plaintable env stmt.relation constr
    | AlterTableDef.T_Constraint _, some ht => verify_constraint_hypertable env ht cmd.def_
    | _, _ => raise ErrorCode.ERRCODE_INTERNAL_ERROR ErrorSite.ill_formed_node
  | AlterTableType.AT_AddConstraintRecurse =>
    match cmd.def_, ht with
    | AlterTableDef.T_Constraint constr, none =>
      verify_constraint_plaintable env stmt.relation constr
    | AlterTableDef.T_Constraint _, some ht => verify_constraint_hypertable env ht cmd.def_
    | _, _ => raise ErrorCode.ERRCODE_INTERNAL_ERROR ErrorSite.ill_formed_node
  | AlterTableType.AT_AlterColumnType =>
    match cmd.def_, ht with
    | AlterTableDef.T_ColumnDef _, some ht => process_alter_column_type_start ht cmd
    | AlterTableDef.T_ColumnDef _, none => pure ()
    | _, _ => raise ErrorCode.ERRCODE_INTERNAL_ERROR ErrorSite.ill_formed_node
  | AlterTableType.AT_AttachPartition =>
    if env.PG10 then
      match cmd.def_ with
      | AlterTableDef.T_PartitionCmd relation => do
        let relid ← hypertable_relid env relation
        if relid ≠ InvalidOid then
          raise ErrorCode.ERRCODE_FEATURE_NOT_SUPPORTED ErrorSite.native_partitioning
        else pure ()
      | _ => raise ErrorCode.ERRCODE_INTERNAL_ERROR ErrorSite.ill_formed_node
    else pure ()
  | _ => pure ()

/-- The C function `process_altertable_start_table`. -/
def process_altertable_start_table (env : Env) (stmt : AlterTableStmt) : Cmd Effect Unit :=
  let relid := env.RangeVarGetRelid stmt.relation
  if !OidIsValid relid then pure ()
  else do
    check_chunk_operation_allowed env relid
    emit Effect.hypertable_cache_pin
    let ht := hypertable_cache_get_entry env relid
    for_each (process_altertable_start_table_cmd env stmt ht) stmt.cmds
    emit Effect.cache_release

/-- The C function `process_altertable_start`. -/
def process_altertable_start (env : Env) (stmt : AlterTableStmt) : Cmd Effect Unit :=
  match stmt.relkind with
  | ObjectType.OBJECT_TABLE => process_altertable_start_table env stmt
  | _ => pure ()

/-- The C function `process_altertable_end_subcmd`; `obj` is
`obj->objectId`. -/
def process_altertable_end_subcmd (env : Env) (ht : Hypertable) (cmd : AlterTableCmd)
    (obj : Oid) : Cmd Effect Unit :=
  match cmd.subtype with
  | AlterTableType.AT_ChangeOwner => process_altertable_change_owner env ht cmd
  | AlterTableType.AT_AddIndexConstraint =>
    raise ErrorCode.ERRCODE_FEATURE_NOT_SUPPORTED ErrorSite.constraint_using_existing_index
  | AlterTableType.AT_AddIndex =>
    match cmd.def_ with
    | AlterTableDef.T_IndexStmt stmt => do
      Assert env stmt.isconstraint
      let idxname := match stmt.idxname with
        | some idxname => idxname
        | none => env.get_rel_name obj
      process_altertable_add_constraint env ht idxname
    | _ => raise ErrorCode.ERRCODE_INTERNAL_ERROR ErrorSite.ill_formed_node
  | AlterTableType.AT_AddConstraint =>
    match cmd.def_ with
    | AlterTableDef.T_Constraint stmt =>
      if stmt.contype = ConstrType.CONSTR_CHECK then pure ()
      else
        let conname := match stmt.conname with
          | some conname => conname
          | none => env.get_rel_name obj
        process_altertable_add_constraint env ht conname
    | _ => raise ErrorCode.ERRCODE_INTERNAL_ERROR ErrorSite.ill_formed_node
  | AlterTableType.AT_AddConstraintRecurse =>
    match cmd.def_ with
    | AlterTableDef.T_Constraint stmt =>
      if stmt.contype = ConstrType.CONSTR_CHECK then pure ()
      else
        let conname := match stmt.conname with
          | some conname => conname
          | none => env.get_rel_name obj
        process_altertable_add_constraint env ht conname
    | _ => raise ErrorCode.ERRCODE_INTERNAL_ERROR ErrorSite.ill_formed_node
  | AlterTableType.AT_AlterColumnType => process_alter_column_type_end env ht cmd
  | AlterTableType.AT_SetRelOptions => do
    let _ ← foreach_chunk env (some ht) (process_altertable_chunk env cmd)
    pure ()
  | AlterTableType.AT_ResetRelOptions => do
    let _ ← foreach_chunk env (some ht) (process_altertable_chunk env cmd)
    pure ()
  | AlterTableType.AT_ReplaceRelOptions => do
    let _ ← foreach_chunk env (some ht) (process_altertable_chunk env cmd)
    pure ()
  | AlterTableType.AT_AddOids => do
    let _ ← foreach_chunk env (some ht) (process_altertable_chunk env cmd)
    pure ()
  | AlterTableType.AT_DropOids => do
    let _ ← foreach_chunk env (some ht) (process_altertable_chunk env cmd)
    pure ()
  | _ => pure ()

/-- The C function `process_altertable_end_simple_cmd`: the first subcommand of
the statement, with `cmd->d.simple.secondaryObject`. -/
def process_altertable_end_simple_cmd (env : Env) (ht : Hypertable) (stmt : AlterTableStmt)
    (cmd : CollectedCommand) : Cmd Effect Unit :=
  match stmt.cmds with
  | first :: _ => process_altertable_end_subcmd env ht first cmd.secondaryObject
  | [] => raise ErrorCode.ERRCODE_INTERNAL_ERROR ErrorSite.ill_formed_node

/-- The C function `process_altertable_end_subcmds`. -/
def process_altertable_end_subcmds (env : Env) (ht : Hypertable)
    (cmds : List CollectedATSubcmd) : Cmd Effect Unit :=
  for_each (fun (cmd : CollectedATSubcmd) =>
    process_altertable_end_subcmd env ht cmd.parsetree cmd.address) cmds

/-- The C function `process_altertable_end_table`. -/
def process_altertable_end_table (env : Env) (stmt : AlterTableStmt) (cmd : CollectedCommand) :
    Cmd Effect Unit :=
  let relid := env.RangeVarGetRelid stmt.relation
  if !OidIsValid relid then pure ()
  else do
    emit Effect.hypertable_cache_pin
    match hypertable_cache_get_entry env relid with
    | some ht =>
      match cmd.type with
      | CollectedCommandType.SCT_Simple => process_altertable_end_simple_cmd env ht stmt cmd
      | CollectedCommandType.SCT_AlterTable => process_altertable_end_subcmds env ht cmd.subcmds
      | _ => pure ()
    | none => pure ()
    emit Effect.cache_release

/-- The C function `process_altertable_end`. -/
def process_altertable_end (env : Env) (stmt : AlterTableStmt) (cmd : CollectedCommand) :
    Cmd Effect Unit :=
  match stmt.relkind with
  | ObjectType.OBJECT_TABLE => process_altertable_end_table env stmt cmd
  | ObjectType.OBJECT_INDEX => process_altertable_end_index env stmt
  | _ => pure ()

/-- The C function `create_trigger_chunk`. -/
def create_trigger_chunk (env : Env) (stmt : CreateTrigStmt) (ht : Hypertable)
    (chunk_relid : Oid) : Cmd Effect Unit := do
  let trigger_oid ← found_or_raise (env.get_trigger_oid ht.main_table_relid stmt.trigname)
  call env (Effect.trigger_create_on_chunk trigger_oid chunk_relid)

/-- The C function `process_create_trigger_start`. -/
def process_create_trigger_start (env : Env) (stmt : CreateTrigStmt) : Cmd Effect Unit :=
  if !stmt.row then pure ()
  else do
    let relid ← hypertable_relid env stmt.relation
    if relid = InvalidOid then pure ()
    else if env.PG10 && decide (stmt.transitionRels ≠ []) then
      raise ErrorCode.ERRCODE_FEATURE_NOT_SUPPORTED ErrorSite.transition_tables
    else pure ()

/-- The C function `process_create_trigger_end`. -/
def process_create_trigger_end (env : Env) (stmt : CreateTrigStmt) : Cmd Effect Unit :=
  if !stmt.row then pure ()
  else do
    let _ ← foreach_chunk_relation env stmt.relation (create_trigger_chunk env stmt)
    pure ()

/-- The C function `process_ddl_command_start`. -/
def process_ddl_command_start (env : Env) (parsetree : Node) (context : ProcessUtilityContext)
    (completion_tag : Bool) : Cmd Effect Bool :=
  match parsetree with
  | Node.T_TruncateStmt stmt => do
    process_truncate env stmt
    pure false
  | Node.T_AlterObjectSchemaStmt stmt => do
    process_alterobjectschema env stmt
    pure false
  | Node.T_AlterTableStmt stmt => do
    process_altertable_start env stmt
    pure false
  | Node.T_RenameStmt stmt => do
    process_rename env stmt
    pure false
  | Node.T_IndexStmt stmt => do
    process_index_start env stmt
    pure false
  | Node.T_CreateTrigStmt stmt => do
    process_create_trigger_start env stmt
    pure false
  | Node.T_DropStmt stmt => do
    process_drop env stmt
    pure false
  | Node.T_CopyStmt stmt => process_copy env stmt completion_tag
  | Node.T_VacuumStmt stmt => process_vacuum env stmt context
  | Node.T_ReindexStmt stmt => process_reindex env stmt
  | Node.T_ClusterStmt stmt => process_cluster_start env stmt context
  | _ => pure false

/-- The C function `process_ddl_command_end`. -/
def process_ddl_command_end (env : Env) (cmd : CollectedCommand) : Cmd Effect Unit :=
  match cmd.parsetree with
  | Node.T_CreateStmt stmt => process_create_table_end env stmt
  | Node.T_IndexStmt stmt => do
    let _ ← process_index_end env stmt cmd
    pure ()
  | Node.T_AlterTableStmt stmt => process_altertable_end env stmt cmd
  | Node.T_CreateTrigStmt stmt => process_create_trigger_end env stmt
  | _ => pure ()

/-- The C function `extension_check_version`; `env.version_check_possible` is
`IsNormalProcessingMode() && IsTransactionState()`. -/
def extension_check_version (env : Env) : Cmd Effect Unit :=
  if !env.version_check_possible then pure ()
  else if !env.sql_version_matches then
    raise ErrorCode.ERRCODE_FEATURE_NOT_SUPPORTED ErrorSite.mismatched_version
  else pure ()

/-- The C function `extension_set_state`.  `env.extension_proxy_table` is the
lookup of the proxy table in the cache schema, `none` when
`get_namespace_oid(CACHE_SCHEMA_NAME, false)` raises. -/
def extension_set_state (env : Env) (newstate : ExtensionState) : Cmd Effect Bool := do
  let s ← get_state
  if newstate = s.extstate then pure false
  else do
    match newstate with
    | ExtensionState.EXTENSION_STATE_TRANSITIONING => pure ()
    | ExtensionState.EXTENSION_STATE_UNKNOWN => pure ()
    | ExtensionState.EXTENSION_STATE_CREATED => do
      extension_check_version env
      match env.extension_proxy_table with
      | none => raise ErrorCode.ERRCODE_UNDEFINED_OBJECT ErrorSite.in_callee
      | some oid => set_state { s with extension_proxy_oid := oid }
      emit Effect.catalog_reset
    | ExtensionState.EXTENSION_STATE_NOT_INSTALLED => do
      set_state { s with extension_proxy_oid := InvalidOid }
      emit Effect.catalog_reset
    let s1 ← get_state
    set_state { s1 with extstate := newstate }
    pure true

/-- The C function `extension_update_state`; `extension_current_state()`
(`extension_utils.c`, not among the sources) is `env.extension_current_state`. -/
def extension_update_state (env : Env) : Cmd Effect Bool :=
  extension_set_state env env.extension_current_state

/-- The C function `extension_invalidate`. -/
def extension_invalidate (env : Env) (relid : Oid) : Cmd Effect Bool := do
  let s ← get_state
  match s.extstate with
  | ExtensionState.EXTENSION_STATE_CREATED =>
    if s.extension_proxy_oid = relid || !OidIsValid relid then do
      let _ ← extension_update_state env
      let s1 ← get_state
      if s1.extstate ≠ ExtensionState.EXTENSION_STATE_CREATED then pure true
      else pure false
    else pure false
  | _ => do
    let _ ← extension_update_state env
    pure false

/-- The C function `extension_is_loaded`. -/
def extension_is_loaded (env : Env) : Cmd Effect Bool :=
  if env.guc_restoring then pure false
  else do
    let s ← get_state
    if s.extstate = ExtensionState.EXTENSION_STATE_UNKNOWN ||
        s.extstate = ExtensionState.EXTENSION_STATE_TRANSITIONING then do
      let _ ← extension_update_state env
      pure ()
    else pure ()
    let s1 ← get_state
    match s1.extstate with
    | ExtensionState.EXTENSION_STATE_CREATED => pure true
    | _ => pure false

/-- The C function `timescaledb_ddl_command_start`, the `ProcessUtility`
hook. -/
def timescaledb_ddl_command_start (env : Env) (args : ProcessUtilityArgs) :
    Cmd HookEvent Unit := do
  let loaded ← as_handler (extension_is_loaded env)
  if !loaded then
    prev_ProcessUtility env args
  else do
    let handled ← as_handler
      (process_ddl_command_start env args.parsetree args.context args.completion_tag)
    if !handled then prev_ProcessUtility env args else pure ()

/-- PostgreSQL `EventTriggerData` as the hook receives it in `fcinfo`:
`called_as_event_trigger` is `CALLED_AS_EVENT_TRIGGER(fcinfo)`,
`event_is_ddl_command_end` says whether `trigdata->event` is
`"ddl_command_end"`. -/
structure EventTriggerData where
  called_as_event_trigger : Bool
  event_is_ddl_command_end : Bool
  parsetree : Node
  deriving DecidableEq, Repr

/-- The C function `timescaledb_ddl_command_end`, the event-trigger hook. -/
def timescaledb_ddl_command_end (env : Env) (trigdata : EventTriggerData) : Cmd Effect Unit := do
  if !trigdata.called_as_event_trigger then
    raise ErrorCode.ERRCODE_INTERNAL_ERROR ErrorSite.not_fired_by_event_trigger
  else pure ()
  let loaded ← extension_is_loaded env
  if !loaded then pure ()
  else do
    Assert env trigdata.event_is_ddl_command_end
    call env Effect.EventTriggerInhibitCommandCollection
    match trigdata.parsetree with
    | Node.T_AlterTableStmt _ => for_each (process_ddl_command_end env) env.event_trigger_ddl_commands
    | Node.T_CreateTrigStmt _ => for_each (process_ddl_command_end env) env.event_trigger_ddl_commands
    | Node.T_CreateStmt _ => for_each (process_ddl_command_end env) env.event_trigger_ddl_commands
    | Node.T_IndexStmt _ => for_each (process_ddl_command_end env) env.event_trigger_ddl_commands
    | _ => pure ()
    call env Effect.EventTriggerUndoInhibitCommandCollection

/-- The C function `process_utility_AtEOXact_abort`. -/
def process_utility_AtEOXact_abort {ω : Type} (event : XactEvent) : Cmd ω Unit :=
  match event with
  | XactEvent.XACT_EVENT_ABORT => process_utility_set_expect_chunk_modification false
  | XactEvent.XACT_EVENT_PARALLEL_ABORT => process_utility_set_expect_chunk_modification false
  | _ => Cmd.pure ()

/-- Whether a hook event is the host's own execution of the statement. -/
def HookEvent.is_default_execution : HookEvent → Bool
  | HookEvent.handler _ => false
  | HookEvent.prev_ProcessUtility_hook _ => true
  | HookEvent.standard_ProcessUtility _ => true

/-- Modelled from the spec: the host "delivers each schema-modification
statement twice, once before execution (pre-hook) and once after the host's
default execution has completed (post-hook)", and an error raised in the
pre-hook aborts the statement.  The post-hook is therefore run exactly when the
pre-hook has returned and the default execution was part of it. -/
def host_statement (env : Env) (args : ProcessUtilityArgs) (trigdata : EventTriggerData) :
    Cmd HookEvent Unit :=
  ⟨fun s =>
    match (timescaledb_ddl_command_start env args).run s with
    | ⟨.error e, s1, out1⟩ => ⟨.error e, s1, out1⟩
    | ⟨.ok _, s1, out1⟩ =>
      if out1.any HookEvent.is_default_execution then
        match (as_handler (timescaledb_ddl_command_end env trigdata)).run s1 with
        | ⟨r, s2, out2⟩ => ⟨r, s2, out1 ++ out2⟩
      else ⟨.ok (), s1, out1⟩⟩

/-- An environment with an empty catalog, in which no call raises: names
resolve to the relation of the same number, nothing is a logical table or a
partition, the extension is created, asserts are enabled. -/
def plain_env : Env :=
  { asserts := true
    PG10 := true
    raises := fun _ => none
    default_raises := fun _ => none
    RangeVarGetRelid := fun rv => rv.relname
    makeRangeVarFromNameList := fun names => names.getLast?.map (fun name => ⟨none, name⟩)
    hypertable_of := fun _ => none
    chunk_exists_relid := fun _ => false
    chunk_of := fun _ => none
    find_inheritance_children := fun _ => []
    IndexGetRelation := fun _ => InvalidOid
    trigger_by_name := fun _ _ => none
    get_trigger_oid := fun _ _ => InvalidOid
    get_relation_constraint_oid := fun _ _ => InvalidOid
    get_constraint_index := fun _ => InvalidOid
    get_rel_namespace := fun _ => 1
    get_relname_relid := fun _ _ => InvalidOid
    get_rel_name := fun relid => relid
    RelationGetIndexList := fun _ => []
    indisclustered := fun _ => some false
    pg_class_ownercheck := fun _ => true
    chunk_index_get_mappings := fun _ _ => []
    TypenameGetTypid := fun typname => typname
    event_trigger_ddl_commands := []
    guc_restoring := false
    extension_current_state := ExtensionState.EXTENSION_STATE_CREATED
    version_check_possible := true
    sql_version_matches := true
    extension_proxy_table := some 5 }

/-- Logical table 1, rooted at relation 10, partitioned on column 100 (open)
and column 101 (closed). -/
def demo_ht : Hypertable :=
  { id := 1, schema_name := 2, table_name := 10, main_table_relid := 10,
    dimensions := [⟨1, 100, false⟩, ⟨2, 101, true⟩] }

/-- Logical table 2, rooted at relation 40. -/
def other_ht : Hypertable :=
  { id := 2, schema_name := 2, table_name := 40, main_table_relid := 40,
    dimensions := [⟨3, 100, false⟩] }

/-- A catalog with two logical tables (relations 10 and 40), three partitions
of the first (relations 11, 12, 13), an index 20 on the first with partition
indexes 21, 22, 23, and a plain table 30 with index 31; no index is marked
clustered. -/
def demo_env : Env :=
  { plain_env with
    hypertable_of := fun relid =>
      if relid = 10 then some demo_ht else if relid = 40 then some other_ht else none
    chunk_exists_relid := fun relid => decide (relid = 11 ∨ relid = 12 ∨ relid = 13)
    chunk_of := fun relid =>
      if relid = 11 ∨ relid = 12 ∨ relid = 13 then some ⟨relid, relid, 3, relid⟩ else none
    find_inheritance_children := fun relid => if relid = 10 then [11, 12, 13] else []
    IndexGetRelation := fun idx =>
      if idx = 20 then 10 else if idx = 21 then 11 else if idx = 22 then 12
      else if idx = 23 then 13 else if idx = 31 then 30 else InvalidOid
    get_relname_relid := fun name _ => if name = 20 then 20 else InvalidOid
    RelationGetIndexList := fun relid =>
      if relid = 10 then [20] else if relid = 30 then [31] else []
    chunk_index_get_mappings := fun ht idx =>
      if ht = 1 ∧ idx = 20 then [⟨11, 21⟩, ⟨12, 22⟩, ⟨13, 23⟩] else [] }

/-- The file-level variables of a backend in which the extension is created and
no earlier `ProcessUtility` hook is installed. -/
def created_state : PUState :=
  { expect_chunk_modification := false, prev_ProcessUtility_hook := false,
    extstate := ExtensionState.EXTENSION_STATE_CREATED, extension_proxy_oid := 5 }

/-- The hook arguments for a top-level statement. -/
def toplevel_args (parsetree : Node) : ProcessUtilityArgs :=
  { parsetree := parsetree, context := ProcessUtilityContext.PROCESS_UTILITY_TOPLEVEL,
    completion_tag := false, passed_on := 0 }

/-- The statement `VACUUM` of relation 10, the first logical table of the demo
catalog. -/
def demo_vacuum : VacuumStmt :=
  { relation := some ⟨none, 10⟩, vacopt_vacuum := true }

/-- The statement `REINDEX TABLE` of relation 10. -/
def demo_reindex_table : ReindexStmt :=
  { kind := ReindexObjectType.REINDEX_OBJECT_TABLE, relation := some ⟨none, 10⟩, options := 0 }

/-- The statement `REINDEX INDEX` of index 20, an index of the logical table. -/
def demo_reindex_index : ReindexStmt :=
  { kind := ReindexObjectType.REINDEX_OBJECT_INDEX, relation := some ⟨none, 20⟩, options := 0 }

/-- The statement `CLUSTER` of relation 10 using index 20. -/
def demo_cluster : ClusterStmt :=
  { relation := some ⟨none, 10⟩, indexname := some 20, verbose := false }

/-- Code whose only errors are those raised inside external calls. -/
def RaisesOnlyInCallee {α : Type} (c : Cmd Effect α) : Prop :=
  ∀ s e s1 out, c.run s = ⟨.error e, s1, out⟩ → e.site = ErrorSite.in_callee

/-- The statement is `REINDEX INDEX` of an index that resolves and whose owning
table (`IndexGetRelation`) is a logical table. -/
def reindex_index_of_hypertable (env : Env) (stmt : ReindexStmt) : Bool :=
  match stmt.kind, stmt.relation with
  | ReindexObjectType.REINDEX_OBJECT_INDEX, some rv =>
    OidIsValid (env.RangeVarGetRelid rv) &&
      (hypertable_cache_get_entry env (env.IndexGetRelation (env.RangeVarGetRelid rv))).isSome
  | _, _ => false

/-- The statement is `REINDEX TABLE` of a relation that resolves to a logical
table. -/
def reindex_table_of_hypertable (env : Env) (stmt : ReindexStmt) : Bool :=
  match stmt.kind, stmt.relation with
  | ReindexObjectType.REINDEX_OBJECT_TABLE, some rv =>
    (hypertable_cache_get_entry_rv env rv).isSome
  | _, _ => false

/-- The calls made for one captured (partition, index) pair whose reorganize
step and surrounding transaction calls all return. -/
def cluster_chunk_calls (verbose : Bool) (cim : ChunkIndexMapping) : List Effect :=
  [Effect.StartTransactionCommand, Effect.PushActiveSnapshot,
   Effect.chunk_index_mark_clustered cim.chunkoid cim.indexoid,
   Effect.cluster_rel cim.chunkoid cim.indexoid verbose,
   Effect.PopActiveSnapshot, Effect.CommitTransactionCommand]

/-- The statement `CLUSTER` of relation 10 with the index name omitted. -/
def demo_cluster_no_name : ClusterStmt :=
  { relation := some ⟨none, 10⟩, indexname := none, verbose := false }

/-- The statement `CLUSTER` of relation 10 using an index name, 99, that does
not exist. -/
def demo_cluster_bad_name : ClusterStmt :=
  { relation := some ⟨none, 10⟩, indexname := some 99, verbose := false }

/-- No index can be resolved for the statement: the explicit name is not that
of a relation in the namespace of the root table, or the name is omitted and
every index of the root table has `indisclustered` false. -/
def cluster_index_unresolvable (env : Env) (ht : Hypertable) (stmt : ClusterStmt) : Bool :=
  match stmt.indexname with
  | some indexname =>
    !OidIsValid (env.get_relname_relid indexname (env.get_rel_namespace ht.main_table_relid))
  | none =>
    (env.RelationGetIndexList ht.main_table_relid).all
      (fun index_relid => env.indisclustered index_relid == some false)

/-- The demo catalog in which the reorganize step of partition 12 raises. -/
def cluster_fail_env : Env :=
  { demo_env with
    raises := fun e =>
      match e with
      | Effect.cluster_rel 12 22 _ => some (ErrorCode.other 1)
      | _ => none }

/-- Modelled from the spec: the verifier `indexing_verify_index` (`indexing.c`,
not among the sources) rejects "an index on a logical table with a key
incompatible with its partitioning dimension" by failing with
`UnsupportedFeatureError`; a rejection is the call raising
`ERRCODE_FEATURE_NOT_SUPPORTED`. -/
def indexing_verify_index_rejects (env : Env) (ht : Hypertable) (stmt : IndexStmt) : Bool :=
  env.raises (Effect.indexing_verify_index ht.id stmt) ==
    some ErrorCode.ERRCODE_FEATURE_NOT_SUPPORTED

/-- Whether a hook event is a per-partition index creation
(`chunk_index_create_from_stmt`, the call of `process_index_chunk`). -/
def HookEvent.is_chunk_index_create : HookEvent → Bool
  | HookEvent.handler (Effect.chunk_index_create_from_stmt _ _ _ _) => true
  | _ => false

/-- The fan-out count of a create-index statement: the number of per-partition
index creations among its events. -/
def index_fan_out_count (events : List HookEvent) : Nat :=
  (events.filter HookEvent.is_chunk_index_create).length

/-- The statement `CREATE INDEX` 50 on relation 10 with key column 102, which
is not a partitioning column. -/
def demo_index_stmt : IndexStmt :=
  { relation := ⟨none, 10⟩, idxname := some 50, indexParams := [102], primary := false,
    isconstraint := false, concurrent := false }

/-- The demo catalog with a verifier that rejects every index on logical
table 1 whose key lacks the partitioning column 100. -/
def reject_env : Env :=
  { demo_env with
    raises := fun e =>
      match e with
      | Effect.indexing_verify_index 1 stmt =>
        if 100 ∈ stmt.indexParams then none
        else some ErrorCode.ERRCODE_FEATURE_NOT_SUPPORTED
      | _ => none }

/-- The event-trigger data of a `ddl_command_end` event for a statement. -/
def ddl_command_end_data (parsetree : Node) : EventTriggerData :=
  { called_as_event_trigger := true, event_is_ddl_command_end := true, parsetree := parsetree }

/-- A foreign-key constraint on column 102 that references relation 40, the
second logical table of the demo catalog. -/
def demo_fk_constraint : Constraint :=
  { contype := ConstrType.CONSTR_FOREIGN, conname := some 60, pktable := ⟨none, 40⟩,
    keys := [102], exclusions := [], indexname := none }

/-- The subcommand `ADD CONSTRAINT` of `ALTER TABLE` with the foreign key to
the second logical table. -/
def demo_add_fk_cmd : AlterTableCmd :=
  { subtype := AlterTableType.AT_AddConstraint, name := none, newowner := none,
    def_ := AlterTableDef.T_Constraint demo_fk_constraint }

/-- The statement `ALTER TABLE` of a relation with the one subcommand that adds
the foreign key to the second logical table. -/
def demo_add_fk (relname : Ident) : AlterTableStmt :=
  { relkind := ObjectType.OBJECT_TABLE, relation := ⟨none, relname⟩, cmds := [demo_add_fk_cmd] }

/-- Whether an external call is the reorganize step `cluster_rel`. -/
def Effect.is_cluster_rel : Effect → Bool
  | Effect.cluster_rel _ _ _ => true
  | _ => false

/-- The file-level variables of a backend in which `expect_chunk_modification`
has been left true. -/
def expecting_state : PUState :=
  { created_state with expect_chunk_modification := true }

/-- The subcommand `ALTER COLUMN 102 TYPE 7`; column 102 is not a partitioning
column of the demo logical table. -/
def demo_alter_type_cmd : AlterTableCmd :=
  { subtype := AlterTableType.AT_AlterColumnType, name := some 102, newowner := none,
    def_ := AlterTableDef.T_ColumnDef ⟨7, []⟩ }

/-- The subcommand `ALTER COLUMN 100 TYPE 7`; column 100 is the open
partitioning column of the demo logical table. -/
def demo_alter_dimension_type_cmd : AlterTableCmd :=
  { subtype := AlterTableType.AT_AlterColumnType, name := some 100, newowner := none,
    def_ := AlterTableDef.T_ColumnDef ⟨7, []⟩ }

/-- The subcommand `OWNER TO 8`. -/
def demo_change_owner_cmd : AlterTableCmd :=
  { subtype := AlterTableType.AT_ChangeOwner, name := none, newowner := some 8,
    def_ := AlterTableDef.NULL }

/-- Whether an external call is a unit-of-work event of the reorganizer: the
start or the commit of a transaction, the marking of a partition index as
clustered, or the reorganize step. -/
def Effect.is_unit_of_work_event : Effect → Bool
  | Effect.StartTransactionCommand => true
  | Effect.CommitTransactionCommand => true
  | Effect.chunk_index_mark_clustered _ _ => true
  | Effect.cluster_rel _ _ _ => true
  | _ => false

/-- The unit-of-work events among the calls made, in order. -/
def unit_of_work_events (out : List Effect) : List Effect :=
  out.filter Effect.is_unit_of_work_event

/-- The unit-of-work events of one captured (partition, index) pair: start,
mark-clustered, reorganize, commit. -/
def cluster_pair_events (verbose : Bool) (cim : ChunkIndexMapping) : List Effect :=
  [Effect.StartTransactionCommand,
   Effect.chunk_index_mark_clustered cim.chunkoid cim.indexoid,
   Effect.cluster_rel cim.chunkoid cim.indexoid verbose,
   Effect.CommitTransactionCommand]

/-- Whether a transaction is open after a sequence of calls, given whether one
was open before: `StartTransactionCommand` opens one, `CommitTransactionCommand`
closes it, no other call changes it. -/
def transaction_open (before : Bool) (out : List Effect) : Bool :=
  out.foldl (fun is_open e =>
    match e with
    | Effect.StartTransactionCommand => true
    | Effect.CommitTransactionCommand => false
    | _ => is_open) before

/-- Modelled from the spec: `hypertable_cache_pin()` (`hypertable_cache.c`, not
among the sources) is the `pin` of the LogicalTableRegistry, "a MetadataCache
instance specialized to map a table identifier to a decoded logical-table
descriptor", so it is `cache_pin` on the registry cache, and the handlers give
the pointer it returns to `cache_release`.  These are the calls into `cache.c`
among the external calls of a handler, for the registry cache at pointer
`hcache`. -/
def registry_cache_ops (hcache : CachePtr) (out : List Effect) : List CacheOp :=
  out.filterMap (fun e =>
    match e with
    | Effect.hypertable_cache_pin => some (CacheOp.pin hcache)
    | Effect.cache_release => some (CacheOp.release hcache)
    | _ => none)

/-- The `refcount` of the registry cache and the pin list after the pins and
releases among the calls `out` have been made on the backend `w`. -/
def registry_pins_after (asserts : Bool) (w : Backend κ ε) (hcache : CachePtr)
    (out : List Effect) : Except CacheError (Int × List CachePtr) :=
  (run_cache_ops asserts w (registry_cache_ops hcache out)).map
    (fun w1 => ((w1.caches hcache).refcount, w1.pinned_caches))

/-- The statement `CREATE TRIGGER 70 ... FOR EACH ROW` on a relation. -/
def demo_row_trigger (relname : Ident) : CreateTrigStmt :=
  { row := true, relation := ⟨none, relname⟩, trigname := 70, transitionRels := [] }

/-- The statement `DROP INDEX` of the named indexes. -/
def demo_drop_index (names : List Ident) : DropStmt :=
  { removeType := ObjectType.OBJECT_INDEX, objects := names.map (fun name => [name]),
    behavior := DropBehavior.DROP_RESTRICT, missing_ok := false }

/-- The demo catalog in which the root table of the logical table has, besides
the partition 11, an inheritance child 99 that is not a partition. -/
def stray_child_env : Env :=
  { demo_env with
    find_inheritance_children := fun relid => if relid = 10 then [11, 99] else [] }

/-! ## Basic facts about the primitive steps -/

@[simp] theorem setCache_caches_same (w : Backend κ ε) (cache : CachePtr) (c : Cache κ ε) :
    (w.setCache cache c).caches cache = c := by
  simp [Backend.setCache]

theorem setCache_caches_other (w : Backend κ ε) (cache p : CachePtr) (c : Cache κ ε)
    (h : p ≠ cache) : (w.setCache cache c).caches p = w.caches p := by
  simp [Backend.setCache, h]

@[simp] theorem setCache_pinned (w : Backend κ ε) (cache : CachePtr) (c : Cache κ ε) :
    (w.setCache cache c).pinned_caches = w.pinned_caches := rfl

@[simp] theorem setCache_log (w : Backend κ ε) (cache : CachePtr) (c : Cache κ ε) :
    (w.setCache cache c).teardown_log = w.teardown_log := rfl

@[simp] theorem cache_destroy_caches (w : Backend κ ε) (cache : CachePtr) :
    (cache_destroy w cache).caches = w.caches := by
  simp only [cache_destroy]
  split <;> rfl

@[simp] theorem cache_destroy_pinned (w : Backend κ ε) (cache : CachePtr) :
    (cache_destroy w cache).pinned_caches = w.pinned_caches := by
  simp only [cache_destroy]
  split <;> rfl

theorem cache_destroy_log (w : Backend κ ε) (cache : CachePtr) :
    (cache_destroy w cache).teardown_log =
      if 0 < (w.caches cache).refcount then w.teardown_log
      else w.teardown_log ++
        ((if (w.caches cache).pre_destroy_hook then [TeardownEvent.pre_destroy_hook cache] else [])
          ++ [TeardownEvent.hash_destroy cache, TeardownEvent.MemoryContextDelete cache]) := by
  simp only [cache_destroy]
  by_cases h : 0 < (w.caches cache).refcount
  · rw [if_pos h, if_pos h]
  · rw [if_neg h, if_neg h]

theorem cache_destroy_teardowns (w : Backend κ ε) (cache p : CachePtr) :
    (cache_destroy w cache).teardowns p =
      w.teardowns p + (if p = cache ∧ (w.caches cache).refcount ≤ 0 then 1 else 0) := by
  unfold Backend.teardowns
  rw [cache_destroy_log]
  by_cases h : 0 < (w.caches cache).refcount
  · have h2 : ¬ (w.caches cache).refcount ≤ 0 := by omega
    rw [if_pos h, if_neg (fun hh => h2 hh.2)]
    rfl
  · have h2 : (w.caches cache).refcount ≤ 0 := by omega
    rw [if_neg h, List.count_append, List.count_append]
    have e1 : List.count (TeardownEvent.MemoryContextDelete p)
        (if (w.caches cache).pre_destroy_hook then [TeardownEvent.pre_destroy_hook cache] else [])
        = 0 := by
      split <;> simp
    rw [e1]
    by_cases hp : p = cache
    · subst hp
      simp [h2]
    · have hne : ¬ cache = p := fun e => hp e.symm
      simp [hp, hne, List.count_cons]

theorem decr_and_destroy_caches (w : Backend κ ε) (cache p : CachePtr) :
    (decr_and_destroy w cache).caches p =
      if p = cache then { w.caches cache with refcount := (w.caches cache).refcount - 1 }
      else w.caches p := by
  simp [decr_and_destroy, decr_refcount, Backend.setCache]

@[simp] theorem decr_and_destroy_pinned (w : Backend κ ε) (cache : CachePtr) :
    (decr_and_destroy w cache).pinned_caches = w.pinned_caches := by
  simp [decr_and_destroy, decr_refcount]

theorem decr_and_destroy_teardowns (w : Backend κ ε) (cache p : CachePtr) :
    (decr_and_destroy w cache).teardowns p =
      w.teardowns p + (if p = cache ∧ (w.caches cache).refcount ≤ 1 then 1 else 0) := by
  unfold decr_and_destroy
  rw [cache_destroy_teardowns]
  have h1 : (decr_refcount w cache).teardowns p = w.teardowns p := rfl
  have h2 : ((decr_refcount w cache).caches cache).refcount = (w.caches cache).refcount - 1 := by
    simp [decr_refcount]
  rw [h1, h2]
  by_cases hp : p = cache <;> by_cases hr : (w.caches cache).refcount ≤ 1
  · have : (w.caches cache).refcount - 1 ≤ 0 := by omega
    simp [hp, hr, this]
  · have : ¬ (w.caches cache).refcount - 1 ≤ 0 := by omega
    simp [hp, hr, this]
  · simp [hp]
  · simp [hp]

theorem decr_and_destroy_caches_same (w : Backend κ ε) (cache : CachePtr) :
    (decr_and_destroy w cache).caches cache =
      { w.caches cache with refcount := (w.caches cache).refcount - 1 } := by
  simp [decr_and_destroy, decr_refcount, Backend.setCache]

theorem decr_and_destroy_caches_other (w : Backend κ ε) (cache p : CachePtr) (h : p ≠ cache) :
    (decr_and_destroy w cache).caches p = w.caches p := by
  simp [decr_and_destroy, decr_refcount, Backend.setCache, h]

theorem int32_wrap_of_range (n : Int) (hlo : -2147483648 ≤ n) (hhi : n ≤ 2147483647) :
    int32_wrap n = n := by
  unfold int32_wrap
  omega

theorem cache_pin_caches (w : Backend κ ε) (cache p : CachePtr) :
    (cache_pin w cache).1.caches p =
      if p = cache then
        { w.caches cache with refcount := int32_wrap ((w.caches cache).refcount + 1) }
      else w.caches p := by
  simp [cache_pin, Backend.setCache]

/-- On a `refcount` between `INT_MIN` and `INT_MAX - 1` the increment of
`cache_pin` does not wrap. -/
theorem cache_pin_refcount (w : Backend κ ε) (cache : CachePtr)
    (hlo : -2147483648 ≤ (w.caches cache).refcount)
    (hhi : (w.caches cache).refcount < 2147483647) :
    ((cache_pin w cache).1.caches cache).refcount = (w.caches cache).refcount + 1 := by
  rw [cache_pin_caches]
  simp only [if_true]
  exact int32_wrap_of_range _ (by omega) (by omega)

@[simp] theorem cache_pin_pinned (w : Backend κ ε) (cache : CachePtr) :
    (cache_pin w cache).1.pinned_caches = w.pinned_caches ++ [cache] := by
  simp [cache_pin, lappend]

@[simp] theorem cache_pin_log (w : Backend κ ε) (cache : CachePtr) :
    (cache_pin w cache).1.teardown_log = w.teardown_log := by
  simp [cache_pin]

/-- In either build, `cache_release` on a cache with `refcount > 0` returns, and
its result is the decrement-and-destroy pair with the first matching cell
unlinked from `pinned_caches`. -/
theorem cache_release_ok (asserts : Bool) (w : Backend κ ε) (cache : CachePtr)
    (h : asserts = false ∨ 0 < (w.caches cache).refcount) :
    cache_release asserts w cache =
      .ok ({ decr_and_destroy w cache with pinned_caches := w.pinned_caches.erase cache },
           (w.caches cache).refcount - 1) := by
  have hg : (asserts && !decide (0 < (w.caches cache).refcount)) = false := by
    rcases h with h | h <;> simp [h]
  unfold cache_release
  simp only [hg, Bool.false_eq_true, if_false]
  congr 2
  apply Backend.ext
  · simp [decr_and_destroy]
  · simp [decr_and_destroy, decr_refcount, list_delete_ptr]
  · simp only [decr_and_destroy, cache_destroy_log]


/-! ## C1: sequences of pins and releases on one cache -/

theorem cache_release_fields (asserts : Bool) (w : Backend κ ε) (cache : CachePtr)
    (h : asserts = false ∨ 0 < (w.caches cache).refcount) :
    ∃ w1, cache_release asserts w cache = .ok (w1, (w.caches cache).refcount - 1) ∧
      (∀ p, w1.caches p =
        if p = cache then { w.caches cache with refcount := (w.caches cache).refcount - 1 }
        else w.caches p) ∧
      w1.pinned_caches = w.pinned_caches.erase cache ∧
      (∀ p, w1.teardowns p =
        w.teardowns p + (if p = cache ∧ (w.caches cache).refcount ≤ 1 then 1 else 0)) := by
  refine ⟨_, cache_release_ok asserts w cache h, ?_, rfl, ?_⟩
  · intro p
    exact decr_and_destroy_caches w cache p
  · intro p
    exact decr_and_destroy_teardowns w cache p

theorem cache_init_fields (w0 w : Backend κ ε) (cache : CachePtr)
    (hinit : cache_init w0 cache = .ok w) :
    (w0.caches cache).htab = none ∧
    w = w0.setCache cache
      { w0.caches cache with htab := some [], refcount := 1, release_on_commit := true } := by
  unfold cache_init at hinit
  by_cases h : (w0.caches cache).htab.isSome
  · simp [h] at hinit
  · simp only [h, Bool.false_eq_true, if_false, Except.ok.injEq] at hinit
    refine ⟨?_, hinit.symm⟩
    cases hh : (w0.caches cache).htab with
    | none => rfl
    | some t => rw [hh] at h; simp at h

@[simp] theorem foldl_decr_and_destroy_pinned (l : List CachePtr) :
    ∀ (w : Backend κ ε), (l.foldl decr_and_destroy w).pinned_caches = w.pinned_caches := by
  induction l with
  | nil => intro w; rfl
  | cons x l ih => intro w; rw [List.foldl_cons, ih, decr_and_destroy_pinned]

@[simp] theorem relase_all_pinned_caches_pinned (w : Backend κ ε) :
    (relase_all_pinned_caches w).pinned_caches = [] := rfl

/-- On an abort event the callback is `relase_all_pinned_caches` followed by the
`default:` loop over the list it has just emptied. -/
theorem cache_xact_end_abort (asserts : Bool) (w : Backend κ ε) (event : XactEvent)
    (habort : event = XactEvent.XACT_EVENT_ABORT ∨ event = XactEvent.XACT_EVENT_PARALLEL_ABORT) :
    cache_xact_end asserts w event = .ok (relase_all_pinned_caches w) := by
  rcases habort with h | h <;> subst h <;> rfl

theorem find_key_none (htab : List (Slot κ ε)) (key : κ) (habsent : ∀ s ∈ htab, s.1 ≠ key) :
    htab.find? (fun s => decide (s.1 = key)) = none := by
  rw [List.find?_eq_none]
  intro s hs
  simpa using habsent s hs

/-- A fetch of an absent key from a cache with a `create_entry` callback. -/
theorem cache_fetch_miss (w : Backend κ ε) (cache : CachePtr) (key : κ)
    (htab : List (Slot κ ε)) (create : κ → ε)
    (hinit : (w.caches cache).htab = some htab)
    (hcreate : (w.caches cache).create_entry = some create)
    (habsent : ∀ s ∈ htab, s.1 ≠ key) :
    cache_fetch w cache key =
      .ok (w.setCache cache { w.caches cache with
             htab := some (write_slot ((key, none) :: htab) key (create key)),
             stats := { (w.caches cache).stats with
               misses := (w.caches cache).stats.misses + 1,
               numelements := (w.caches cache).stats.numelements + 1 } },
           some (key, some (create key))) := by
  simp [cache_fetch, hinit, hcreate, hash_search, find_key_none htab key habsent]

/-- A fetch of a key whose slot heads the table is a hit: the hit counter goes
up by one and the other two counters stay. -/
theorem cache_fetch_hit_head (w : Backend κ ε) (cache : CachePtr) (key : κ)
    (contents : Option ε) (rest : List (Slot κ ε))
    (hinit : (w.caches cache).htab = some ((key, contents) :: rest)) :
    ∃ w2 r2, cache_fetch w cache key = .ok (w2, r2) ∧
      (w2.caches cache).stats.hits = (w.caches cache).stats.hits + 1 ∧
      (w2.caches cache).stats.misses = (w.caches cache).stats.misses ∧
      (w2.caches cache).stats.numelements = (w.caches cache).stats.numelements := by
  cases hu : (w.caches cache).update_entry with
  | none =>
    cases hc : (w.caches cache).create_entry <;>
      simp [cache_fetch, hinit, hu, hc, hash_search]
  | some update =>
    cases hc : (w.caches cache).create_entry <;>
      simp [cache_fetch, hinit, hu, hc, hash_search]

/-- C3: on an initialised cache with a `create_entry` callback and a key that
has no slot in the table, `cache_fetch` returns and is a miss (`misses` + 1,
`numelements` + 1, `hits` unchanged), and the `cache_fetch` for the same key
that follows at once returns and is a hit (`hits` + 1, `misses` and
`numelements` unchanged). -/
theorem C3_fetch_miss_then_hit (w : Backend κ ε) (cache : CachePtr) (key : κ)
    (htab : List (Slot κ ε)) (create : κ → ε)
    (hinit : (w.caches cache).htab = some htab)
    (hcreate : (w.caches cache).create_entry = some create)
    (habsent : ∀ s ∈ htab, s.1 ≠ key) :
    ∃ w1 r1 w2 r2,
      cache_fetch w cache key = .ok (w1, r1) ∧
      cache_fetch w1 cache key = .ok (w2, r2) ∧
      (w1.caches cache).stats.misses = (w.caches cache).stats.misses + 1 ∧
      (w1.caches cache).stats.numelements = (w.caches cache).stats.numelements + 1 ∧
      (w1.caches cache).stats.hits = (w.caches cache).stats.hits ∧
      (w2.caches cache).stats.hits = (w1.caches cache).stats.hits + 1 ∧
      (w2.caches cache).stats.misses = (w1.caches cache).stats.misses ∧
      (w2.caches cache).stats.numelements = (w1.caches cache).stats.numelements := by
  have h1 := cache_fetch_miss w cache key htab create hinit hcreate habsent
  obtain ⟨w2, r2, h2, hh, hm, hn⟩ := cache_fetch_hit_head
    (w.setCache cache { w.caches cache with
       htab := some (write_slot ((key, none) :: htab) key (create key)),
       stats := { (w.caches cache).stats with
         misses := (w.caches cache).stats.misses + 1,
         numelements := (w.caches cache).stats.numelements + 1 } })
    cache key (some (create key)) (write_slot htab key (create key))
    (by simp [write_slot])
  refine ⟨_, _, w2, r2, h1, h2, ?_, ?_, ?_, hh, hm, hn⟩ <;> simp


/-- C3 at a concrete input: key 3 is fetched twice from a cache that holds
key 7 only. -/
theorem C3_fetch_miss_then_hit_witness :
    (lookup_backend.caches 0).htab = some [(7, some 70)] ∧
    (lookup_backend.caches 0).create_entry = some (fun key => 10 * key) ∧
    (∀ s ∈ [((7 : Nat), some (70 : Nat))], s.1 ≠ 3) ∧
    ∃ w1 r1 w2 r2,
      cache_fetch lookup_backend 0 3 = .ok (w1, r1) ∧
      cache_fetch w1 0 3 = .ok (w2, r2) ∧
      (w1.caches 0).stats.misses = (lookup_backend.caches 0).stats.misses + 1 ∧
      (w1.caches 0).stats.numelements = (lookup_backend.caches 0).stats.numelements + 1 ∧
      (w1.caches 0).stats.hits = (lookup_backend.caches 0).stats.hits ∧
      (w2.caches 0).stats.hits = (w1.caches 0).stats.hits + 1 ∧
      (w2.caches 0).stats.misses = (w1.caches 0).stats.misses ∧
      (w2.caches 0).stats.numelements = (w1.caches 0).stats.numelements :=
  ⟨rfl, rfl, by simp,
    C3_fetch_miss_then_hit lookup_backend 0 3 [(7, some 70)] (fun key => 10 * key) rfl rfl
      (by simp)⟩

theorem any_key_eq_true (htab : List (Slot κ ε)) (key : κ) :
    htab.any (fun s => decide (s.1 = key)) = true ↔ ∃ s ∈ htab, s.1 = key := by
  simp [List.any_eq_true]

/-- C4: on an initialised cache `cache_remove` returns; the returned flag is
true exactly when the key has a slot in the table; `numelements` drops by 1 if
it is true and stays if it is false; the key has no slot afterwards, and the
table is otherwise the old one (literally the old one when the flag is false);
`refcount`, `release_on_commit`, the callbacks, `hits`, `misses`, every other
cache, the pin list and the teardown log are unchanged. -/
theorem C4_cache_remove (w : Backend κ ε) (cache : CachePtr) (key : κ)
    (htab : List (Slot κ ε)) (hinit : (w.caches cache).htab = some htab) :
    ∃ w1 found htab1,
      cache_remove w cache key = some (w1, found) ∧
      found = htab.any (fun s => decide (s.1 = key)) ∧
      (w1.caches cache).htab = some htab1 ∧
      htab1 = (if found then htab.filter (fun t => decide (t.1 ≠ key)) else htab) ∧
      (∀ s ∈ htab1, s.1 ≠ key) ∧
      (w1.caches cache).stats.numelements =
        (w.caches cache).stats.numelements - (if found then 1 else 0) ∧
      (w1.caches cache).stats.hits = (w.caches cache).stats.hits ∧
      (w1.caches cache).stats.misses = (w.caches cache).stats.misses ∧
      (w1.caches cache).refcount = (w.caches cache).refcount ∧
      (w1.caches cache).release_on_commit = (w.caches cache).release_on_commit ∧
      (∀ p, w1.caches p = if p = cache then w1.caches cache else w.caches p) ∧
      w1.pinned_caches = w.pinned_caches ∧
      w1.teardown_log = w.teardown_log := by
  cases hf : htab.find? (fun s => decide (s.1 = key)) with
  | none =>
    have habsent : ∀ s ∈ htab, s.1 ≠ key := by
      rw [List.find?_eq_none] at hf
      intro s hs
      simpa using hf s hs
    have hany : htab.any (fun s => decide (s.1 = key)) = false := by
      rw [Bool.eq_false_iff, Ne, any_key_eq_true]
      rintro ⟨s, hs, hk⟩
      exact habsent s hs hk
    refine ⟨w.setCache cache { w.caches cache with htab := some htab }, false, htab,
      ?_, hany.symm, ?_, ?_, habsent, ?_, ?_, ?_, ?_, ?_, ?_, rfl, rfl⟩
    · simp [cache_remove, hinit, hash_search, hf]
    · simp
    · simp
    · simp
    · simp
    · simp
    · simp
    · simp
    · intro p
      by_cases hp : p = cache
      · rw [if_pos hp, hp]
      · rw [if_neg hp]
        exact setCache_caches_other w cache p _ hp
  | some s0 =>
    have hany : htab.any (fun s => decide (s.1 = key)) = true := by
      rw [any_key_eq_true]
      have hm := List.mem_of_find?_eq_some hf
      have hp := List.find?_some hf
      exact ⟨s0, hm, by simpa using hp⟩
    refine ⟨w.setCache cache { w.caches cache with
        htab := some (htab.filter (fun t => decide (t.1 ≠ key))),
        stats := { (w.caches cache).stats with
          numelements := (w.caches cache).stats.numelements - 1 } },
      true, htab.filter (fun t => decide (t.1 ≠ key)),
      ?_, hany.symm, ?_, ?_, ?_, ?_, ?_, ?_, ?_, ?_, ?_, rfl, rfl⟩
    · simp [cache_remove, hinit, hash_search, hf]
    · simp
    · simp
    · intro s hs
      simpa using (List.mem_filter.mp hs).2
    · simp
    · simp
    · simp
    · simp
    · simp
    · intro p
      by_cases hp : p = cache
      · rw [if_pos hp, hp]
      · rw [if_neg hp]
        exact setCache_caches_other w cache p _ hp

/-- C4 at a concrete input: the one key held by the cache is removed. -/
theorem C4_cache_remove_witness :
    (lookup_backend.caches 0).htab = some [(7, some 70)] ∧
    ∃ w1 found htab1,
      cache_remove lookup_backend 0 7 = some (w1, found) ∧
      found = [((7 : Nat), some (70 : Nat))].any (fun s => decide (s.1 = 7)) ∧
      (w1.caches 0).htab = some htab1 ∧
      htab1 = (if found then [((7 : Nat), some (70 : Nat))].filter (fun t => decide (t.1 ≠ 7))
        else [(7, some 70)]) ∧
      (∀ s ∈ htab1, s.1 ≠ 7) ∧
      (w1.caches 0).stats.numelements =
        (lookup_backend.caches 0).stats.numelements - (if found then 1 else 0) ∧
      (w1.caches 0).stats.hits = (lookup_backend.caches 0).stats.hits ∧
      (w1.caches 0).stats.misses = (lookup_backend.caches 0).stats.misses ∧
      (w1.caches 0).refcount = (lookup_backend.caches 0).refcount ∧
      (w1.caches 0).release_on_commit = (lookup_backend.caches 0).release_on_commit ∧
      (∀ p, w1.caches p = if p = 0 then w1.caches 0 else lookup_backend.caches p) ∧
      w1.pinned_caches = lookup_backend.pinned_caches ∧
      w1.teardown_log = lookup_backend.teardown_log :=
  ⟨rfl, C4_cache_remove lookup_backend 0 7 [(7, some 70)] rfl⟩


/-! ## C5, C6, C7: `cache_release`, `cache_pin`, `cache_invalidate` -/

theorem erase_first_record (l : List CachePtr) (cache : CachePtr) :
    (cache ∉ l ∧ l.erase cache = l) ∨
    (∃ l1 l2, cache ∉ l1 ∧ l = l1 ++ cache :: l2 ∧ l.erase cache = l1 ++ l2) := by
  by_cases h : cache ∈ l
  · exact Or.inr (List.exists_erase_eq h)
  · exact Or.inl ⟨h, List.erase_of_not_mem h⟩

/-- C5 as stated fails: a cache that has just been initialised has
`refcount = 1 > 0` and no PinRecord; `cache_release` returns 0 and tears the
cache down, and the pin list is the same list as before, so no record was
removed. -/
theorem C5_release_without_pin_record :
    0 < ((fresh_backend 0).caches 0).refcount ∧
    ∃ w1, cache_release true (fresh_backend 0) 0 = .ok (w1, 0) ∧
      w1.pinned_caches = (fresh_backend 0).pinned_caches ∧
      ¬ (w1.pinned_caches.length + 1 = (fresh_backend 0).pinned_caches.length) ∧
      w1.teardowns 0 = 1 :=
  ⟨by decide, _, rfl, rfl, by decide, by decide⟩

/-- C5, amended: for a cache with `refcount > 0`, in either build,
`cache_release` returns `refcount - 1`, which is the new `refcount`; no other
field of the cache and no other cache changes; the first PinRecord of the cache
is unlinked from the pin list when there is one (all other records stay, in
order) and the list is unchanged when there is none; and the teardown runs in
the call exactly when the returned value is 0. -/
theorem C5_cache_release (asserts : Bool) (w : Backend κ ε) (cache : CachePtr)
    (hpos : 0 < (w.caches cache).refcount) :
    ∃ w1, cache_release asserts w cache = .ok (w1, (w.caches cache).refcount - 1) ∧
      (w1.caches cache).refcount = (w.caches cache).refcount - 1 ∧
      (∀ p, w1.caches p =
        if p = cache then { w.caches cache with refcount := (w.caches cache).refcount - 1 }
        else w.caches p) ∧
      ((cache ∉ w.pinned_caches ∧ w1.pinned_caches = w.pinned_caches) ∨
       (∃ l1 l2, cache ∉ l1 ∧ w.pinned_caches = l1 ++ cache :: l2 ∧
          w1.pinned_caches = l1 ++ l2)) ∧
      w1.teardowns cache =
        w.teardowns cache + (if (w.caches cache).refcount - 1 = 0 then 1 else 0) ∧
      (w1.teardown_log ≠ w.teardown_log ↔ (w.caches cache).refcount - 1 = 0) := by
  obtain ⟨w1, hrel, hc, hp, htd⟩ := cache_release_fields asserts w cache (Or.inr hpos)
  refine ⟨w1, hrel, ?_, hc, ?_, ?_, ?_⟩
  · rw [hc]; simp
  · rw [hp]
    exact erase_first_record w.pinned_caches cache
  · rw [htd]
    by_cases h1 : (w.caches cache).refcount ≤ 1
    · have : (w.caches cache).refcount - 1 = 0 := by omega
      simp [h1, this]
    · have : ¬ (w.caches cache).refcount - 1 = 0 := by omega
      simp [h1, this]
  · have hw1 : w1 = { decr_and_destroy w cache with
        pinned_caches := w.pinned_caches.erase cache } := by
      have h2 := cache_release_ok asserts w cache (Or.inr hpos)
      rw [hrel] at h2
      simpa using h2
    have hlog : w1.teardown_log = (decr_and_destroy w cache).teardown_log := by rw [hw1]
    have hrc : ((decr_refcount w cache).caches cache).refcount = (w.caches cache).refcount - 1 := by
      simp [decr_refcount]
    have hlog0 : (decr_refcount w cache).teardown_log = w.teardown_log := rfl
    rw [hlog, decr_and_destroy, cache_destroy_log, hrc, hlog0]
    by_cases h1 : 0 < (w.caches cache).refcount - 1
    · have : ¬ (w.caches cache).refcount - 1 = 0 := by omega
      simp [h1, this]
    · have : (w.caches cache).refcount - 1 = 0 := by omega
      simp [this]

/-- C5, amended, at a concrete input: cache 0 of the pinned backend has
`refcount = 3` and two PinRecords. -/
theorem C5_cache_release_witness :
    0 < (pinned_backend.caches 0).refcount ∧
    ∃ w1, cache_release true pinned_backend 0 = .ok (w1, (pinned_backend.caches 0).refcount - 1) ∧
      (w1.caches 0).refcount = (pinned_backend.caches 0).refcount - 1 ∧
      (∀ p, w1.caches p =
        if p = 0 then { pinned_backend.caches 0 with
          refcount := (pinned_backend.caches 0).refcount - 1 }
        else pinned_backend.caches p) ∧
      (((0 : CachePtr) ∉ pinned_backend.pinned_caches ∧
          w1.pinned_caches = pinned_backend.pinned_caches) ∨
       (∃ l1 l2, (0 : CachePtr) ∉ l1 ∧ pinned_backend.pinned_caches = l1 ++ 0 :: l2 ∧
          w1.pinned_caches = l1 ++ l2)) ∧
      w1.teardowns 0 =
        pinned_backend.teardowns 0 + (if (pinned_backend.caches 0).refcount - 1 = 0 then 1 else 0) ∧
      (w1.teardown_log ≠ pinned_backend.teardown_log ↔ (pinned_backend.caches 0).refcount - 1 = 0) :=
  ⟨by decide, C5_cache_release true pinned_backend 0 (by decide)⟩

/-- C6 as stated fails at the top of the range of the 4-byte `refcount`: on a
cache with `refcount = INT_MAX`, `cache->refcount++` wraps, and `cache_pin`
leaves `refcount = INT_MIN`, not `INT_MAX + 1`. -/
theorem C6_pin_wraps_at_int_max :
    (saturated_backend.caches 0).refcount = 2147483647 ∧
    ((cache_pin saturated_backend 0).1.caches 0).refcount = -2147483648 ∧
    ((cache_pin saturated_backend 0).1.caches 0).refcount ≠
      (saturated_backend.caches 0).refcount + 1 :=
  ⟨rfl, by decide, by decide⟩

/-- C6, amended: for every cache, `cache_pin` returns the pointer it was given,
changes no field of the cache other than `refcount` nor any other cache, leaves
the pin list as the old list followed by one record for the cache, and makes no
teardown call; the new `refcount` is the old one plus 1 as a 4-byte `int`,
which is exactly the old one plus 1 whenever the old one is an `int` value
below `INT_MAX`, and `INT_MIN` when the old one is `INT_MAX`. -/
theorem C6_cache_pin (w : Backend κ ε) (cache : CachePtr) :
    (cache_pin w cache).2 = cache ∧
    ((cache_pin w cache).1.caches cache).refcount =
      int32_wrap ((w.caches cache).refcount + 1) ∧
    (INT_MIN ≤ (w.caches cache).refcount → (w.caches cache).refcount < INT_MAX →
      ((cache_pin w cache).1.caches cache).refcount = (w.caches cache).refcount + 1) ∧
    ((w.caches cache).refcount = INT_MAX →
      ((cache_pin w cache).1.caches cache).refcount = INT_MIN) ∧
    (∀ p, (cache_pin w cache).1.caches p =
      if p = cache then
        { w.caches cache with refcount := int32_wrap ((w.caches cache).refcount + 1) }
      else w.caches p) ∧
    (cache_pin w cache).1.pinned_caches = w.pinned_caches ++ [cache] ∧
    (cache_pin w cache).1.pinned_caches.length = w.pinned_caches.length + 1 ∧
    (cache_pin w cache).1.teardown_log = w.teardown_log := by
  refine ⟨rfl, ?_, ?_, ?_, cache_pin_caches w cache, cache_pin_pinned w cache, ?_,
    cache_pin_log w cache⟩
  · rw [cache_pin_caches]; simp
  · intro hlo hhi
    unfold INT_MIN at hlo
    unfold INT_MAX at hhi
    exact cache_pin_refcount w cache hlo hhi
  · intro hmax
    rw [cache_pin_caches]
    simp only [if_true, hmax]
    decide
  · simp

/-- C6, amended, at a concrete input: a pin of the freshly initialised cache 0
takes `refcount` from 1 to 2. -/
theorem C6_cache_pin_witness :
    INT_MIN ≤ ((fresh_backend 0).caches 0).refcount ∧
    ((fresh_backend 0).caches 0).refcount < INT_MAX ∧
    ((cache_pin (fresh_backend 0) 0).1.caches 0).refcount =
      ((fresh_backend 0).caches 0).refcount + 1 ∧
    (cache_pin (fresh_backend 0) 0).1.pinned_caches = (fresh_backend 0).pinned_caches ++ [0] :=
  ⟨by decide, by decide,
    (C6_cache_pin (fresh_backend 0) 0).2.2.1 (by decide) (by decide),
    (C6_cache_pin (fresh_backend 0) 0).2.2.2.2.2.1⟩

theorem RefcountInv_congr (base : Nat) (cache : CachePtr) (w v : Backend κ ε)
    (hc : v.caches cache = w.caches cache) (hl : v.teardown_log = w.teardown_log) :
    RefcountInv base cache w → RefcountInv base cache v := by
  intro h
  unfold RefcountInv Backend.teardowns at *
  rw [hc, hl]
  exact h

theorem decr_and_destroy_inv (base : Nat) (cache x : CachePtr) (w : Backend κ ε)
    (hinv : RefcountInv base cache w) (hpos : x = cache → 0 < (w.caches cache).refcount) :
    RefcountInv base cache (decr_and_destroy w x) := by
  obtain ⟨h0, ht⟩ := hinv
  by_cases hx : x = cache
  · subst hx
    have hp := hpos rfl
    have hne : ¬ (w.caches x).refcount = 0 := by omega
    rw [if_neg hne] at ht
    refine ⟨?_, ?_⟩
    · rw [decr_and_destroy_caches_same]
      show 0 ≤ (w.caches x).refcount - 1
      omega
    · rw [decr_and_destroy_teardowns, decr_and_destroy_caches_same, ht]
      show _ = base + (if (w.caches x).refcount - 1 = 0 then 1 else 0)
      by_cases h1 : (w.caches x).refcount ≤ 1
      · have : (w.caches x).refcount - 1 = 0 := by omega
        simp [h1, this]
      · have : ¬ (w.caches x).refcount - 1 = 0 := by omega
        simp [h1, this]
  · have hx2 : cache ≠ x := fun e => hx e.symm
    refine ⟨?_, ?_⟩
    · rw [decr_and_destroy_caches_other w x cache hx2]
      exact h0
    · rw [decr_and_destroy_teardowns, decr_and_destroy_caches_other w x cache hx2, ht]
      simp [hx2]

theorem foldl_decr_and_destroy_inv (base : Nat) (cache : CachePtr) (l : List CachePtr) :
    ∀ w : Backend κ ε, RefcountInv base cache w →
      (l.count cache : Int) ≤ (w.caches cache).refcount →
      RefcountInv base cache (l.foldl decr_and_destroy w) := by
  induction l with
  | nil => intro w h _; exact h
  | cons x l ih =>
    intro w hinv hcount
    rw [List.foldl_cons]
    by_cases hx : x = cache
    · subst hx
      rw [List.count_cons_self] at hcount
      push_cast at hcount
      apply ih
      · exact decr_and_destroy_inv base x x w hinv (fun _ => by omega)
      · rw [decr_and_destroy_caches_same]
        show _ ≤ (w.caches x).refcount - 1
        omega
    · have hx2 : cache ≠ x := fun e => hx e.symm
      have hc : (x :: l).count cache = l.count cache := by
        simp [List.count_cons, hx]
      rw [hc] at hcount
      apply ih
      · exact decr_and_destroy_inv base cache x w hinv (fun e => absurd e hx)
      · rw [decr_and_destroy_caches_other w x cache hx2]
        exact hcount

/-- What one visit of the `default:` loop of `cache_xact_end` does when it
returns: nothing for a cache that is kept across commits; for a cache that is
released on commit the build has no asserts and the visit is a release. -/
theorem xact_end_cell_ok (asserts : Bool) (w v : Backend κ ε) (x : CachePtr)
    (h : xact_end_cell asserts w x = .ok v) :
    ((w.caches x).release_on_commit = false ∧ v = w) ∨
    ((w.caches x).release_on_commit = true ∧ asserts = false ∧
      v = { decr_and_destroy w x with pinned_caches := w.pinned_caches.erase x }) := by
  unfold xact_end_cell at h
  cases hr : (w.caches x).release_on_commit with
  | false =>
    left
    simp [hr] at h
    exact ⟨rfl, h.symm⟩
  | true =>
    right
    cases asserts with
    | true => simp [hr] at h
    | false =>
      simp only [hr, Bool.false_and, Bool.false_eq_true, if_false, if_true] at h
      rw [cache_release_ok false w x (Or.inl rfl)] at h
      simp only [Except.map, Except.ok.injEq] at h
      exact ⟨rfl, rfl, h.symm⟩

theorem xact_end_cell_returns (w : Backend κ ε) (x : CachePtr) :
    ∃ v, xact_end_cell false w x = .ok v := by
  unfold xact_end_cell
  cases hr : (w.caches x).release_on_commit with
  | false => exact ⟨w, by simp⟩
  | true =>
    rw [cache_release_ok false w x (Or.inl rfl)]
    exact ⟨{ decr_and_destroy w x with pinned_caches := w.pinned_caches.erase x },
      by simp [Except.map]⟩

theorem xact_end_loop_returns (s : List CachePtr) :
    ∀ w : Backend κ ε, ∃ w1, s.foldlM (xact_end_cell false) w = .ok w1 := by
  induction s with
  | nil => intro w; exact ⟨w, rfl⟩
  | cons x s ih =>
    intro w
    obtain ⟨v, hv⟩ := xact_end_cell_returns w x
    obtain ⟨w1, hw1⟩ := ih v
    refine ⟨w1, ?_⟩
    rw [List.foldlM_cons, hv]
    exact hw1


theorem xact_end_loop_nil (asserts : Bool) (w w1 : Backend κ ε)
    (h : ([] : List CachePtr).foldlM (xact_end_cell asserts) w = .ok w1) : w1 = w := by
  simp only [List.foldlM_nil, pure, Except.pure, Except.ok.injEq] at h
  exact h.symm

theorem xact_end_loop_cons (asserts : Bool) (x : CachePtr) (s : List CachePtr)
    (w w1 : Backend κ ε)
    (h : (x :: s).foldlM (xact_end_cell asserts) w = .ok w1) :
    ∃ v, xact_end_cell asserts w x = .ok v ∧ s.foldlM (xact_end_cell asserts) v = .ok w1 := by
  rw [List.foldlM_cons] at h
  cases hcell : xact_end_cell asserts w x with
  | error e =>
    rw [hcell] at h
    simp [bind, Except.bind] at h
  | ok v =>
    rw [hcell] at h
    exact ⟨v, rfl, h⟩

theorem released_cell_caches (w : Backend κ ε) (x p : CachePtr) (l : List CachePtr) :
    ({ decr_and_destroy w x with pinned_caches := l } : Backend κ ε).caches p =
      if p = x then { w.caches x with refcount := (w.caches x).refcount - 1 } else w.caches p :=
  decr_and_destroy_caches w x p

/-- The caches after the `default:` loop of `cache_xact_end` has run over the
cells `s`: a cache that is released on commit has lost one reference per cell,
a cache that is kept across commits is untouched. -/
theorem xact_end_loop_caches (asserts : Bool) (s : List CachePtr) :
    ∀ (w w1 : Backend κ ε), s.foldlM (xact_end_cell asserts) w = .ok w1 →
      ∀ p, w1.caches p =
        { w.caches p with refcount := (w.caches p).refcount -
            (if (w.caches p).release_on_commit then (s.count p : Int) else 0) } := by
  induction s with
  | nil =>
    intro w w1 h p
    rw [xact_end_loop_nil asserts w w1 h]
    have e : (w.caches p).refcount -
        (if (w.caches p).release_on_commit then (([] : List CachePtr).count p : Int) else 0)
        = (w.caches p).refcount := by
      split <;> simp
    rw [e]
  | cons x s ih =>
    intro w w1 h p
    obtain ⟨v, hcell, hrest⟩ := xact_end_loop_cons asserts x s w w1 h
    have hv := ih v w1 hrest p
    rcases xact_end_cell_ok asserts w v x hcell with ⟨hroc, hvw⟩ | ⟨hroc, _, hvw⟩
    · subst hvw
      rw [hv]
      by_cases hp : p = x
      · subst hp
        simp [hroc]
      · have hx : ¬ x = p := fun e => hp e.symm
        simp [List.count_cons, hx]
    · rw [hv, hvw]
      by_cases hp : p = x
      · subst hp
        rw [released_cell_caches, if_pos rfl]
        simp only [hroc, if_true, List.count_cons_self, Nat.cast_add, Nat.cast_one]
        congr 1
        omega
      · have hx : ¬ x = p := fun e => hp e.symm
        rw [released_cell_caches, if_neg hp]
        simp [List.count_cons, hx]

/-- The pin list after the `default:` loop of `cache_xact_end` has run over
the cells `s`: what is left is a sublist of the old list, which has lost, for
each cache that is released on commit, as many records as `s` holds for it. -/
theorem xact_end_loop_pinned (asserts : Bool) (s : List CachePtr) :
    ∀ (w w1 : Backend κ ε), s.foldlM (xact_end_cell asserts) w = .ok w1 →
      w1.pinned_caches.Sublist w.pinned_caches ∧
      ∀ p, w1.pinned_caches.count p =
        w.pinned_caches.count p - (if (w.caches p).release_on_commit then s.count p else 0) := by
  induction s with
  | nil =>
    intro w w1 h
    rw [xact_end_loop_nil asserts w w1 h]
    refine ⟨List.Sublist.refl _, ?_⟩
    intro p
    split <;> simp
  | cons x s ih =>
    intro w w1 h
    obtain ⟨v, hcell, hrest⟩ := xact_end_loop_cons asserts x s w w1 h
    obtain ⟨hsub, hcount⟩ := ih v w1 hrest
    rcases xact_end_cell_ok asserts w v x hcell with ⟨hroc, hvw⟩ | ⟨hroc, _, hvw⟩
    · subst hvw
      refine ⟨hsub, ?_⟩
      intro p
      rw [hcount p]
      by_cases hp : p = x
      · subst hp
        simp [hroc]
      · have hx : ¬ x = p := fun e => hp e.symm
        simp [List.count_cons, hx]
    · have hvp : v.pinned_caches = w.pinned_caches.erase x := by rw [hvw]
      refine ⟨?_, ?_⟩
      · have h1 : v.pinned_caches.Sublist w.pinned_caches := by
          rw [hvp]
          exact List.erase_sublist x w.pinned_caches
        exact hsub.trans h1
      · intro p
        rw [hcount p, hvp]
        have hvc : v.caches p =
            if p = x then { w.caches x with refcount := (w.caches x).refcount - 1 }
            else w.caches p := by
          rw [hvw]
          exact released_cell_caches w x p _
        by_cases hp : p = x
        · subst hp
          rw [hvc, if_pos rfl]
          simp only [hroc, if_true, List.count_erase_self, List.count_cons_self]
          omega
        · have hx : ¬ x = p := fun e => hp e.symm
          rw [hvc, if_neg hp, List.count_erase_of_ne hp]
          simp [List.count_cons, hx]


theorem xact_end_loop_inv (asserts : Bool) (base : Nat) (cache : CachePtr) (s : List CachePtr) :
    ∀ (w w1 : Backend κ ε), s.foldlM (xact_end_cell asserts) w = .ok w1 →
      RefcountInv base cache w →
      (if (w.caches cache).release_on_commit then (s.count cache : Int) else 0)
        ≤ (w.caches cache).refcount →
      RefcountInv base cache w1 := by
  induction s with
  | nil =>
    intro w w1 h hinv _
    rw [xact_end_loop_nil asserts w w1 h]
    exact hinv
  | cons x s ih =>
    intro w w1 h hinv hbound
    obtain ⟨v, hcell, hrest⟩ := xact_end_loop_cons asserts x s w w1 h
    rcases xact_end_cell_ok asserts w v x hcell with ⟨hroc, hvw⟩ | ⟨hroc, _, hvw⟩
    · subst hvw
      apply ih v w1 hrest hinv
      by_cases hc : (v.caches cache).release_on_commit = true
      · rw [if_pos hc] at hbound ⊢
        have hx : ¬ x = cache := by
          intro e
          rw [e, hc] at hroc
          exact Bool.noConfusion hroc
        have e : (x :: s).count cache = s.count cache := by simp [List.count_cons, hx]
        rw [e] at hbound
        exact hbound
      · rw [if_neg hc] at hbound ⊢
        exact hbound
    · have hvc : v.caches cache =
          if cache = x then { w.caches x with refcount := (w.caches x).refcount - 1 }
          else w.caches cache := by
        rw [hvw]
        exact released_cell_caches w x cache _
      have hvl : v.teardown_log = (decr_and_destroy w x).teardown_log := by rw [hvw]
      have hvdd : v.caches cache = (decr_and_destroy w x).caches cache := by
        rw [hvc, decr_and_destroy_caches]
      by_cases hx : x = cache
      · subst hx
        rw [if_pos hroc, List.count_cons_self] at hbound
        push_cast at hbound
        apply ih v w1 hrest
        · exact RefcountInv_congr base x _ v hvdd hvl
            (decr_and_destroy_inv base x x w hinv (fun _ => by omega))
        · rw [hvc, if_pos rfl]
          simp only [hroc, if_true]
          omega
      · have hx2 : ¬ cache = x := fun e => hx e.symm
        apply ih v w1 hrest
        · exact RefcountInv_congr base cache _ v hvdd hvl
            (decr_and_destroy_inv base cache x w hinv (fun e => absurd e hx))
        · rw [hvc, if_neg hx2]
          have e : (x :: s).count cache = s.count cache := by simp [List.count_cons, hx]
          rw [e] at hbound
          exact hbound

/-- On an event that is not an abort the callback is the `default:` loop
alone. -/
theorem cache_xact_end_default (asserts : Bool) (w : Backend κ ε) (event : XactEvent)
    (hevent : event ≠ XactEvent.XACT_EVENT_ABORT ∧ event ≠ XactEvent.XACT_EVENT_PARALLEL_ABORT) :
    cache_xact_end asserts w event = w.pinned_caches.foldlM (xact_end_cell asserts) w := by
  cases event <;> first | rfl | exact absurd rfl hevent.1 | exact absurd rfl hevent.2

/-! ## C9 and C10: the transaction-end callback on a normal completion -/

/-- C10 as stated fails: in a build without asserts, `XACT_EVENT_COMMIT` with a
PinRecord left for cache 1, which has `release_on_commit = false`, leaves that
record in the pin list and the `refcount` of cache 1 at its old value. -/
theorem C10_commit_keeps_unflagged_pin :
    (pinned_backend.caches 1).release_on_commit = false ∧
    pinned_backend.pinned_caches = [0, 1, 0] ∧
    (pinned_backend.caches 1).refcount = 1 ∧
    ∃ w1, cache_xact_end false pinned_backend XactEvent.XACT_EVENT_COMMIT = .ok w1 ∧
      w1.pinned_caches = [1] ∧
      (w1.caches 1).refcount = 1 :=
  ⟨rfl, rfl, rfl, _, rfl, rfl, rfl⟩

/-- C10, amended: in a build without asserts, `cache_xact_end` on an event that
is not an abort returns and does not release a cache with
`release_on_commit = false`: the cache, its `refcount` included, is unchanged,
and the pin list holds as many records for it as before. -/
theorem C10_commit_keeps_unflagged_caches (w : Backend κ ε) (event : XactEvent) (p : CachePtr)
    (hevent : event ≠ XactEvent.XACT_EVENT_ABORT ∧ event ≠ XactEvent.XACT_EVENT_PARALLEL_ABORT)
    (hkeep : (w.caches p).release_on_commit = false) :
    ∃ w1, cache_xact_end false w event = .ok w1 ∧
      w1.caches p = w.caches p ∧
      (w1.caches p).refcount = (w.caches p).refcount ∧
      w1.pinned_caches.count p = w.pinned_caches.count p := by
  obtain ⟨w1, hw1⟩ := xact_end_loop_returns w.pinned_caches w
  have hc := xact_end_loop_caches false w.pinned_caches w w1 hw1 p
  obtain ⟨_, hcount⟩ := xact_end_loop_pinned false w.pinned_caches w w1 hw1
  have hcp : w1.caches p = w.caches p := by
    rw [hc, hkeep]
    simp
  refine ⟨w1, ?_, hcp, by rw [hcp], ?_⟩
  · rw [cache_xact_end_default false w event hevent]
    exact hw1
  · rw [hcount p, hkeep]
    simp

/-- C10, amended, at a concrete input: `XACT_EVENT_COMMIT` with one record left
for cache 1, which is kept across commits. -/
theorem C10_commit_keeps_unflagged_caches_witness :
    (XactEvent.XACT_EVENT_COMMIT ≠ XactEvent.XACT_EVENT_ABORT ∧
      XactEvent.XACT_EVENT_COMMIT ≠ XactEvent.XACT_EVENT_PARALLEL_ABORT) ∧
    (pinned_backend.caches 1).release_on_commit = false ∧
    ∃ w1, cache_xact_end false pinned_backend XactEvent.XACT_EVENT_COMMIT = .ok w1 ∧
      w1.caches 1 = pinned_backend.caches 1 ∧
      (w1.caches 1).refcount = (pinned_backend.caches 1).refcount ∧
      w1.pinned_caches.count 1 = pinned_backend.pinned_caches.count 1 :=
  ⟨by decide, rfl,
    C10_commit_keeps_unflagged_caches pinned_backend XactEvent.XACT_EVENT_COMMIT 1 (by decide) rfl⟩


/-! ## C8: the reference count over arbitrary call sequences -/

/-- Whenever `cache_release` returns, in either build, its result is the
decrement-and-destroy pair with the first matching cell unlinked. -/
theorem cache_release_eq_ok (asserts : Bool) (w v : Backend κ ε) (cache : CachePtr) (r : Int)
    (h : cache_release asserts w cache = .ok (v, r)) :
    v = { decr_and_destroy w cache with pinned_caches := w.pinned_caches.erase cache } ∧
    (asserts = false ∨ 0 < (w.caches cache).refcount) := by
  have hg : asserts = false ∨ 0 < (w.caches cache).refcount := by
    cases asserts with
    | false => exact Or.inl rfl
    | true =>
      right
      by_cases hp : 0 < (w.caches cache).refcount
      · exact hp
      · simp [cache_release, hp] at h
  rw [cache_release_ok asserts w cache hg] at h
  simp only [Except.ok.injEq, Prod.mk.injEq] at h
  exact ⟨h.1.symm, hg⟩

theorem relase_all_pinned_caches_inv (base : Nat) (cache : CachePtr) (w : Backend κ ε)
    (hinv : RefcountInv base cache w)
    (hcount : (w.pinned_caches.count cache : Int) ≤ (w.caches cache).refcount) :
    RefcountInv base cache (relase_all_pinned_caches w) :=
  RefcountInv_congr base cache _ _ rfl rfl
    (foldl_decr_and_destroy_inv base cache w.pinned_caches w hinv hcount)

/-- One call that returns and respects the reference count of `cache` keeps the
invariant. -/
theorem cache_op_inv (asserts : Bool) (base : Nat) (cache : CachePtr) (w v : Backend κ ε)
    (op : CacheOp) (hinv : RefcountInv base cache w)
    (hord : op_in_order w cache op = true) (hstep : cache_op asserts w op = .ok v) :
    RefcountInv base cache v := by
  simp only [op_in_order, Bool.and_eq_true, Bool.or_eq_true, decide_eq_true_eq] at hord
  obtain ⟨hdec, hpin⟩ := hord
  cases op with
  | pin c =>
    simp only [cache_op, Except.ok.injEq] at hstep
    subst hstep
    by_cases hc : c = cache
    · subst hc
      have hrange : 0 < (w.caches c).refcount ∧ (w.caches c).refcount < INT_MAX := by
        rcases hpin with h | h
        · exact absurd rfl h
        · exact h
      obtain ⟨hpos, hmax⟩ := hrange
      unfold INT_MAX at hmax
      obtain ⟨h0, ht⟩ := hinv
      have hne : ¬ (w.caches c).refcount = 0 := by omega
      rw [if_neg hne] at ht
      have hrc : ((cache_pin w c).1.caches c).refcount = (w.caches c).refcount + 1 :=
        cache_pin_refcount w c (by omega) hmax
      have hne1 : ¬ (w.caches c).refcount + 1 = 0 := by omega
      refine ⟨by rw [hrc]; omega, ?_⟩
      rw [hrc, if_neg hne1]
      simp only [Backend.teardowns, cache_pin_log] at ht ⊢
      exact ht
    · have hc2 : cache ≠ c := fun e => hc e.symm
      refine RefcountInv_congr base cache w _ ?_ (cache_pin_log w c) hinv
      rw [cache_pin_caches, if_neg hc2]
  | release c =>
    simp only [cache_op] at hstep
    cases hrel : cache_release asserts w c with
    | error e => rw [hrel] at hstep; simp [Except.map] at hstep
    | ok r =>
      obtain ⟨v1, r1⟩ := r
      rw [hrel] at hstep
      simp only [Except.map, Except.ok.injEq] at hstep
      subst hstep
      obtain ⟨hv, _⟩ := cache_release_eq_ok asserts w v1 c r1 hrel
      have hvc : v1.caches cache = (decr_and_destroy w c).caches cache := by rw [hv]
      have hvl : v1.teardown_log = (decr_and_destroy w c).teardown_log := by rw [hv]
      refine RefcountInv_congr base cache _ v1 hvc hvl (decr_and_destroy_inv base cache c w hinv ?_)
      intro e
      simp only [op_decrements, e, if_true] at hdec
      push_cast at hdec
      omega
  | invalidate oc =>
    simp only [cache_op, Except.ok.injEq] at hstep
    subst hstep
    cases oc with
    | none => exact hinv
    | some c =>
      refine decr_and_destroy_inv base cache c w hinv ?_
      intro e
      simp only [op_decrements, e, if_true] at hdec
      push_cast at hdec
      omega
  | xact_end event =>
    simp only [cache_op] at hstep
    by_cases habort : event = XactEvent.XACT_EVENT_ABORT ∨
        event = XactEvent.XACT_EVENT_PARALLEL_ABORT
    · rw [cache_xact_end_abort asserts w event habort] at hstep
      simp only [Except.ok.injEq] at hstep
      subst hstep
      apply relase_all_pinned_caches_inv base cache w hinv
      rcases habort with h | h <;> subst h <;> exact hdec
    · have hevent : event ≠ XactEvent.XACT_EVENT_ABORT ∧
          event ≠ XactEvent.XACT_EVENT_PARALLEL_ABORT :=
        ⟨fun e => habort (Or.inl e), fun e => habort (Or.inr e)⟩
      rw [cache_xact_end_default asserts w event hevent] at hstep
      apply xact_end_loop_inv asserts base cache w.pinned_caches w v hstep hinv
      have hd : op_decrements w cache (CacheOp.xact_end event) =
          if (w.caches cache).release_on_commit then w.pinned_caches.count cache else 0 := by
        cases event <;> first | rfl | exact absurd rfl hevent.1 | exact absurd rfl hevent.2
      rw [hd] at hdec
      split at hdec <;> simp_all
  | subxact event =>
    simp only [cache_op, cache_subxact_abort] at hstep
    split at hstep
    · exact absurd hstep (by simp)
    · simp only [Except.ok.injEq] at hstep
      subst hstep
      exact relase_all_pinned_caches_inv base cache w hinv hdec

theorem cache_ops_in_order_append (asserts : Bool) (cache : CachePtr)
    (pre post : List CacheOp) :
    ∀ w : Backend κ ε, cache_ops_in_order asserts cache w (pre ++ post) = true →
      cache_ops_in_order asserts cache w pre = true := by
  induction pre with
  | nil => intro w _; rfl
  | cons op pre ih =>
    intro w h
    simp only [List.cons_append, cache_ops_in_order, Bool.and_eq_true] at h ⊢
    refine ⟨h.1, ?_⟩
    have h2 := h.2
    cases hstep : cache_op asserts w op with
    | error e => rw [hstep] at h2; exact absurd h2 (by simp)
    | ok w1 =>
      rw [hstep] at h2
      exact ih w1 h2

theorem run_cache_ops_in_order (asserts : Bool) (base : Nat) (cache : CachePtr)
    (ops : List CacheOp) :
    ∀ w : Backend κ ε, RefcountInv base cache w →
      cache_ops_in_order asserts cache w ops = true →
      ∃ w1, run_cache_ops asserts w ops = .ok w1 ∧ RefcountInv base cache w1 := by
  induction ops with
  | nil => intro w hinv _; exact ⟨w, rfl, hinv⟩
  | cons op ops ih =>
    intro w hinv hord
    simp only [cache_ops_in_order, Bool.and_eq_true] at hord
    obtain ⟨hop, hrest⟩ := hord
    cases hstep : cache_op asserts w op with
    | error e => rw [hstep] at hrest; exact absurd hrest (by simp)
    | ok v =>
      rw [hstep] at hrest
      obtain ⟨w1, hrun, hinv1⟩ := ih v (cache_op_inv asserts base cache w v op hinv hop hstep) hrest
      refine ⟨w1, ?_, hinv1⟩
      simp only [run_cache_ops, List.foldlM_cons, hstep] at hrun ⊢
      exact hrun

/-- C8 as stated fails, also in an assert-enabled build: after `cache_init`,
a pin and two invalidations bring `refcount` to 0 with a PinRecord left, and the
abort callback then decrements to -1 and performs the teardown a second time;
two invalidations alone do the same. The teardown at `refcount = -1` is
performed by `cache_destroy`, which only returns early while `refcount > 0`. -/
theorem C8_refcount_goes_negative :
    cache_init blank_backend 0 = .ok (fresh_backend 0) ∧
    (∃ w1, run_cache_ops true (fresh_backend 0)
        [CacheOp.pin 0, CacheOp.invalidate (some 0), CacheOp.invalidate (some 0),
         CacheOp.xact_end XactEvent.XACT_EVENT_ABORT] = .ok w1 ∧
      (w1.caches 0).refcount = -1 ∧ w1.teardowns 0 = 2) ∧
    (∃ w2, run_cache_ops true (fresh_backend 0)
        [CacheOp.invalidate (some 0), CacheOp.invalidate (some 0)] = .ok w2 ∧
      (w2.caches 0).refcount = -1 ∧ w2.teardowns 0 = 2) ∧
    (∃ w3, run_cache_ops true (fresh_backend 0) [CacheOp.invalidate (some 0)] = .ok w3 ∧
      (w3.caches 0).refcount = 0 ∧
      ((decr_refcount w3 0).caches 0).refcount = -1 ∧
      (cache_destroy (decr_refcount w3 0) 0).teardowns 0 = (decr_refcount w3 0).teardowns 0 + 1) :=
  ⟨rfl, ⟨_, rfl, by decide, by decide⟩, ⟨_, rfl, by decide, by decide⟩,
    ⟨_, rfl, by decide, by decide, by decide⟩⟩

/-- C8, amended: `cache_destroy` performs the teardown exactly when
`refcount <= 0` and changes nothing when `refcount > 0`; and after every prefix
of a call sequence that starts at `cache_init`, in which every call returns, no
call decrements the cache's `refcount` more often than its value and
`cache_pin` is applied to the cache only while `0 < refcount < INT_MAX` (so
that its increment of the 4-byte `refcount` does not wrap), the `refcount`
is `>= 0` and the teardown has been performed once if `refcount` is 0 and not
at all otherwise, so only at `refcount == 0`. -/
theorem C8_refcount_nonneg_in_order (asserts : Bool) (w0 w : Backend κ ε) (cache : CachePtr)
    (pre post : List CacheOp)
    (hinit : cache_init w0 cache = .ok w)
    (hord : cache_ops_in_order asserts cache w (pre ++ post) = true) :
    (∀ (v : Backend κ ε) (c : CachePtr),
      (cache_destroy v c).teardowns c =
        v.teardowns c + (if (v.caches c).refcount ≤ 0 then 1 else 0) ∧
      (cache_destroy v c = v ↔ 0 < (v.caches c).refcount)) ∧
    ∃ w1, run_cache_ops asserts w pre = .ok w1 ∧
      0 ≤ (w1.caches cache).refcount ∧
      w1.teardowns cache =
        w.teardowns cache + (if (w1.caches cache).refcount = 0 then 1 else 0) := by
  constructor
  · intro v c
    refine ⟨?_, ?_⟩
    · rw [cache_destroy_teardowns]
      simp
    · constructor
      · intro h
        by_contra hn
        have h1 := cache_destroy_teardowns v c c
        rw [h] at h1
        have : (v.caches c).refcount ≤ 0 := by omega
        simp [this] at h1
      · intro h
        simp [cache_destroy, h]
  · obtain ⟨_, hw⟩ := cache_init_fields w0 w cache hinit
    have hrc : (w.caches cache).refcount = 1 := by rw [hw]; simp
    have hinv : RefcountInv (w.teardowns cache) cache w := by
      refine ⟨by rw [hrc]; decide, ?_⟩
      rw [hrc]
      simp
    obtain ⟨w1, hrun, h0, ht⟩ := run_cache_ops_in_order asserts (w.teardowns cache) cache pre w hinv
      (cache_ops_in_order_append asserts cache pre post w hord)
    exact ⟨w1, hrun, h0, ht⟩

/-- C8, amended, at a concrete input, in an assert-enabled build: two pins, an
invalidation by the owner, a release, and an abort that unwinds the pin that is
left, which brings `refcount` to 0. -/
theorem C8_refcount_nonneg_in_order_witness :
    cache_init blank_backend 0 = .ok (fresh_backend 0) ∧
    cache_ops_in_order true 0 (fresh_backend 0)
      ([CacheOp.pin 0, CacheOp.pin 0, CacheOp.invalidate (some 0), CacheOp.release 0,
        CacheOp.xact_end XactEvent.XACT_EVENT_ABORT] ++ []) = true ∧
    ((∀ (v : Backend Nat Nat) (c : CachePtr),
      (cache_destroy v c).teardowns c =
        v.teardowns c + (if (v.caches c).refcount ≤ 0 then 1 else 0) ∧
      (cache_destroy v c = v ↔ 0 < (v.caches c).refcount)) ∧
    ∃ w1, run_cache_ops true (fresh_backend 0)
        [CacheOp.pin 0, CacheOp.pin 0, CacheOp.invalidate (some 0), CacheOp.release 0,
         CacheOp.xact_end XactEvent.XACT_EVENT_ABORT] = .ok w1 ∧
      0 ≤ (w1.caches 0).refcount ∧
      w1.teardowns 0 =
        (fresh_backend 0).teardowns 0 + (if (w1.caches 0).refcount = 0 then 1 else 0)) :=
  ⟨rfl, by decide,
    C8_refcount_nonneg_in_order true blank_backend (fresh_backend 0) 0
      [CacheOp.pin 0, CacheOp.pin 0, CacheOp.invalidate (some 0), CacheOp.release 0,
       CacheOp.xact_end XactEvent.XACT_EVENT_ABORT] [] rfl (by decide)⟩


/-! ## C11: the sub-transaction callback -/

@[simp] theorem run_pure {ω α : Type} (a : α) (s : PUState) :
    (pure a : Cmd ω α).run s = ⟨.ok a, s, []⟩ := rfl

@[simp] theorem run_Cmd_pure {ω α : Type} (a : α) (s : PUState) :
    (Cmd.pure a : Cmd ω α).run s = ⟨.ok a, s, []⟩ := rfl

theorem run_bind {ω α β : Type} (c : Cmd ω α) (f : α → Cmd ω β) (s : PUState) :
    (c >>= f).run s =
      match c.run s with
      | ⟨.error e, s1, out1⟩ => ⟨.error e, s1, out1⟩
      | ⟨.ok a, s1, out1⟩ =>
        match (f a).run s1 with
        | ⟨r, s2, out2⟩ => ⟨r, s2, out1 ++ out2⟩ := rfl

/-- Sequencing after code whose outcome is known to be a return. -/
theorem run_bind_ok {ω α β : Type} (c : Cmd ω α) (f : α → Cmd ω β) (s s1 : PUState) (a : α)
    (out1 : List ω) (h : c.run s = ⟨.ok a, s1, out1⟩) :
    (c >>= f).run s =
      ⟨((f a).run s1).result, ((f a).run s1).state, out1 ++ ((f a).run s1).emitted⟩ := by
  rw [run_bind, h]

/-- Sequencing after code whose outcome is known to be an error. -/
theorem run_bind_error {ω α β : Type} (c : Cmd ω α) (f : α → Cmd ω β) (s s1 : PUState)
    (e : PUError) (out1 : List ω) (h : c.run s = ⟨.error e, s1, out1⟩) :
    (c >>= f).run s = ⟨.error e, s1, out1⟩ := by
  rw [run_bind, h]

@[simp] theorem run_emit {ω : Type} (e : ω) (s : PUState) :
    (emit e).run s = ⟨.ok (), s, [e]⟩ := rfl

@[simp] theorem run_raise {ω α : Type} (code : ErrorCode) (site : ErrorSite) (s : PUState) :
    (raise code site : Cmd ω α).run s = ⟨.error ⟨code, site⟩, s, []⟩ := rfl

@[simp] theorem run_get_state {ω : Type} (s : PUState) :
    (get_state : Cmd ω PUState).run s = ⟨.ok s, s, []⟩ := rfl

@[simp] theorem run_set_state {ω : Type} (s1 s : PUState) :
    (set_state s1 : Cmd ω Unit).run s = ⟨.ok (), s1, []⟩ := rfl

theorem run_call (env : Env) (e : Effect) (s : PUState) :
    (call env e).run s =
      match env.raises e with
      | some code => ⟨.error ⟨code, ErrorSite.in_callee⟩, s, [e]⟩
      | none => ⟨.ok (), s, [e]⟩ := rfl

theorem run_call_ok (env : Env) (e : Effect) (s : PUState) (h : env.raises e = none) :
    (call env e).run s = ⟨.ok (), s, [e]⟩ := by
  rw [run_call, h]

theorem run_call_raises (env : Env) (e : Effect) (s : PUState) (code : ErrorCode)
    (h : env.raises e = some code) :
    (call env e).run s = ⟨.error ⟨code, ErrorSite.in_callee⟩, s, [e]⟩ := by
  rw [run_call, h]

theorem run_as_handler {α : Type} (c : Cmd Effect α) (s : PUState) :
    (as_handler c).run s =
      ⟨(c.run s).result, (c.run s).state, (c.run s).emitted.map HookEvent.handler⟩ := rfl

theorem run_prev_ProcessUtility (env : Env) (args : ProcessUtilityArgs) (s : PUState) :
    (prev_ProcessUtility env args).run s =
      ⟨(match env.default_raises args with
        | some code => .error ⟨code, ErrorSite.in_callee⟩
        | none => .ok ()),
       s,
       [if s.prev_ProcessUtility_hook then HookEvent.prev_ProcessUtility_hook args
        else HookEvent.standard_ProcessUtility args]⟩ := by
  simp only [prev_ProcessUtility]
  cases env.default_raises args <;> rfl

/-- Code that has returned after a sequencing: both parts returned, the second
started where the first ended, and the calls add up. -/
theorem run_bind_ok_inv {ω α β : Type} (c : Cmd ω α) (f : α → Cmd ω β) (s s2 : PUState)
    (b : β) (out : List ω) (h : (c >>= f).run s = ⟨.ok b, s2, out⟩) :
    ∃ a s1 out1 out2, c.run s = ⟨.ok a, s1, out1⟩ ∧ (f a).run s1 = ⟨.ok b, s2, out2⟩ ∧
      out = out1 ++ out2 := by
  rw [run_bind] at h
  rcases hc : c.run s with ⟨r, s1, out1⟩
  rw [hc] at h
  cases r with
  | error e => simp at h
  | ok a =>
    dsimp only at h
    simp only [Run.mk.injEq] at h
    obtain ⟨h1, h2, h3⟩ := h
    have h1' : ((f a).run s1).result = .ok b := h1
    have h2' : ((f a).run s1).state = s2 := h2
    refine ⟨a, s1, out1, ((f a).run s1).emitted, rfl, ?_, h3.symm⟩
    rw [← h1', ← h2']

theorem run_call_ok_inv (env : Env) (e : Effect) (s s1 : PUState) (u : Unit) (out : List Effect)
    (h : (call env e).run s = ⟨.ok u, s1, out⟩) :
    env.raises e = none ∧ s1 = s ∧ out = [e] := by
  rw [run_call] at h
  cases hr : env.raises e with
  | some code => rw [hr] at h; simp at h
  | none =>
    rw [hr] at h
    simp only [Run.mk.injEq] at h
    exact ⟨rfl, h.2.1.symm, h.2.2.symm⟩

/-- A loop that returned: when a body that returns leaves the state alone and
makes the calls `g x`, the loop has left the state alone, made the calls of all
elements in order, and every body has returned. -/
theorem for_each_ok_inv {β : Type} (body : β → Cmd Effect Unit) (g : β → List Effect)
    (hbody : ∀ x s u s1 out, (body x).run s = ⟨.ok u, s1, out⟩ → s1 = s ∧ out = g x) :
    ∀ (l : List β) (s : PUState) (u : Unit) (s1 : PUState) (out : List Effect),
      (for_each body l).run s = ⟨.ok u, s1, out⟩ →
      s1 = s ∧ out = l.flatMap g ∧ ∀ x ∈ l, (body x).run s = ⟨.ok (), s, g x⟩ := by
  intro l
  induction l with
  | nil =>
    intro s u s1 out h
    simp only [for_each, run_Cmd_pure, Run.mk.injEq] at h
    exact ⟨h.2.1.symm, by simp [h.2.2.symm], by simp⟩
  | cons x rest ih =>
    intro s u s1 out h
    have h2 : (body x >>= fun _ => for_each body rest).run s = ⟨.ok u, s1, out⟩ := h
    obtain ⟨a, sa, o1, o2, hx, hrest, hout⟩ := run_bind_ok_inv _ _ _ _ _ _ h2
    obtain ⟨hsa, ho1⟩ := hbody x s a sa o1 hx
    subst hsa
    obtain ⟨hs1, ho2, hall⟩ := ih sa u s1 o2 hrest
    refine ⟨hs1, ?_, ?_⟩
    · rw [hout, ho1, ho2]
      simp
    · intro y hy
      rcases List.mem_cons.mp hy with hy | hy
      · subst hy
        rw [hx, ho1]
      · exact hall y hy

/-- A loop over bodies that all return, leave the state alone and make the
calls `g x`. -/
theorem for_each_run_ok {β : Type} (body : β → Cmd Effect Unit) (g : β → List Effect)
    (s : PUState) :
    ∀ (l : List β), (∀ x ∈ l, (body x).run s = ⟨.ok (), s, g x⟩) →
      (for_each body l).run s = ⟨.ok (), s, l.flatMap g⟩ := by
  intro l
  induction l with
  | nil => intro _; rfl
  | cons x rest ih =>
    intro h
    have hx := h x (List.mem_cons_self x rest)
    have hrest := ih (fun y hy => h y (List.mem_cons_of_mem x hy))
    show (body x >>= fun _ => for_each body rest).run s = _
    rw [run_bind_ok _ _ s s () (g x) hx, hrest]
    simp

/-! ## C12 and C13: the hooks and the host's own execution -/

/-- C12: whenever `extension_is_loaded()` returns false (leaving the state `s1`
after the calls `out` of its state refresh), `timescaledb_ddl_command_start`
makes exactly one more call, the earlier hook if one is installed and
`standard_ProcessUtility` otherwise, with the arguments it was given, and its
outcome is the outcome of that call; and `timescaledb_ddl_command_end` returns
having made no call beyond `out` (when not called by the event trigger manager
it raises before the extension is asked).  No statement handler runs in either
hook, whatever the statement. -/
theorem C12_hooks_inactive (env : Env) (s s1 : PUState) (out : List Effect)
    (args : ProcessUtilityArgs) (trigdata : EventTriggerData)
    (hloaded : (extension_is_loaded env).run s = ⟨.ok false, s1, out⟩) :
    (timescaledb_ddl_command_start env args).run s =
      ⟨(match env.default_raises args with
        | some code => .error ⟨code, ErrorSite.in_callee⟩
        | none => .ok ()),
       s1,
       out.map HookEvent.handler ++
        [if s1.prev_ProcessUtility_hook then HookEvent.prev_ProcessUtility_hook args
         else HookEvent.standard_ProcessUtility args]⟩ ∧
    (timescaledb_ddl_command_end env trigdata).run s =
      (if trigdata.called_as_event_trigger then ⟨.ok (), s1, out⟩
       else ⟨.error ⟨ErrorCode.ERRCODE_INTERNAL_ERROR, ErrorSite.not_fired_by_event_trigger⟩,
              s, []⟩) := by
  constructor
  · unfold timescaledb_ddl_command_start
    rw [run_bind_ok _ _ s s1 false (out.map HookEvent.handler)
      (by rw [run_as_handler, hloaded])]
    simp [run_prev_ProcessUtility]
  · unfold timescaledb_ddl_command_end
    cases hc : trigdata.called_as_event_trigger with
    | false => simp [run_bind]
    | true =>
      simp only [Bool.not_true, Bool.false_eq_true, if_false, if_true]
      rw [run_bind_ok _ _ s s () [] (by simp)]
      rw [run_bind_ok _ _ s s1 false out hloaded]
      simp

/-- C12 at a concrete input: the extension is being restored (`guc_restoring`),
a `CLUSTER` of a logical table arrives. -/
theorem C12_hooks_inactive_witness :
    (extension_is_loaded { demo_env with guc_restoring := true }).run created_state =
      ⟨.ok false, created_state, []⟩ ∧
    ((timescaledb_ddl_command_start { demo_env with guc_restoring := true }
        ⟨Node.T_ClusterStmt ⟨some ⟨none, 10⟩, some 20, false⟩,
          ProcessUtilityContext.PROCESS_UTILITY_TOPLEVEL, false, 0⟩).run created_state =
      ⟨(match ({ demo_env with guc_restoring := true } : Env).default_raises
            ⟨Node.T_ClusterStmt ⟨some ⟨none, 10⟩, some 20, false⟩,
              ProcessUtilityContext.PROCESS_UTILITY_TOPLEVEL, false, 0⟩ with
        | some code => .error ⟨code, ErrorSite.in_callee⟩
        | none => .ok ()),
       created_state,
       ([] : List Effect).map HookEvent.handler ++
        [if created_state.prev_ProcessUtility_hook then HookEvent.prev_ProcessUtility_hook
            ⟨Node.T_ClusterStmt ⟨some ⟨none, 10⟩, some 20, false⟩,
              ProcessUtilityContext.PROCESS_UTILITY_TOPLEVEL, false, 0⟩
         else HookEvent.standard_ProcessUtility
            ⟨Node.T_ClusterStmt ⟨some ⟨none, 10⟩, some 20, false⟩,
              ProcessUtilityContext.PROCESS_UTILITY_TOPLEVEL, false, 0⟩]⟩ ∧
    (timescaledb_ddl_command_end { demo_env with guc_restoring := true }
        ⟨true, true, Node.T_IndexStmt ⟨⟨none, 10⟩, none, [100], false, false, false⟩⟩).run
        created_state =
      (if (⟨true, true, Node.T_IndexStmt ⟨⟨none, 10⟩, none, [100], false, false, false⟩⟩ :
            EventTriggerData).called_as_event_trigger then ⟨.ok (), created_state, []⟩
       else ⟨.error ⟨ErrorCode.ERRCODE_INTERNAL_ERROR, ErrorSite.not_fired_by_event_trigger⟩,
              created_state, []⟩)) :=
  ⟨rfl, C12_hooks_inactive _ _ _ _ _ _ rfl⟩

theorem filter_default_execution_handler (out : List Effect) :
    (out.map HookEvent.handler).filter HookEvent.is_default_execution = [] := by
  induction out with
  | nil => rfl
  | cons e out ih => simp [HookEvent.is_default_execution]

theorem is_default_execution_default_event (s : PUState) (args : ProcessUtilityArgs) :
    HookEvent.is_default_execution
      (if s.prev_ProcessUtility_hook then HookEvent.prev_ProcessUtility_hook args
       else HookEvent.standard_ProcessUtility args) = true := by
  cases s.prev_ProcessUtility_hook <;> rfl

/-- C13: with the extension active (`extension_is_loaded()` returns true) and a
pre-hook handler that returns `handled` without error after the calls `out2`,
the hook `timescaledb_ddl_command_start` makes the calls of the extension check
and of the handler and then, if `handled` is false, exactly one call of the
host's own execution (the earlier hook or `standard_ProcessUtility`, with the
arguments given), as its last call; if `handled` is true it makes no such call
and returns. -/
theorem C13_default_execution_unless_handled (env : Env) (s s1 s2 : PUState)
    (out out2 : List Effect) (args : ProcessUtilityArgs) (handled : Bool)
    (hloaded : (extension_is_loaded env).run s = ⟨.ok true, s1, out⟩)
    (hpre : (process_ddl_command_start env args.parsetree args.context args.completion_tag).run s1
      = ⟨.ok handled, s2, out2⟩) :
    (timescaledb_ddl_command_start env args).run s =
      (if handled then ⟨.ok (), s2, (out ++ out2).map HookEvent.handler⟩
       else
        ⟨(match env.default_raises args with
          | some code => .error ⟨code, ErrorSite.in_callee⟩
          | none => .ok ()),
         s2,
         (out ++ out2).map HookEvent.handler ++
          [if s2.prev_ProcessUtility_hook then HookEvent.prev_ProcessUtility_hook args
           else HookEvent.standard_ProcessUtility args]⟩) ∧
    (((timescaledb_ddl_command_start env args).run s).emitted.filter
        HookEvent.is_default_execution).length = (if handled then 0 else 1) := by
  have hrun : (timescaledb_ddl_command_start env args).run s =
      (if handled then ⟨.ok (), s2, (out ++ out2).map HookEvent.handler⟩
       else
        ⟨(match env.default_raises args with
          | some code => .error ⟨code, ErrorSite.in_callee⟩
          | none => .ok ()),
         s2,
         (out ++ out2).map HookEvent.handler ++
          [if s2.prev_ProcessUtility_hook then HookEvent.prev_ProcessUtility_hook args
           else HookEvent.standard_ProcessUtility args]⟩) := by
    unfold timescaledb_ddl_command_start
    rw [run_bind_ok _ _ s s1 true (out.map HookEvent.handler)
      (by rw [run_as_handler, hloaded])]
    simp only [Bool.not_true, Bool.false_eq_true, if_false]
    rw [run_bind_ok _ _ s1 s2 handled (out2.map HookEvent.handler)
      (by rw [run_as_handler, hpre])]
    cases handled <;> simp [run_prev_ProcessUtility]
  refine ⟨hrun, ?_⟩
  rw [hrun]
  cases handled with
  | true =>
    simp only [if_true]
    rw [filter_default_execution_handler]
    rfl
  | false =>
    simp only [Bool.false_eq_true, if_false]
    rw [List.filter_append, filter_default_execution_handler]
    simp [is_default_execution_default_event]

/-- C13 at a concrete input: `REINDEX TABLE` of a logical table with three
partitions is handled by the pre-hook. -/
theorem C13_default_execution_unless_handled_witness :
    (extension_is_loaded demo_env).run created_state = ⟨.ok true, created_state, []⟩ ∧
    (process_ddl_command_start demo_env (toplevel_args (Node.T_ReindexStmt demo_reindex_table)).parsetree
        (toplevel_args (Node.T_ReindexStmt demo_reindex_table)).context
        (toplevel_args (Node.T_ReindexStmt demo_reindex_table)).completion_tag).run created_state =
      ⟨.ok true, created_state,
        [Effect.hypertable_cache_pin, Effect.PreventCommandDuringRecovery,
         Effect.ReindexTable 3 11, Effect.ReindexTable 3 12, Effect.ReindexTable 3 13,
         Effect.cache_release]⟩ ∧
    ((timescaledb_ddl_command_start demo_env
        (toplevel_args (Node.T_ReindexStmt demo_reindex_table))).run created_state =
      (if true then ⟨.ok (), created_state,
          ([] ++ [Effect.hypertable_cache_pin, Effect.PreventCommandDuringRecovery,
            Effect.ReindexTable 3 11, Effect.ReindexTable 3 12, Effect.ReindexTable 3 13,
            Effect.cache_release]).map HookEvent.handler⟩
       else
        ⟨(match demo_env.default_raises (toplevel_args (Node.T_ReindexStmt demo_reindex_table)) with
          | some code => .error ⟨code, ErrorSite.in_callee⟩
          | none => .ok ()),
         created_state,
         ([] ++ [Effect.hypertable_cache_pin, Effect.PreventCommandDuringRecovery,
            Effect.ReindexTable 3 11, Effect.ReindexTable 3 12, Effect.ReindexTable 3 13,
            Effect.cache_release]).map HookEvent.handler ++
          [if created_state.prev_ProcessUtility_hook then
              HookEvent.prev_ProcessUtility_hook
                (toplevel_args (Node.T_ReindexStmt demo_reindex_table))
           else HookEvent.standard_ProcessUtility
                (toplevel_args (Node.T_ReindexStmt demo_reindex_table))]⟩) ∧
    (((timescaledb_ddl_command_start demo_env
        (toplevel_args (Node.T_ReindexStmt demo_reindex_table))).run created_state).emitted.filter
        HookEvent.is_default_execution).length = (if true then 0 else 1)) :=
  ⟨rfl, rfl,
    C13_default_execution_unless_handled demo_env created_state created_state created_state
      [] _ (toplevel_args (Node.T_ReindexStmt demo_reindex_table)) true rfl rfl⟩

/-! ## Fan-out over the partitions of a logical table -/

theorem run_emit_ok_inv {ω : Type} (e : ω) (s s1 : PUState) (u : Unit) (out : List ω)
    (h : (emit e).run s = ⟨.ok u, s1, out⟩) : s1 = s ∧ out = [e] := by
  simp only [run_emit, Run.mk.injEq] at h
  exact ⟨h.2.1.symm, h.2.2.symm⟩

theorem run_pure_ok_inv {ω α : Type} (a b : α) (s s1 : PUState) (out : List ω)
    (h : (pure a : Cmd ω α).run s = ⟨.ok b, s1, out⟩) : b = a ∧ s1 = s ∧ out = [] := by
  simp only [run_pure, Run.mk.injEq, Except.ok.injEq] at h
  exact ⟨h.1.symm, h.2.1.symm, h.2.2.symm⟩

/-- A per-partition step "look the partition up, then make one call" that has
returned: the partition exists, the state is as before, and the call made is
the one for that partition. -/
theorem chunk_call_ok_inv (env : Env) (f : Chunk → Effect) (x : Oid) (s s1 : PUState)
    (u : Unit) (out : List Effect)
    (h : (chunk_get_by_relid_or_raise env x >>= fun chunk => call env (f chunk)).run s
      = ⟨.ok u, s1, out⟩) :
    s1 = s ∧ out = ((env.chunk_of x).map f).toList := by
  obtain ⟨c, sa, o1, o2, hlook, hcall, hout⟩ := run_bind_ok_inv _ _ _ _ _ _ h
  unfold chunk_get_by_relid_or_raise at hlook
  cases hc : env.chunk_of x with
  | none => rw [hc] at hlook; simp at hlook
  | some chunk =>
    rw [hc] at hlook
    obtain ⟨hcc, hsa, ho1⟩ := run_pure_ok_inv _ _ _ _ _ hlook
    subst hcc hsa ho1
    obtain ⟨_, hs1, ho2⟩ := run_call_ok_inv env _ _ _ _ _ hcall
    subst hs1 ho2
    exact ⟨rfl, by simp [hout]⟩

theorem flatMap_lookup_toList (lookup : Oid → Option Chunk) (f : Chunk → Effect) :
    ∀ l : List Oid, l.flatMap (fun x => ((lookup x).map f).toList) = (l.filterMap lookup).map f := by
  intro l
  induction l with
  | nil => rfl
  | cons x rest ih =>
    rw [List.flatMap_cons, ih]
    cases hx : lookup x <;> simp [List.filterMap_cons, hx]

theorem filterMap_length_of_all_some (lookup : Oid → Option Chunk) :
    ∀ l : List Oid, (∀ x ∈ l, (lookup x).isSome = true) →
      (l.filterMap lookup).length = l.length := by
  intro l
  induction l with
  | nil => intro _; rfl
  | cons x rest ih =>
    intro h
    have hx := h x (List.mem_cons_self x rest)
    cases hl : lookup x with
    | none => rw [hl] at hx; simp at hx
    | some c =>
      simp only [List.filterMap_cons, hl, List.length_cons]
      rw [ih (fun y hy => h y (List.mem_cons_of_mem x hy))]

/-- A `foreach_chunk` over steps "look the partition up, then make one call"
that has returned: it returned the number of partitions, left the state alone,
and made exactly one call per partition, in the order of
`find_inheritance_children`. -/
theorem foreach_chunk_call_ok_inv (env : Env) (ht : Hypertable) (f : Chunk → Effect)
    (process_chunk : Hypertable → Oid → Cmd Effect Unit)
    (hshape : ∀ x, process_chunk ht x =
      (chunk_get_by_relid_or_raise env x >>= fun chunk => call env (f chunk)))
    (s s1 : PUState) (n : Int) (out : List Effect)
    (h : (foreach_chunk env (some ht) process_chunk).run s = ⟨.ok n, s1, out⟩) :
    s1 = s ∧ n = ((env.find_inheritance_children ht.main_table_relid).length : Int) ∧
    out = ((env.find_inheritance_children ht.main_table_relid).filterMap env.chunk_of).map f ∧
    ((env.find_inheritance_children ht.main_table_relid).filterMap env.chunk_of).length =
      (env.find_inheritance_children ht.main_table_relid).length := by
  unfold foreach_chunk at h
  obtain ⟨u, sa, o1, o2, hloop, hret, hout⟩ := run_bind_ok_inv _ _ _ _ _ _ h
  obtain ⟨hn, hs1, ho2⟩ := run_pure_ok_inv _ _ _ _ _ hret
  have hbody : ∀ x s u s1 out, (process_chunk ht x).run s = ⟨.ok u, s1, out⟩ →
      s1 = s ∧ out = ((env.chunk_of x).map f).toList := by
    intro x s u s1 out hx
    rw [hshape x] at hx
    exact chunk_call_ok_inv env f x s s1 u out hx
  obtain ⟨hsa, ho1, hall⟩ := for_each_ok_inv (process_chunk ht) _ hbody _ _ _ _ _ hloop
  subst hsa hs1 ho2 hn
  refine ⟨rfl, rfl, ?_, ?_⟩
  · rw [hout, ho1, flatMap_lookup_toList]
    simp
  · apply filterMap_length_of_all_some
    intro x hx
    have hxrun := hall x hx
    rw [hshape x] at hxrun
    cases hc : env.chunk_of x with
    | some c => rfl
    | none =>
      have hb := run_bind_ok_inv _ _ _ _ _ _ hxrun
      obtain ⟨c, sa, o1, o2, hlook, _, _⟩ := hb
      unfold chunk_get_by_relid_or_raise at hlook
      rw [hc] at hlook
      simp at hlook

theorem hypertable_relid_run (env : Env) (rv : RangeVar) (s : PUState) :
    (hypertable_relid env rv).run s =
      ⟨.ok (match hypertable_cache_get_entry_rv env rv with
            | some ht => ht.main_table_relid
            | none => InvalidOid),
       s, [Effect.hypertable_cache_pin, Effect.cache_release]⟩ := by
  unfold hypertable_relid
  cases hypertable_cache_get_entry_rv env rv <;> rfl

theorem foreach_chunk_relid_ok_inv (env : Env) (relid : Oid) (ht : Hypertable)
    (f : Chunk → Effect) (process_chunk : Hypertable → Oid → Cmd Effect Unit)
    (hshape : ∀ x, process_chunk ht x =
      (chunk_get_by_relid_or_raise env x >>= fun chunk => call env (f chunk)))
    (hht : hypertable_cache_get_entry env relid = some ht)
    (s s1 : PUState) (n : Int) (out : List Effect)
    (h : (foreach_chunk_relid env relid process_chunk).run s = ⟨.ok n, s1, out⟩) :
    s1 = s ∧ n = ((env.find_inheritance_children ht.main_table_relid).length : Int) ∧
    out = [Effect.hypertable_cache_pin] ++
      ((env.find_inheritance_children ht.main_table_relid).filterMap env.chunk_of).map f ++
      [Effect.cache_release] ∧
    ((env.find_inheritance_children ht.main_table_relid).filterMap env.chunk_of).length =
      (env.find_inheritance_children ht.main_table_relid).length := by
  unfold foreach_chunk_relid at h
  simp only [hht] at h
  obtain ⟨u, sa, o1, o2, hpin, hrest, hout⟩ := run_bind_ok_inv _ _ _ _ _ _ h
  obtain ⟨hsa, ho1⟩ := run_emit_ok_inv _ _ _ _ _ hpin
  subst hsa ho1
  obtain ⟨m, sb, o3, o4, hloop, hrest2, hout2⟩ := run_bind_ok_inv _ _ _ _ _ _ hrest
  obtain ⟨hsb, hm, ho3, hlen⟩ := foreach_chunk_call_ok_inv env ht f process_chunk hshape _ _ _ _ hloop
  subst hsb
  obtain ⟨u2, sc, o5, o6, hrel, hret, hout3⟩ := run_bind_ok_inv _ _ _ _ _ _ hrest2
  obtain ⟨hsc, ho5⟩ := run_emit_ok_inv _ _ _ _ _ hrel
  subst hsc ho5
  obtain ⟨hn, hs1, ho6⟩ := run_pure_ok_inv _ _ _ _ _ hret
  subst hs1 ho6 hn
  refine ⟨rfl, hm, ?_, hlen⟩
  rw [hout, hout2, hout3, ho3]
  simp

/-- Code that has returned after a sequencing whose first part has a known
outcome. -/
theorem run_bind_ok_inv_known {ω α β : Type} (c : Cmd ω α) (f : α → Cmd ω β)
    (s sa s2 : PUState) (a : α) (b : β) (o1 out : List ω)
    (hc : c.run s = ⟨.ok a, sa, o1⟩)
    (h : (c >>= f).run s = ⟨.ok b, s2, out⟩) :
    ∃ o2, (f a).run sa = ⟨.ok b, s2, o2⟩ ∧ out = o1 ++ o2 := by
  obtain ⟨a', sa', o1', o2, hc', hf, hout⟩ := run_bind_ok_inv _ _ _ _ _ _ h
  rw [hc] at hc'
  simp only [Run.mk.injEq, Except.ok.injEq] at hc'
  obtain ⟨ha, hs, ho⟩ := hc'
  subst ha hs ho
  exact ⟨o2, hf, hout⟩

/-- A `VACUUM`/`ANALYZE` of a logical table that has returned from
`process_vacuum`. -/
theorem process_vacuum_ok_inv (env : Env) (stmt : VacuumStmt) (context : ProcessUtilityContext)
    (rv : RangeVar) (ht : Hypertable) (s s1 : PUState) (handled : Bool) (out : List Effect)
    (hrel : stmt.relation = some rv)
    (hht : hypertable_cache_get_entry_rv env rv = some ht)
    (hvalid : OidIsValid ht.main_table_relid = true)
    (h : (process_vacuum env stmt context).run s = ⟨.ok handled, s1, out⟩) :
    handled = true ∧ s1 = s ∧
    out = [Effect.hypertable_cache_pin, Effect.cache_release,
        Effect.PreventCommandDuringRecovery, Effect.hypertable_cache_pin] ++
      ((env.find_inheritance_children ht.main_table_relid).filterMap env.chunk_of).map
        (fun chunk => Effect.ExecVacuum chunk.schema_name chunk.table_name
          (decide (context = ProcessUtilityContext.PROCESS_UTILITY_TOPLEVEL))) ++
      [Effect.cache_release] ∧
    ((env.find_inheritance_children ht.main_table_relid).filterMap env.chunk_of).length =
      (env.find_inheritance_children ht.main_table_relid).length := by
  unfold process_vacuum at h
  simp only [hrel] at h
  obtain ⟨o2, h2, hout⟩ := run_bind_ok_inv_known _ _ _ _ _ _ _ _ _ (hypertable_relid_run env rv s) h
  simp only [hht, hvalid, Bool.not_true, Bool.false_eq_true, if_false] at h2
  obtain ⟨u, sa, o3, o4, hcall, hrest, hout2⟩ := run_bind_ok_inv _ _ _ _ _ _ h2
  obtain ⟨_, hsa, ho3⟩ := run_call_ok_inv env _ _ _ _ _ hcall
  subst hsa ho3
  obtain ⟨n, sb, o5, o6, hloop, hret, hout3⟩ := run_bind_ok_inv _ _ _ _ _ _ hrest
  obtain ⟨hsb, hn, ho5, hlen⟩ := foreach_chunk_relid_ok_inv env (env.RangeVarGetRelid rv) ht
    (fun chunk => Effect.ExecVacuum chunk.schema_name chunk.table_name
      (decide (context = ProcessUtilityContext.PROCESS_UTILITY_TOPLEVEL)))
    _ (fun x => rfl) hht _ _ _ _ hloop
  subst hsb
  obtain ⟨hh, hs1, ho6⟩ := run_pure_ok_inv _ _ _ _ _ hret
  subst hs1 ho6
  refine ⟨?_, rfl, ?_, hlen⟩
  · rw [hh, hn]
    simp
  · rw [hout, hout2, hout3, ho5]
    simp

/-! ## Errors that can only come from external calls -/

theorem raisesOnlyInCallee_pure {α : Type} (a : α) :
    RaisesOnlyInCallee (pure a : Cmd Effect α) := by
  intro s e s1 out h
  simp at h

theorem raisesOnlyInCallee_call (env : Env) (eff : Effect) :
    RaisesOnlyInCallee (call env eff) := by
  intro s e s1 out h
  rw [run_call] at h
  cases hr : env.raises eff with
  | none => rw [hr] at h; simp at h
  | some code =>
    rw [hr] at h
    simp only [Run.mk.injEq, Except.error.injEq] at h
    rw [← h.1]

theorem raisesOnlyInCallee_bind {α β : Type} (c : Cmd Effect α) (f : α → Cmd Effect β)
    (hc : RaisesOnlyInCallee c) (hf : ∀ a, RaisesOnlyInCallee (f a)) :
    RaisesOnlyInCallee (c >>= f) := by
  intro s e s1 out h
  rw [run_bind] at h
  rcases hcr : c.run s with ⟨r, sa, o1⟩
  rw [hcr] at h
  cases r with
  | error e1 =>
    simp only [Run.mk.injEq, Except.error.injEq] at h
    rw [← h.1]
    exact hc s e1 sa o1 hcr
  | ok a =>
    dsimp only at h
    simp only [Run.mk.injEq] at h
    have h1 : ((f a).run sa).result = .error e := h.1
    rcases hfr : (f a).run sa with ⟨r2, sb, o2⟩
    rw [hfr] at h1
    simp only at h1
    subst h1
    exact hf a sa e sb o2 hfr

theorem raisesOnlyInCallee_for_each {β : Type} (body : β → Cmd Effect Unit)
    (hbody : ∀ x, RaisesOnlyInCallee (body x)) :
    ∀ l : List β, RaisesOnlyInCallee (for_each body l) := by
  intro l
  induction l with
  | nil => exact raisesOnlyInCallee_pure ()
  | cons x rest ih =>
    exact raisesOnlyInCallee_bind (body x) (fun _ => for_each body rest) (hbody x) (fun _ => ih)

theorem raisesOnlyInCallee_chunk_get (env : Env) (x : Oid) :
    RaisesOnlyInCallee (chunk_get_by_relid_or_raise env x) := by
  intro s e s1 out h
  unfold chunk_get_by_relid_or_raise at h
  cases hc : env.chunk_of x with
  | some c => rw [hc] at h; simp at h
  | none =>
    rw [hc] at h
    simp only [run_raise, Run.mk.injEq, Except.error.injEq] at h
    rw [← h.1]

theorem raisesOnlyInCallee_foreach_chunk (env : Env) (ht : Hypertable)
    (process_chunk : Hypertable → Oid → Cmd Effect Unit)
    (hbody : ∀ x, RaisesOnlyInCallee (process_chunk ht x)) :
    RaisesOnlyInCallee (foreach_chunk env (some ht) process_chunk) := by
  unfold foreach_chunk
  exact raisesOnlyInCallee_bind _ _ (raisesOnlyInCallee_for_each _ hbody _)
    (fun _ => raisesOnlyInCallee_pure _)

theorem raisesOnlyInCallee_reindex_chunk (env : Env) (stmt : ReindexStmt) (ht : Hypertable)
    (x : Oid) : RaisesOnlyInCallee (reindex_chunk env stmt ht x) := by
  unfold reindex_chunk
  apply raisesOnlyInCallee_bind _ _ (raisesOnlyInCallee_chunk_get env x)
  intro chunk
  cases stmt.kind
  · exact raisesOnlyInCallee_pure ()
  · exact raisesOnlyInCallee_call env _
  · exact raisesOnlyInCallee_pure ()
  · exact raisesOnlyInCallee_pure ()
  · exact raisesOnlyInCallee_pure ()

/-! ## C15: `process_reindex` -/

/-- The fan-out of `REINDEX TABLE` on a logical table: what `process_reindex`
runs between its pin and its release. -/
theorem reindex_table_fan_out_cases (env : Env) (stmt : ReindexStmt) (ht : Hypertable)
    (s : PUState) :
    (∃ s1 out, (call env Effect.PreventCommandDuringRecovery >>= fun _ =>
        foreach_chunk env (some ht) (reindex_chunk env stmt) >>= fun n =>
          (pure (decide (n ≥ 0)) : Cmd Effect Bool)).run s = ⟨.ok true, s1, out⟩) ∨
    (∃ code s1 out, (call env Effect.PreventCommandDuringRecovery >>= fun _ =>
        foreach_chunk env (some ht) (reindex_chunk env stmt) >>= fun n =>
          (pure (decide (n ≥ 0)) : Cmd Effect Bool)).run s
        = ⟨.error ⟨code, ErrorSite.in_callee⟩, s1, out⟩) := by
  rcases hr : (call env Effect.PreventCommandDuringRecovery >>= fun _ =>
        foreach_chunk env (some ht) (reindex_chunk env stmt) >>= fun n =>
          (pure (decide (n ≥ 0)) : Cmd Effect Bool)).run s with ⟨r, s1, out⟩
  cases r with
  | error e =>
    right
    have hsite : e.site = ErrorSite.in_callee := by
      refine raisesOnlyInCallee_bind _ _ (raisesOnlyInCallee_call env _) (fun _ => ?_) s e s1 out hr
      exact raisesOnlyInCallee_bind _ _
        (raisesOnlyInCallee_foreach_chunk env ht _ (raisesOnlyInCallee_reindex_chunk env stmt ht))
        (fun _ => raisesOnlyInCallee_pure _)
    refine ⟨e.code, s1, out, ?_⟩
    cases e with
    | mk code site =>
      simp only at hsite
      subst hsite
      rfl
  | ok handled =>
    left
    obtain ⟨u, sa, o1, o2, _, hrest, _⟩ := run_bind_ok_inv _ _ _ _ _ _ hr
    obtain ⟨n, sb, o3, o4, hloop, hret, _⟩ := run_bind_ok_inv _ _ _ _ _ _ hrest
    obtain ⟨hh, _, _⟩ := run_pure_ok_inv _ _ _ _ _ hret
    unfold foreach_chunk at hloop
    obtain ⟨u2, sc, o5, o6, _, hlen, _⟩ := run_bind_ok_inv _ _ _ _ _ _ hloop
    obtain ⟨hn, _, _⟩ := run_pure_ok_inv _ _ _ _ _ hlen
    refine ⟨s1, out, ?_⟩
    have : handled = true := by
      rw [hh, hn]
      simp
    rw [this]

/-- The outcome of `process_reindex` in terms of its `switch`: nothing is done
for a missing or unresolvable relation; otherwise the registry is pinned, the
switch runs, and the pin is released if the switch returned. -/
theorem process_reindex_run (env : Env) (stmt : ReindexStmt) (s : PUState) :
    (process_reindex env stmt).run s =
      match stmt.relation with
      | none => ⟨.ok false, s, []⟩
      | some rv =>
        if OidIsValid (env.RangeVarGetRelid rv) then
          match (process_reindex_switch env stmt (env.RangeVarGetRelid rv)).run s with
          | ⟨.error e, s1, out⟩ => ⟨.error e, s1, Effect.hypertable_cache_pin :: out⟩
          | ⟨.ok ret, s1, out⟩ =>
            ⟨.ok ret, s1, Effect.hypertable_cache_pin :: (out ++ [Effect.cache_release])⟩
        else ⟨.ok false, s, []⟩ := by
  unfold process_reindex
  cases stmt.relation with
  | none => rfl
  | some rv =>
    cases hv : OidIsValid (env.RangeVarGetRelid rv) with
    | false => simp [hv]
    | true =>
      simp only [hv, Bool.not_true, Bool.false_eq_true, if_false, if_true]
      rw [run_bind_ok _ _ s s () [Effect.hypertable_cache_pin] (by simp)]
      rw [run_bind]
      rcases (process_reindex_switch env stmt (env.RangeVarGetRelid rv)).run s with ⟨r, s1, out⟩
      cases r with
      | error e => rfl
      | ok ret => simp [run_bind]

theorem get_entry_some_valid (env : Env) (relid : Oid) (ht : Hypertable)
    (h : hypertable_cache_get_entry env relid = some ht) : OidIsValid relid = true := by
  unfold hypertable_cache_get_entry at h
  cases hv : OidIsValid relid with
  | true => rfl
  | false => rw [hv] at h; simp at h

/-- `process_reindex` when the statement is not `REINDEX TABLE` of a logical
table: it raises its own error for an index of a logical table and returns
false otherwise. -/
theorem process_reindex_result_plain (env : Env) (stmt : ReindexStmt) (s : PUState)
    (htbl : reindex_table_of_hypertable env stmt = false) :
    ((process_reindex env stmt).run s).result =
      if reindex_index_of_hypertable env stmt then
        .error ⟨ErrorCode.ERRCODE_FEATURE_NOT_SUPPORTED, ErrorSite.reindex_specific_index⟩
      else .ok false := by
  rw [process_reindex_run]
  cases hrel : stmt.relation with
  | none => simp [reindex_index_of_hypertable, hrel]
  | some rv =>
    cases hv : OidIsValid (env.RangeVarGetRelid rv) with
    | false =>
      cases hk : stmt.kind <;> simp [reindex_index_of_hypertable, hrel, hv, hk]
    | true =>
      simp only [hv, if_true]
      cases hk : stmt.kind with
      | REINDEX_OBJECT_TABLE =>
        have hnone : hypertable_cache_get_entry env (env.RangeVarGetRelid rv) = none := by
          simp only [reindex_table_of_hypertable, hk, hrel, hypertable_cache_get_entry_rv] at htbl
          cases hg : hypertable_cache_get_entry env (env.RangeVarGetRelid rv) with
          | none => rfl
          | some ht => rw [hg] at htbl; simp at htbl
        simp [process_reindex_switch, hk, hnone, reindex_index_of_hypertable]
      | REINDEX_OBJECT_INDEX =>
        cases hg : hypertable_cache_get_entry env (env.IndexGetRelation (env.RangeVarGetRelid rv)) with
        | none => simp [process_reindex_switch, hk, hg, reindex_index_of_hypertable, hrel, hv]
        | some ht => simp [process_reindex_switch, hk, hg, reindex_index_of_hypertable, hrel, hv]
      | REINDEX_OBJECT_SCHEMA => simp [process_reindex_switch, hk, reindex_index_of_hypertable]
      | REINDEX_OBJECT_SYSTEM => simp [process_reindex_switch, hk, reindex_index_of_hypertable]
      | REINDEX_OBJECT_DATABASE => simp [process_reindex_switch, hk, reindex_index_of_hypertable]

/-- `process_reindex` on `REINDEX TABLE` of a logical table: it returns true,
unless an external call of the fan-out raises. -/
theorem process_reindex_result_table (env : Env) (stmt : ReindexStmt) (s : PUState)
    (htbl : reindex_table_of_hypertable env stmt = true) :
    ((process_reindex env stmt).run s).result = .ok true ∨
    ∃ code, ((process_reindex env stmt).run s).result = .error ⟨code, ErrorSite.in_callee⟩ := by
  rw [process_reindex_run]
  cases hrel : stmt.relation with
  | none => simp [reindex_table_of_hypertable, hrel] at htbl
  | some rv =>
    cases hk : stmt.kind with
    | REINDEX_OBJECT_TABLE =>
      simp only [reindex_table_of_hypertable, hk, hrel, hypertable_cache_get_entry_rv] at htbl
      cases hg : hypertable_cache_get_entry env (env.RangeVarGetRelid rv) with
      | none => rw [hg] at htbl; simp at htbl
      | some ht =>
        have hv := get_entry_some_valid env _ ht hg
        simp only [hv, if_true]
        have hsw : process_reindex_switch env stmt (env.RangeVarGetRelid rv) =
            (call env Effect.PreventCommandDuringRecovery >>= fun _ =>
              foreach_chunk env (some ht) (reindex_chunk env stmt) >>= fun n =>
                (pure (decide (n ≥ 0)) : Cmd Effect Bool)) := by
          simp only [process_reindex_switch, hk, hg]
        rw [hsw]
        rcases reindex_table_fan_out_cases env stmt ht s with ⟨s1, out, h⟩ | ⟨code, s1, out, h⟩
        · left; rw [h]
        · right; exact ⟨code, by rw [h]⟩
    | REINDEX_OBJECT_INDEX => simp [reindex_table_of_hypertable, hk] at htbl
    | REINDEX_OBJECT_SCHEMA => simp [reindex_table_of_hypertable, hk] at htbl
    | REINDEX_OBJECT_SYSTEM => simp [reindex_table_of_hypertable, hk] at htbl
    | REINDEX_OBJECT_DATABASE => simp [reindex_table_of_hypertable, hk] at htbl

theorem reindex_chunk_run_ok (env : Env) (stmt : ReindexStmt) (ht : Hypertable) (x : Oid)
    (chunk : Chunk) (s : PUState)
    (hk : stmt.kind = ReindexObjectType.REINDEX_OBJECT_TABLE)
    (hc : env.chunk_of x = some chunk)
    (hr : env.raises (Effect.ReindexTable chunk.schema_name chunk.table_name) = none) :
    (reindex_chunk env stmt ht x).run s =
      ⟨.ok (), s, [Effect.ReindexTable chunk.schema_name chunk.table_name]⟩ := by
  unfold reindex_chunk
  rw [run_bind_ok _ _ s s chunk [] (by simp [chunk_get_by_relid_or_raise, hc])]
  simp only [hk]
  rw [run_call_ok env _ s hr]
  rfl

/-- With no external call raising and every child relation of the root table a
partition, the fan-out of `REINDEX TABLE` returns true after one `ReindexTable`
per partition. -/
theorem reindex_table_fan_out_run (env : Env) (stmt : ReindexStmt) (ht : Hypertable)
    (s : PUState) (hk : stmt.kind = ReindexObjectType.REINDEX_OBJECT_TABLE)
    (hraises : ∀ e, env.raises e = none)
    (hchunks : ∀ x ∈ env.find_inheritance_children ht.main_table_relid,
      (env.chunk_of x).isSome = true) :
    (call env Effect.PreventCommandDuringRecovery >>= fun _ =>
        foreach_chunk env (some ht) (reindex_chunk env stmt) >>= fun n =>
          (pure (decide (n ≥ 0)) : Cmd Effect Bool)).run s =
      ⟨.ok true, s, Effect.PreventCommandDuringRecovery ::
        (env.find_inheritance_children ht.main_table_relid).flatMap
          (fun x => ((env.chunk_of x).map
            (fun chunk => Effect.ReindexTable chunk.schema_name chunk.table_name)).toList)⟩ := by
  rw [run_bind_ok _ _ s s () [Effect.PreventCommandDuringRecovery]
    (run_call_ok env _ s (hraises _))]
  have hloop : (for_each (reindex_chunk env stmt ht)
      (env.find_inheritance_children ht.main_table_relid)).run s =
      ⟨.ok (), s, (env.find_inheritance_children ht.main_table_relid).flatMap
          (fun x => ((env.chunk_of x).map
            (fun chunk => Effect.ReindexTable chunk.schema_name chunk.table_name)).toList)⟩ := by
    apply for_each_run_ok
    intro x hx
    have hsome := hchunks x hx
    cases hc : env.chunk_of x with
    | none => rw [hc] at hsome; simp at hsome
    | some chunk =>
      rw [reindex_chunk_run_ok env stmt ht x chunk s hk hc (hraises _)]
      rfl
  have hfc : (foreach_chunk env (some ht) (reindex_chunk env stmt)).run s =
      ⟨.ok ((env.find_inheritance_children ht.main_table_relid).length : Int), s,
        (env.find_inheritance_children ht.main_table_relid).flatMap
          (fun x => ((env.chunk_of x).map
            (fun chunk => Effect.ReindexTable chunk.schema_name chunk.table_name)).toList)⟩ := by
    unfold foreach_chunk
    rw [run_bind_ok _ _ s s () _ hloop]
    simp
  rw [run_bind_ok _ _ s s _ _ hfc]
  simp

/-- C15 as stated fails for `REINDEX TABLE` of a logical table whose root table
has an inheritance child that is not a partition: `reindex_chunk` looks every
child up with `chunk_get_by_relid(chunk_relid, ..., true)`, which raises for
relation 99, so `process_reindex` does not return true; it raises that error
after reindexing partition 11. -/
theorem C15_reindex_table_raises_on_stray_child :
    demo_reindex_table.kind = ReindexObjectType.REINDEX_OBJECT_TABLE ∧
    hypertable_cache_get_entry_rv stray_child_env ⟨none, 10⟩ = some demo_ht ∧
    stray_child_env.find_inheritance_children demo_ht.main_table_relid = [11, 99] ∧
    stray_child_env.chunk_of 99 = none ∧
    (process_reindex stray_child_env demo_reindex_table).run created_state =
      ⟨.error ⟨ErrorCode.other 0, ErrorSite.in_callee⟩, created_state,
        [Effect.hypertable_cache_pin, Effect.PreventCommandDuringRecovery,
         Effect.ReindexTable 3 11]⟩ ∧
    ((process_reindex stray_child_env demo_reindex_table).run created_state).result ≠
      .ok true := by
  refine ⟨rfl, rfl, rfl, rfl, rfl, ?_⟩
  intro h
  have hr : ((process_reindex stray_child_env demo_reindex_table).run created_state).result =
      .error ⟨ErrorCode.other 0, ErrorSite.in_callee⟩ := rfl
  rw [hr] at h
  cases h

/-- C15, amended: `process_reindex` raises its own feature-not-supported error
(the `ereport` of the `REINDEX_OBJECT_INDEX` case) exactly for `REINDEX INDEX`
of an index whose owning table is a logical table.  For every statement that is
not `REINDEX TABLE` of a logical table (an index of a plain table, any other
kind, a missing or unresolvable relation, a plain table) it otherwise returns
false without error.  For `REINDEX TABLE` of a logical table it either returns
true or raises the error of a call of the per-partition fan-out
(`PreventCommandDuringRecovery`, the lookup of a child as a partition,
`ReindexTable`); it returns true when none of these calls raises and the
children of the root table are partitions. -/
theorem C15_process_reindex (env : Env) (stmt : ReindexStmt) (s : PUState) :
    (((process_reindex env stmt).run s).result =
        .error ⟨ErrorCode.ERRCODE_FEATURE_NOT_SUPPORTED, ErrorSite.reindex_specific_index⟩ ↔
      reindex_index_of_hypertable env stmt = true) ∧
    (reindex_table_of_hypertable env stmt = false →
      ((process_reindex env stmt).run s).result =
        if reindex_index_of_hypertable env stmt then
          .error ⟨ErrorCode.ERRCODE_FEATURE_NOT_SUPPORTED, ErrorSite.reindex_specific_index⟩
        else .ok false) ∧
    (reindex_table_of_hypertable env stmt = true →
      (((process_reindex env stmt).run s).result = .ok true ∨
       ∃ code, ((process_reindex env stmt).run s).result =
        .error ⟨code, ErrorSite.in_callee⟩)) ∧
    (reindex_table_of_hypertable env stmt = true →
      (∀ e, env.raises e = none) →
      (∀ relid, ∀ x ∈ env.find_inheritance_children relid, (env.chunk_of x).isSome = true) →
      ((process_reindex env stmt).run s).result = .ok true) := by
  refine ⟨?_, process_reindex_result_plain env stmt s, process_reindex_result_table env stmt s, ?_⟩
  · cases htbl : reindex_table_of_hypertable env stmt with
    | false =>
      rw [process_reindex_result_plain env stmt s htbl]
      cases reindex_index_of_hypertable env stmt <;> simp
    | true =>
      have hidx : reindex_index_of_hypertable env stmt = false := by
        unfold reindex_table_of_hypertable at htbl
        unfold reindex_index_of_hypertable
        cases hk : stmt.kind <;> cases hrel : stmt.relation <;> simp [hk, hrel] at htbl ⊢
      rw [hidx]
      rcases process_reindex_result_table env stmt s htbl with h | ⟨code, h⟩ <;> rw [h] <;> simp
  · intro htbl hraises hchunks
    rw [process_reindex_run]
    cases hrel : stmt.relation with
    | none => simp [reindex_table_of_hypertable, hrel] at htbl
    | some rv =>
      cases hk : stmt.kind with
      | REINDEX_OBJECT_TABLE =>
        simp only [reindex_table_of_hypertable, hk, hrel, hypertable_cache_get_entry_rv] at htbl
        cases hg : hypertable_cache_get_entry env (env.RangeVarGetRelid rv) with
        | none => rw [hg] at htbl; simp at htbl
        | some ht =>
          have hv := get_entry_some_valid env _ ht hg
          simp only [hv, if_true]
          have hsw : process_reindex_switch env stmt (env.RangeVarGetRelid rv) =
              (call env Effect.PreventCommandDuringRecovery >>= fun _ =>
                foreach_chunk env (some ht) (reindex_chunk env stmt) >>= fun n =>
                  (pure (decide (n ≥ 0)) : Cmd Effect Bool)) := by
            simp only [process_reindex_switch, hk, hg]
          rw [hsw, reindex_table_fan_out_run env stmt ht s hk hraises (hchunks _)]
      | REINDEX_OBJECT_INDEX => simp [reindex_table_of_hypertable, hk] at htbl
      | REINDEX_OBJECT_SCHEMA => simp [reindex_table_of_hypertable, hk] at htbl
      | REINDEX_OBJECT_SYSTEM => simp [reindex_table_of_hypertable, hk] at htbl
      | REINDEX_OBJECT_DATABASE => simp [reindex_table_of_hypertable, hk] at htbl

theorem demo_env_children_are_chunks :
    ∀ relid, ∀ x ∈ demo_env.find_inheritance_children relid,
      (demo_env.chunk_of x).isSome = true := by
  intro relid x hx
  simp only [demo_env] at hx ⊢
  by_cases h : relid = 10
  · simp only [h, if_true, List.mem_cons, List.mem_singleton] at hx
    have hx' : x = 11 ∨ x = 12 ∨ x = 13 := by
      rcases hx with h1 | h1 | h1 | h1
      · exact Or.inl h1
      · exact Or.inr (Or.inl h1)
      · exact Or.inr (Or.inr h1)
      · cases h1
    simp [hx']
  · simp [h] at hx

/-- C15, amended, at concrete inputs: `REINDEX INDEX` of an index of a logical
table raises, `REINDEX TABLE` of the logical table returns true. -/
theorem C15_process_reindex_witness :
    reindex_index_of_hypertable demo_env demo_reindex_index = true ∧
    ((process_reindex demo_env demo_reindex_index).run created_state).result =
      .error ⟨ErrorCode.ERRCODE_FEATURE_NOT_SUPPORTED, ErrorSite.reindex_specific_index⟩ ∧
    reindex_table_of_hypertable demo_env demo_reindex_table = true ∧
    ((process_reindex demo_env demo_reindex_table).run created_state).result = .ok true :=
  ⟨rfl, (C15_process_reindex demo_env demo_reindex_index created_state).1.mpr rfl, rfl,
    (C15_process_reindex demo_env demo_reindex_table created_state).2.2.2 rfl (fun _ => rfl)
      demo_env_children_are_chunks⟩

/-! ## C14: replay on the partitions and the value of `handled` -/

/-- A `REINDEX TABLE` of a logical table that has returned from
`process_reindex`. -/
theorem process_reindex_table_ok_inv (env : Env) (stmt : ReindexStmt) (rv : RangeVar)
    (ht : Hypertable) (s s1 : PUState) (handled : Bool) (out : List Effect)
    (hk : stmt.kind = ReindexObjectType.REINDEX_OBJECT_TABLE)
    (hrel : stmt.relation = some rv)
    (hht : hypertable_cache_get_entry_rv env rv = some ht)
    (h : (process_reindex env stmt).run s = ⟨.ok handled, s1, out⟩) :
    handled = true ∧ s1 = s ∧
    out = [Effect.hypertable_cache_pin, Effect.PreventCommandDuringRecovery] ++
      ((env.find_inheritance_children ht.main_table_relid).filterMap env.chunk_of).map
        (fun chunk => Effect.ReindexTable chunk.schema_name chunk.table_name) ++
      [Effect.cache_release] ∧
    ((env.find_inheritance_children ht.main_table_relid).filterMap env.chunk_of).length =
      (env.find_inheritance_children ht.main_table_relid).length := by
  have hg : hypertable_cache_get_entry env (env.RangeVarGetRelid rv) = some ht := hht
  have hv := get_entry_some_valid env _ ht hg
  rw [process_reindex_run] at h
  simp only [hrel, hv, if_true] at h
  have hsw : process_reindex_switch env stmt (env.RangeVarGetRelid rv) =
      (call env Effect.PreventCommandDuringRecovery >>= fun _ =>
        foreach_chunk env (some ht) (reindex_chunk env stmt) >>= fun n =>
          (pure (decide (n ≥ 0)) : Cmd Effect Bool)) := by
    simp only [process_reindex_switch, hk, hg]
  rw [hsw] at h
  rcases hr : (call env Effect.PreventCommandDuringRecovery >>= fun _ =>
        foreach_chunk env (some ht) (reindex_chunk env stmt) >>= fun n =>
          (pure (decide (n ≥ 0)) : Cmd Effect Bool)).run s with ⟨r, sa, o⟩
  rw [hr] at h
  cases r with
  | error e => simp at h
  | ok ret =>
    simp only [Run.mk.injEq, Except.ok.injEq] at h
    obtain ⟨hret, hsa, ho⟩ := h
    subst hret hsa
    obtain ⟨u, sb, o1, o2, hcall, hrest, hout⟩ := run_bind_ok_inv _ _ _ _ _ _ hr
    obtain ⟨_, hsb, ho1⟩ := run_call_ok_inv env _ _ _ _ _ hcall
    subst hsb ho1
    obtain ⟨n, sc, o3, o4, hloop, hpure, hout2⟩ := run_bind_ok_inv _ _ _ _ _ _ hrest
    obtain ⟨hsc, hn, ho3, hlen⟩ := foreach_chunk_call_ok_inv env ht
      (fun chunk => Effect.ReindexTable chunk.schema_name chunk.table_name)
      (reindex_chunk env stmt) (fun x => by simp only [reindex_chunk, hk]) _ _ _ _ hloop
    subst hsc
    obtain ⟨hh, hs1, ho4⟩ := run_pure_ok_inv _ _ _ _ _ hpure
    subst hs1 ho4
    refine ⟨?_, rfl, ?_, hlen⟩
    · rw [hh, hn]
      simp
    · rw [← ho, hout, hout2, ho3]
      simp

/-- The resolution of the index makes no external call and leaves the state
alone, whatever its outcome. -/
theorem find_clustered_index_loop_run (env : Env) (s : PUState) :
    ∀ l : List Oid, ∃ r, (find_clustered_index_loop env l).run s = ⟨r, s, []⟩ := by
  intro l
  induction l with
  | nil => exact ⟨_, rfl⟩
  | cons x rest ih =>
    unfold find_clustered_index_loop
    cases hx : env.indisclustered x with
    | none => exact ⟨_, rfl⟩
    | some b =>
      cases b with
      | true => exact ⟨_, rfl⟩
      | false => exact ih

theorem cluster_index_relid_run (env : Env) (ht : Hypertable) (stmt : ClusterStmt)
    (s : PUState) : ∃ r, (cluster_index_relid env ht stmt).run s = ⟨r, s, []⟩ := by
  unfold cluster_index_relid
  cases stmt.indexname with
  | some indexname => exact ⟨_, rfl⟩
  | none =>
    obtain ⟨r, hr⟩ := find_clustered_index_loop_run env s
      (env.RelationGetIndexList ht.main_table_relid)
    simp only [find_clustered_index]
    cases r with
    | error e => exact ⟨_, run_bind_error _ _ s s e [] hr⟩
    | ok i =>
      rw [run_bind_ok _ _ s s i [] hr]
      cases OidIsValid i <;> exact ⟨_, rfl⟩

/-- One captured pair whose calls all return. -/
theorem cluster_chunk_ok_inv (env : Env) (verbose : Bool) (cim : ChunkIndexMapping)
    (s s1 : PUState) (u : Unit) (out : List Effect)
    (h : (cluster_chunk env verbose cim).run s = ⟨.ok u, s1, out⟩) :
    s1 = s ∧ out = cluster_chunk_calls verbose cim := by
  unfold cluster_chunk at h
  obtain ⟨_, sa, o1, r1, h1, k1, e1⟩ := run_bind_ok_inv _ _ _ _ _ _ h
  obtain ⟨_, hs1, ho1⟩ := run_call_ok_inv env _ _ _ _ _ h1
  subst hs1 ho1
  obtain ⟨_, sb, o2, r2, h2, k2, e2⟩ := run_bind_ok_inv _ _ _ _ _ _ k1
  obtain ⟨_, hs2, ho2⟩ := run_call_ok_inv env _ _ _ _ _ h2
  subst hs2 ho2
  obtain ⟨_, sc, o3, r3, h3, k3, e3⟩ := run_bind_ok_inv _ _ _ _ _ _ k2
  obtain ⟨_, hs3, ho3⟩ := run_call_ok_inv env _ _ _ _ _ h3
  subst hs3 ho3
  obtain ⟨_, sd, o4, r4, h4, k4, e4⟩ := run_bind_ok_inv _ _ _ _ _ _ k3
  obtain ⟨_, hs4, ho4⟩ := run_call_ok_inv env _ _ _ _ _ h4
  subst hs4 ho4
  obtain ⟨_, se, o5, r5, h5, k5, e5⟩ := run_bind_ok_inv _ _ _ _ _ _ k4
  obtain ⟨_, hs5, ho5⟩ := run_call_ok_inv env _ _ _ _ _ h5
  subst hs5 ho5
  obtain ⟨_, hs6, ho6⟩ := run_call_ok_inv env _ _ _ _ _ k5
  subst hs6 ho6
  refine ⟨rfl, ?_⟩
  rw [e1, e2, e3, e4, e5]
  rfl

/-- The part of `process_cluster_start` after the index resolution, when it has
returned: one full group of calls per captured pair, in order. -/
theorem cluster_chunks_ok_inv (env : Env) (ht : Hypertable) (stmt : ClusterStmt)
    (index_relid : Oid) (s s1 : PUState) (u : Unit) (out : List Effect)
    (h : (cluster_chunks env ht stmt index_relid).run s = ⟨.ok u, s1, out⟩) :
    s1 = s ∧ out = [Effect.PopActiveSnapshot, Effect.CommitTransactionCommand] ++
      (env.chunk_index_get_mappings ht.id index_relid).flatMap
        (cluster_chunk_calls stmt.verbose) ++
      [Effect.StartTransactionCommand, Effect.MemoryContextDelete] := by
  unfold cluster_chunks at h
  obtain ⟨_, sa, o1, r1, h1, k1, e1⟩ := run_bind_ok_inv _ _ _ _ _ _ h
  obtain ⟨_, hs1, ho1⟩ := run_call_ok_inv env _ _ _ _ _ h1
  subst hs1 ho1
  obtain ⟨_, sb, o2, r2, h2, k2, e2⟩ := run_bind_ok_inv _ _ _ _ _ _ k1
  obtain ⟨_, hs2, ho2⟩ := run_call_ok_inv env _ _ _ _ _ h2
  subst hs2 ho2
  obtain ⟨_, sc, o3, r3, h3, k3, e3⟩ := run_bind_ok_inv _ _ _ _ _ _ k2
  obtain ⟨hs3, ho3, _⟩ := for_each_ok_inv (cluster_chunk env stmt.verbose)
    (cluster_chunk_calls stmt.verbose)
    (fun x s u s1 out hx => cluster_chunk_ok_inv env stmt.verbose x s s1 u out hx) _ _ _ _ _ h3
  subst hs3 ho3
  obtain ⟨_, sd, o4, r4, h4, k4, e4⟩ := run_bind_ok_inv _ _ _ _ _ _ k3
  obtain ⟨_, hs4, ho4⟩ := run_call_ok_inv env _ _ _ _ _ h4
  subst hs4 ho4
  obtain ⟨_, hs5, ho5⟩ := run_call_ok_inv env _ _ _ _ _ k4
  subst hs5 ho5
  refine ⟨rfl, ?_⟩
  rw [e1, e2, e3, e4]
  simp

/-- The run of `process_cluster_start` on a logical table whose owner check
and transaction-chain check pass, in terms of the index resolution and of the
per-pair part. -/
theorem process_cluster_start_run (env : Env) (stmt : ClusterStmt)
    (context : ProcessUtilityContext) (rv : RangeVar) (ht : Hypertable) (s : PUState)
    (hrel : stmt.relation = some rv)
    (hht : hypertable_cache_get_entry_rv env rv = some ht)
    (howner : env.pg_class_ownercheck ht.main_table_relid = true)
    (hptc : env.raises (Effect.PreventTransactionChain
      (decide (context = ProcessUtilityContext.PROCESS_UTILITY_TOPLEVEL))) = none) :
    (process_cluster_start env stmt context).run s =
      match ((cluster_index_relid env ht stmt).run s).result with
      | .error e => ⟨.error e, s, [Effect.hypertable_cache_pin,
          Effect.PreventTransactionChain
            (decide (context = ProcessUtilityContext.PROCESS_UTILITY_TOPLEVEL))]⟩
      | .ok index_relid =>
        if OidIsValid index_relid then
          match (cluster_chunks env ht stmt index_relid).run s with
          | ⟨.error e, s2, o2⟩ => ⟨.error e, s2, [Effect.hypertable_cache_pin,
              Effect.PreventTransactionChain
                (decide (context = ProcessUtilityContext.PROCESS_UTILITY_TOPLEVEL))] ++ o2⟩
          | ⟨.ok _, s2, o2⟩ => ⟨.ok false, s2, [Effect.hypertable_cache_pin,
              Effect.PreventTransactionChain
                (decide (context = ProcessUtilityContext.PROCESS_UTILITY_TOPLEVEL))] ++ o2 ++
              [Effect.cache_release]⟩
        else ⟨.ok false, s, [Effect.hypertable_cache_pin,
          Effect.PreventTransactionChain
            (decide (context = ProcessUtilityContext.PROCESS_UTILITY_TOPLEVEL)),
          Effect.cache_release]⟩ := by
  obtain ⟨r, hr⟩ := cluster_index_relid_run env ht stmt s
  rw [hr]
  unfold process_cluster_start
  simp only [hrel, hht, howner, Bool.not_true, Bool.false_eq_true, if_false]
  rw [run_bind_ok _ _ s s () [Effect.hypertable_cache_pin] rfl]
  rw [run_bind_ok _ _ s s () [] rfl]
  rw [run_bind_ok _ _ s s () [_] (run_call_ok env _ s hptc)]
  cases r with
  | error e =>
    rw [run_bind_error _ _ s s e [] hr]
    rfl
  | ok index_relid =>
    rw [run_bind_ok _ _ s s index_relid [] hr]
    cases hv : OidIsValid index_relid with
    | false =>
      simp only [hv, Bool.not_false, if_true, Bool.false_eq_true, if_false]
      rfl
    | true =>
      simp only [hv, Bool.not_true, Bool.false_eq_true, if_false, if_true]
      rcases hc : (cluster_chunks env ht stmt index_relid).run s with ⟨rc, s2, o2⟩
      cases rc with
      | error e =>
        rw [run_bind_error _ _ s s2 e o2 hc]
        rfl
      | ok u =>
        rw [run_bind_ok _ _ s s2 u o2 hc]
        simp
        exact ⟨rfl, rfl, rfl⟩

/-- A `CLUSTER` of a logical table that has returned from
`process_cluster_start`: the value is false, and when an index was resolved
every captured pair got its full group of calls. -/
theorem process_cluster_start_ok_inv (env : Env) (stmt : ClusterStmt)
    (context : ProcessUtilityContext) (rv : RangeVar) (ht : Hypertable) (s s1 : PUState)
    (handled : Bool) (out : List Effect)
    (hrel : stmt.relation = some rv)
    (hht : hypertable_cache_get_entry_rv env rv = some ht)
    (h : (process_cluster_start env stmt context).run s = ⟨.ok handled, s1, out⟩) :
    handled = false ∧ s1 = s ∧
    ∀ index_relid, ((cluster_index_relid env ht stmt).run s).result = .ok index_relid →
      OidIsValid index_relid = true →
      out = [Effect.hypertable_cache_pin,
          Effect.PreventTransactionChain
            (decide (context = ProcessUtilityContext.PROCESS_UTILITY_TOPLEVEL)),
          Effect.PopActiveSnapshot, Effect.CommitTransactionCommand] ++
        (env.chunk_index_get_mappings ht.id index_relid).flatMap
          (cluster_chunk_calls stmt.verbose) ++
        [Effect.StartTransactionCommand, Effect.MemoryContextDelete, Effect.cache_release] := by
  have howner : env.pg_class_ownercheck ht.main_table_relid = true := by
    cases ho : env.pg_class_ownercheck ht.main_table_relid with
    | true => rfl
    | false =>
      exfalso
      unfold process_cluster_start at h
      simp only [hrel, hht, ho, Bool.not_false, if_true] at h
      rw [run_bind_ok _ _ s s () [Effect.hypertable_cache_pin] rfl] at h
      rw [run_bind_error _ _ s s _ [] rfl] at h
      simp at h
  have hptc : env.raises (Effect.PreventTransactionChain
      (decide (context = ProcessUtilityContext.PROCESS_UTILITY_TOPLEVEL))) = none := by
    cases hp : env.raises (Effect.PreventTransactionChain
      (decide (context = ProcessUtilityContext.PROCESS_UTILITY_TOPLEVEL))) with
    | none => rfl
    | some code =>
      exfalso
      unfold process_cluster_start at h
      simp only [hrel, hht, howner, Bool.not_true, Bool.false_eq_true, if_false] at h
      rw [run_bind_ok _ _ s s () [Effect.hypertable_cache_pin] rfl] at h
      rw [run_bind_ok _ _ s s () [] rfl] at h
      rw [run_bind_error _ _ s s _ [_] (run_call_raises env _ s code hp)] at h
      simp at h
  rw [process_cluster_start_run env stmt context rv ht s hrel hht howner hptc] at h
  obtain ⟨r, hr⟩ := cluster_index_relid_run env ht stmt s
  rw [hr] at h
  cases r with
  | error e => simp at h
  | ok i =>
    cases hv : OidIsValid i with
    | false =>
      simp only [hv, Bool.false_eq_true, if_false, Run.mk.injEq, Except.ok.injEq] at h
      refine ⟨h.1.symm, h.2.1.symm, ?_⟩
      intro j hj hvj
      rw [hr] at hj
      simp only [Except.ok.injEq] at hj
      rw [← hj, hv] at hvj
      cases hvj
    | true =>
      simp only [hv, if_true] at h
      rcases hc : (cluster_chunks env ht stmt i).run s with ⟨rc, s2, o2⟩
      rw [hc] at h
      cases rc with
      | error e => simp at h
      | ok u =>
        simp only [Run.mk.injEq, Except.ok.injEq] at h
        obtain ⟨hs2, ho2⟩ := cluster_chunks_ok_inv env ht stmt i s s2 u o2 hc
        refine ⟨h.1.symm, by rw [← h.2.1, hs2], ?_⟩
        intro j hj hvj
        rw [hr] at hj
        simp only [Except.ok.injEq] at hj
        rw [← h.2.2, ho2, ← hj]
        simp

/-- C14, counterexample: `CLUSTER` of the logical table of the demo catalog on
an existing index.  The pre-hook completes without error after reorganizing
the three partitions, and `process_ddl_command_start` returns handled = false;
the hook then runs the default single-table implementation as well. -/
theorem C14_cluster_returns_not_handled :
    hypertable_cache_get_entry_rv demo_env ⟨none, 10⟩ = some demo_ht ∧
    (process_ddl_command_start demo_env (Node.T_ClusterStmt demo_cluster)
        ProcessUtilityContext.PROCESS_UTILITY_TOPLEVEL false).run created_state =
      ⟨.ok false, created_state,
        [Effect.hypertable_cache_pin, Effect.PreventTransactionChain true,
         Effect.PopActiveSnapshot, Effect.CommitTransactionCommand,
         Effect.StartTransactionCommand, Effect.PushActiveSnapshot,
         Effect.chunk_index_mark_clustered 11 21, Effect.cluster_rel 11 21 false,
         Effect.PopActiveSnapshot, Effect.CommitTransactionCommand,
         Effect.StartTransactionCommand, Effect.PushActiveSnapshot,
         Effect.chunk_index_mark_clustered 12 22, Effect.cluster_rel 12 22 false,
         Effect.PopActiveSnapshot, Effect.CommitTransactionCommand,
         Effect.StartTransactionCommand, Effect.PushActiveSnapshot,
         Effect.chunk_index_mark_clustered 13 23, Effect.cluster_rel 13 23 false,
         Effect.PopActiveSnapshot, Effect.CommitTransactionCommand,
         Effect.StartTransactionCommand, Effect.MemoryContextDelete,
         Effect.cache_release]⟩ ∧
    ((timescaledb_ddl_command_start demo_env
        (toplevel_args (Node.T_ClusterStmt demo_cluster))).run created_state).emitted.filter
      HookEvent.is_default_execution =
      [HookEvent.standard_ProcessUtility (toplevel_args (Node.T_ClusterStmt demo_cluster))] :=
  ⟨rfl, rfl, rfl⟩

/-- C14, amended: whenever the named target resolves to a logical table and
`process_ddl_command_start` completes without error, then for Vacuum/Analyze
(the registry entry naming a valid root table) and for Reindex of a whole table
it returns handled = true, having made exactly one `ExecVacuum`, respectively
`ReindexTable`, call per child relation of the root table, each of them a
partition; for Cluster it returns handled = false, so the default single-table
implementation runs as well, and when an index was resolved it has made one
full group of calls (own transaction, mark, `cluster_rel`, commit) per captured
(partition, index) pair. -/
theorem C14_replay_per_partition (env : Env) (parsetree : Node)
    (context : ProcessUtilityContext) (completion_tag : Bool) (rv : RangeVar) (ht : Hypertable)
    (s s1 : PUState) (handled : Bool) (out : List Effect)
    (hht : hypertable_cache_get_entry_rv env rv = some ht)
    (h : (process_ddl_command_start env parsetree context completion_tag).run s
      = ⟨.ok handled, s1, out⟩) :
    (∀ stmt : VacuumStmt, parsetree = Node.T_VacuumStmt stmt → stmt.relation = some rv →
      OidIsValid ht.main_table_relid = true →
      handled = true ∧ s1 = s ∧
      out = [Effect.hypertable_cache_pin, Effect.cache_release,
          Effect.PreventCommandDuringRecovery, Effect.hypertable_cache_pin] ++
        ((env.find_inheritance_children ht.main_table_relid).filterMap env.chunk_of).map
          (fun chunk => Effect.ExecVacuum chunk.schema_name chunk.table_name
            (decide (context = ProcessUtilityContext.PROCESS_UTILITY_TOPLEVEL))) ++
        [Effect.cache_release] ∧
      ((env.find_inheritance_children ht.main_table_relid).filterMap env.chunk_of).length =
        (env.find_inheritance_children ht.main_table_relid).length) ∧
    (∀ stmt : ReindexStmt, parsetree = Node.T_ReindexStmt stmt →
      stmt.kind = ReindexObjectType.REINDEX_OBJECT_TABLE → stmt.relation = some rv →
      handled = true ∧ s1 = s ∧
      out = [Effect.hypertable_cache_pin, Effect.PreventCommandDuringRecovery] ++
        ((env.find_inheritance_children ht.main_table_relid).filterMap env.chunk_of).map
          (fun chunk => Effect.ReindexTable chunk.schema_name chunk.table_name) ++
        [Effect.cache_release] ∧
      ((env.find_inheritance_children ht.main_table_relid).filterMap env.chunk_of).length =
        (env.find_inheritance_children ht.main_table_relid).length) ∧
    (∀ stmt : ClusterStmt, parsetree = Node.T_ClusterStmt stmt → stmt.relation = some rv →
      handled = false ∧ s1 = s ∧
      ∀ index_relid, ((cluster_index_relid env ht stmt).run s).result = .ok index_relid →
        OidIsValid index_relid = true →
        out = [Effect.hypertable_cache_pin,
            Effect.PreventTransactionChain
              (decide (context = ProcessUtilityContext.PROCESS_UTILITY_TOPLEVEL)),
            Effect.PopActiveSnapshot, Effect.CommitTransactionCommand] ++
          (env.chunk_index_get_mappings ht.id index_relid).flatMap
            (cluster_chunk_calls stmt.verbose) ++
          [Effect.StartTransactionCommand, Effect.MemoryContextDelete,
            Effect.cache_release]) := by
  refine ⟨?_, ?_, ?_⟩
  · intro stmt hp hrel hvalid
    subst hp
    exact process_vacuum_ok_inv env stmt context rv ht s s1 handled out hrel hht hvalid h
  · intro stmt hp hk hrel
    subst hp
    exact process_reindex_table_ok_inv env stmt rv ht s s1 handled out hk hrel hht h
  · intro stmt hp hrel
    subst hp
    exact process_cluster_start_ok_inv env stmt context rv ht s s1 handled out hrel hht h

/-- C14, amended, on the demo catalog: `VACUUM` and `REINDEX TABLE` of the
logical table return handled = true with every child relation a partition,
`CLUSTER` on index 20 returns handled = false after the groups of calls of the
three captured pairs. -/
theorem C14_replay_per_partition_witness :
    hypertable_cache_get_entry_rv demo_env ⟨none, 10⟩ = some demo_ht ∧
    (((process_ddl_command_start demo_env (Node.T_VacuumStmt demo_vacuum)
        ProcessUtilityContext.PROCESS_UTILITY_TOPLEVEL false).run created_state).result
      = .ok true ∧
     ((demo_env.find_inheritance_children 10).filterMap demo_env.chunk_of).length = 3) ∧
    (((process_ddl_command_start demo_env (Node.T_ReindexStmt demo_reindex_table)
        ProcessUtilityContext.PROCESS_UTILITY_TOPLEVEL false).run created_state).result
      = .ok true ∧
     ((demo_env.find_inheritance_children 10).filterMap demo_env.chunk_of).length = 3) ∧
    (((process_ddl_command_start demo_env (Node.T_ClusterStmt demo_cluster)
        ProcessUtilityContext.PROCESS_UTILITY_TOPLEVEL false).run created_state).result
      = .ok false ∧
     ((process_ddl_command_start demo_env (Node.T_ClusterStmt demo_cluster)
        ProcessUtilityContext.PROCESS_UTILITY_TOPLEVEL false).run created_state).emitted =
      [Effect.hypertable_cache_pin, Effect.PreventTransactionChain true,
        Effect.PopActiveSnapshot, Effect.CommitTransactionCommand] ++
      [⟨11, 21⟩, ⟨12, 22⟩, ⟨13, 23⟩].flatMap (cluster_chunk_calls false) ++
      [Effect.StartTransactionCommand, Effect.MemoryContextDelete, Effect.cache_release]) :=
  ⟨rfl,
    ⟨rfl, ((C14_replay_per_partition demo_env (Node.T_VacuumStmt demo_vacuum)
        ProcessUtilityContext.PROCESS_UTILITY_TOPLEVEL false ⟨none, 10⟩ demo_ht
        created_state created_state true _ rfl rfl).1 demo_vacuum rfl rfl rfl).2.2.2⟩,
    ⟨rfl, ((C14_replay_per_partition demo_env (Node.T_ReindexStmt demo_reindex_table)
        ProcessUtilityContext.PROCESS_UTILITY_TOPLEVEL false ⟨none, 10⟩ demo_ht
        created_state created_state true _ rfl rfl).2.1 demo_reindex_table rfl rfl rfl).2.2.2⟩,
    ⟨rfl, ((C14_replay_per_partition demo_env (Node.T_ClusterStmt demo_cluster)
        ProcessUtilityContext.PROCESS_UTILITY_TOPLEVEL false ⟨none, 10⟩ demo_ht
        created_state created_state false _ rfl rfl).2.2 demo_cluster rfl rfl).2.2 20 rfl rfl⟩⟩

/-! ## C16: a rejected index is not fanned out -/

/-- The state refresh of `extension_is_loaded` makes no call other than
`catalog_reset`. -/
theorem extension_is_loaded_emitted (env : Env) (s : PUState) :
    ∀ e ∈ ((extension_is_loaded env).run s).emitted, e = Effect.catalog_reset := by
  unfold extension_is_loaded
  cases env.guc_restoring with
  | true => simp
  | false =>
    simp only [Bool.false_eq_true, if_false, run_bind, run_get_state, extension_update_state,
      extension_set_state, extension_check_version]
    intro e he
    cases hst : s.extstate <;> cases hcur : env.extension_current_state <;>
      cases hv : env.version_check_possible <;> cases hm : env.sql_version_matches <;>
        cases hp : env.extension_proxy_table <;>
          simp [hst, hcur, hv, hm, hp, run_bind] at he <;> exact he

theorem index_fan_out_count_zero (l : List Effect)
    (h : ∀ e ∈ l, HookEvent.is_chunk_index_create (HookEvent.handler e) = false) :
    index_fan_out_count (l.map HookEvent.handler) = 0 := by
  unfold index_fan_out_count
  rw [List.length_eq_zero, List.filter_eq_nil_iff]
  intro ev hev
  obtain ⟨e, he, hee⟩ := List.mem_map.mp hev
  rw [← hee, h e he]
  simp

theorem process_index_start_rejected (env : Env) (stmt : IndexStmt) (ht : Hypertable)
    (s : PUState)
    (hht : hypertable_cache_get_entry_rv env stmt.relation = some ht)
    (hreject : indexing_verify_index_rejects env ht stmt = true) :
    (process_index_start env stmt).run s =
      ⟨.error ⟨ErrorCode.ERRCODE_FEATURE_NOT_SUPPORTED,
          if stmt.concurrent then ErrorSite.concurrent_index_creation
          else ErrorSite.in_callee⟩,
        s,
        if stmt.concurrent then [Effect.hypertable_cache_pin]
        else [Effect.hypertable_cache_pin, Effect.indexing_verify_index ht.id stmt]⟩ := by
  have hr : env.raises (Effect.indexing_verify_index ht.id stmt) =
      some ErrorCode.ERRCODE_FEATURE_NOT_SUPPORTED := by
    simpa [indexing_verify_index_rejects] using hreject
  unfold process_index_start
  simp only [hht]
  rw [run_bind_ok _ _ s s () [Effect.hypertable_cache_pin] rfl]
  cases hc : stmt.concurrent with
  | true =>
    simp only [if_true]
    rw [run_bind_error _ _ s s ⟨ErrorCode.ERRCODE_FEATURE_NOT_SUPPORTED,
      ErrorSite.concurrent_index_creation⟩ [] rfl]
    rfl
  | false =>
    simp only [Bool.false_eq_true, if_false]
    rw [run_bind_ok _ _ s s () [] rfl]
    rw [run_bind_error _ _ s s ⟨ErrorCode.ERRCODE_FEATURE_NOT_SUPPORTED,
      ErrorSite.in_callee⟩ [Effect.indexing_verify_index ht.id stmt]
      (run_call_raises env _ s _ hr)]
    rfl

/-- C16: for a create-index statement on a logical table that the verifier
`indexing_verify_index` rejects, the pre-hook `process_index_start` fails with
a feature-not-supported error (raised by the verifier, or by the check for a
concurrent build that precedes it); the statement as the host runs it, with
the extension loaded, fails with that error in the pre-hook, never reaches the
default execution or the post-hook, and its fan-out count is zero: no
`chunk_index_create_from_stmt` is made for any partition. -/
theorem C16_rejected_index_no_fan_out (env : Env) (stmt : IndexStmt) (ht : Hypertable)
    (s0 s : PUState) (o : List Effect) (args : ProcessUtilityArgs) (trigdata : EventTriggerData)
    (hht : hypertable_cache_get_entry_rv env stmt.relation = some ht)
    (hreject : indexing_verify_index_rejects env ht stmt = true)
    (hstmt : args.parsetree = Node.T_IndexStmt stmt)
    (hloaded : (extension_is_loaded env).run s0 = ⟨.ok true, s, o⟩) :
    (process_index_start env stmt).run s =
      ⟨.error ⟨ErrorCode.ERRCODE_FEATURE_NOT_SUPPORTED,
          if stmt.concurrent then ErrorSite.concurrent_index_creation
          else ErrorSite.in_callee⟩,
        s,
        if stmt.concurrent then [Effect.hypertable_cache_pin]
        else [Effect.hypertable_cache_pin, Effect.indexing_verify_index ht.id stmt]⟩ ∧
    (host_statement env args trigdata).run s0 =
      ⟨.error ⟨ErrorCode.ERRCODE_FEATURE_NOT_SUPPORTED,
          if stmt.concurrent then ErrorSite.concurrent_index_creation
          else ErrorSite.in_callee⟩,
        s,
        (o ++ (if stmt.concurrent then [Effect.hypertable_cache_pin]
          else [Effect.hypertable_cache_pin, Effect.indexing_verify_index ht.id stmt])).map
          HookEvent.handler⟩ ∧
    index_fan_out_count ((host_statement env args trigdata).run s0).emitted = 0 ∧
    ((host_statement env args trigdata).run s0).emitted.filter
      HookEvent.is_default_execution = [] := by
  have hpre := process_index_start_rejected env stmt ht s hht hreject
  have hddl : (process_ddl_command_start env args.parsetree args.context
      args.completion_tag).run s =
      ⟨.error ⟨ErrorCode.ERRCODE_FEATURE_NOT_SUPPORTED,
          if stmt.concurrent then ErrorSite.concurrent_index_creation
          else ErrorSite.in_callee⟩,
        s,
        if stmt.concurrent then [Effect.hypertable_cache_pin]
        else [Effect.hypertable_cache_pin, Effect.indexing_verify_index ht.id stmt]⟩ := by
    rw [hstmt]
    simp only [process_ddl_command_start]
    rw [run_bind_error _ _ s s _ _ hpre]
  have hstart : (timescaledb_ddl_command_start env args).run s0 =
      ⟨.error ⟨ErrorCode.ERRCODE_FEATURE_NOT_SUPPORTED,
          if stmt.concurrent then ErrorSite.concurrent_index_creation
          else ErrorSite.in_callee⟩,
        s,
        (o ++ (if stmt.concurrent then [Effect.hypertable_cache_pin]
          else [Effect.hypertable_cache_pin, Effect.indexing_verify_index ht.id stmt])).map
          HookEvent.handler⟩ := by
    unfold timescaledb_ddl_command_start
    rw [run_bind_ok _ _ s0 s true (o.map HookEvent.handler)
      (by rw [run_as_handler, hloaded])]
    simp only [Bool.not_true, Bool.false_eq_true, if_false]
    rw [run_bind_error _ _ s s _ _ (by rw [run_as_handler, hddl])]
    simp
  have hhost : (host_statement env args trigdata).run s0 =
      ⟨.error ⟨ErrorCode.ERRCODE_FEATURE_NOT_SUPPORTED,
          if stmt.concurrent then ErrorSite.concurrent_index_creation
          else ErrorSite.in_callee⟩,
        s,
        (o ++ (if stmt.concurrent then [Effect.hypertable_cache_pin]
          else [Effect.hypertable_cache_pin, Effect.indexing_verify_index ht.id stmt])).map
          HookEvent.handler⟩ := by
    simp only [host_statement, hstart]
  refine ⟨hpre, hhost, ?_, ?_⟩
  · rw [hhost]
    apply index_fan_out_count_zero
    intro e he
    rcases List.mem_append.mp he with he | he
    · have ho := extension_is_loaded_emitted env s0 e (by rw [hloaded]; exact he)
      rw [ho]
      rfl
    · cases hc : stmt.concurrent with
      | true =>
        rw [hc] at he
        simp only [if_true, List.mem_singleton] at he
        rw [he]
        rfl
      | false =>
        rw [hc] at he
        simp only [Bool.false_eq_true, if_false, List.mem_cons, List.mem_singleton,
          List.mem_nil_iff, or_false] at he
        rcases he with he | he <;> rw [he] <;> rfl
  · rw [hhost]
    exact filter_default_execution_handler _

/-- C16 on the demo catalog with a verifier that insists on the partitioning
column: `CREATE INDEX` on column 102 of the logical table. -/
theorem C16_rejected_index_no_fan_out_witness :
    hypertable_cache_get_entry_rv reject_env demo_index_stmt.relation = some demo_ht ∧
    indexing_verify_index_rejects reject_env demo_ht demo_index_stmt = true ∧
    (extension_is_loaded reject_env).run created_state = ⟨.ok true, created_state, []⟩ ∧
    (process_index_start reject_env demo_index_stmt).run created_state =
      ⟨.error ⟨ErrorCode.ERRCODE_FEATURE_NOT_SUPPORTED, ErrorSite.in_callee⟩, created_state,
        [Effect.hypertable_cache_pin, Effect.indexing_verify_index 1 demo_index_stmt]⟩ ∧
    index_fan_out_count ((host_statement reject_env
      (toplevel_args (Node.T_IndexStmt demo_index_stmt))
      (ddl_command_end_data (Node.T_IndexStmt demo_index_stmt))).run created_state).emitted = 0 :=
  ⟨rfl, rfl, rfl,
    (C16_rejected_index_no_fan_out reject_env demo_index_stmt demo_ht created_state
      created_state [] (toplevel_args (Node.T_IndexStmt demo_index_stmt))
      (ddl_command_end_data (Node.T_IndexStmt demo_index_stmt)) rfl rfl rfl rfl).1,
    (C16_rejected_index_no_fan_out reject_env demo_index_stmt demo_ht created_state
      created_state [] (toplevel_args (Node.T_IndexStmt demo_index_stmt))
      (ddl_command_end_data (Node.T_IndexStmt demo_index_stmt)) rfl rfl rfl rfl).2.2.1⟩

/-! ## C17: foreign keys that reference a logical table -/

/-- C17, counterexample: a foreign key from the first logical table of the demo
catalog (relation 10) to the second (relation 40).  `verify_constraint` returns
without error, and so does `process_altertable_start_table` for the
`ADD CONSTRAINT` subcommand. -/
theorem C17_foreign_key_between_hypertables_accepted :
    demo_fk_constraint.contype = ConstrType.CONSTR_FOREIGN ∧
    hypertable_cache_get_entry_rv demo_env demo_fk_constraint.pktable = some other_ht ∧
    hypertable_cache_get_entry_rv demo_env ⟨none, 10⟩ = some demo_ht ∧
    (verify_constraint demo_env ⟨none, 10⟩ demo_fk_constraint).run created_state =
      ⟨.ok (), created_state, [Effect.hypertable_cache_pin, Effect.cache_release]⟩ ∧
    (process_altertable_start_table demo_env (demo_add_fk 10)).run created_state =
      ⟨.ok (), created_state, [Effect.hypertable_cache_pin, Effect.cache_release]⟩ :=
  ⟨rfl, rfl, rfl, rfl, rfl⟩

theorem verify_constraint_plaintable_foreign (env : Env) (relation : RangeVar)
    (constr : Constraint) (pk : Hypertable) (s : PUState)
    (hfk : constr.contype = ConstrType.CONSTR_FOREIGN)
    (hpk : hypertable_cache_get_entry_rv env constr.pktable = some pk) :
    (verify_constraint_plaintable env relation constr).run s =
      ⟨.error ⟨ErrorCode.ERRCODE_FEATURE_NOT_SUPPORTED, ErrorSite.foreign_key_to_hypertable⟩,
        s, [Effect.hypertable_cache_pin]⟩ := by
  unfold verify_constraint_plaintable
  simp only [hfk, hpk]
  rw [run_bind_ok _ _ s s () [Effect.hypertable_cache_pin] rfl]
  rfl

theorem verify_constraint_hypertable_foreign (env : Env) (ht : Hypertable)
    (constr : Constraint) (s : PUState)
    (hfk : constr.contype = ConstrType.CONSTR_FOREIGN) :
    (verify_constraint_hypertable env ht (AlterTableDef.T_Constraint constr)).run s =
      ⟨.ok (), s, []⟩ := by
  simp only [verify_constraint_hypertable, hfk, verify_constraint_hypertable_switch]
  rfl

/-- C17, amended: for a foreign-key constraint whose referenced table resolves
to a logical table, `verify_constraint` and the `AT_AddConstraint` branch of
`process_altertable_start_table` fail with the feature-not-supported error
"Foreign keys to hypertables are not supported" when the table carrying the
constraint is a plain table, and return without error when the carrying table
is itself a logical table. -/
theorem C17_foreign_key_to_hypertable (env : Env) (relation : RangeVar) (constr : Constraint)
    (pk : Hypertable) (s : PUState)
    (hfk : constr.contype = ConstrType.CONSTR_FOREIGN)
    (hpk : hypertable_cache_get_entry_rv env constr.pktable = some pk) :
    (verify_constraint env relation constr).run s =
      (match hypertable_cache_get_entry_rv env relation with
       | none =>
         ⟨.error ⟨ErrorCode.ERRCODE_FEATURE_NOT_SUPPORTED, ErrorSite.foreign_key_to_hypertable⟩,
           s, [Effect.hypertable_cache_pin, Effect.hypertable_cache_pin]⟩
       | some _ => ⟨.ok (), s, [Effect.hypertable_cache_pin, Effect.cache_release]⟩) ∧
    (∀ (stmt : AlterTableStmt) (ht : Option Hypertable) (cmd : AlterTableCmd),
      (cmd.subtype = AlterTableType.AT_AddConstraint ∨
        cmd.subtype = AlterTableType.AT_AddConstraintRecurse) →
      cmd.def_ = AlterTableDef.T_Constraint constr →
      (process_altertable_start_table_cmd env stmt ht cmd).run s =
        (match ht with
         | none =>
           ⟨.error ⟨ErrorCode.ERRCODE_FEATURE_NOT_SUPPORTED,
             ErrorSite.foreign_key_to_hypertable⟩, s, [Effect.hypertable_cache_pin]⟩
         | some _ => ⟨.ok (), s, []⟩)) := by
  constructor
  · unfold verify_constraint
    rw [run_bind_ok _ _ s s () [Effect.hypertable_cache_pin] rfl]
    cases hrel : hypertable_cache_get_entry_rv env relation with
    | none =>
      simp only []
      rw [run_bind_error _ _ s s _ _
        (verify_constraint_plaintable_foreign env relation constr pk s hfk hpk)]
      rfl
    | some ht =>
      simp only []
      rw [run_bind_ok _ _ s s () [] (verify_constraint_hypertable_foreign env ht constr s hfk)]
      rfl
  · intro stmt ht cmd hsub hdef
    cases ht with
    | none =>
      rcases hsub with hsub | hsub <;>
        simp only [process_altertable_start_table_cmd, hsub, hdef] <;>
        exact verify_constraint_plaintable_foreign env stmt.relation constr pk s hfk hpk
    | some ht =>
      rcases hsub with hsub | hsub <;>
        simp only [process_altertable_start_table_cmd, hsub, hdef] <;>
        exact verify_constraint_hypertable_foreign env ht constr s hfk

/-- C17, amended, on the demo catalog: the foreign key to the second logical
table is rejected on the plain table 30. -/
theorem C17_foreign_key_to_hypertable_witness :
    demo_fk_constraint.contype = ConstrType.CONSTR_FOREIGN ∧
    hypertable_cache_get_entry_rv demo_env demo_fk_constraint.pktable = some other_ht ∧
    (verify_constraint demo_env ⟨none, 30⟩ demo_fk_constraint).run created_state =
      ⟨.error ⟨ErrorCode.ERRCODE_FEATURE_NOT_SUPPORTED, ErrorSite.foreign_key_to_hypertable⟩,
        created_state, [Effect.hypertable_cache_pin, Effect.hypertable_cache_pin]⟩ :=
  ⟨rfl, rfl,
    (C17_foreign_key_to_hypertable demo_env ⟨none, 30⟩ demo_fk_constraint other_ht
      created_state rfl rfl).1⟩

/-! ## C18: a reorganize step that raises -/

/-- A loop whose bodies return up to an element whose body raises: the loop
raises that error after the calls of the elements before it and the calls the
failing body made; no later element is reached. -/
theorem for_each_run_error {β : Type} (body : β → Cmd Effect Unit) (g : β → List Effect)
    (s s1 : PUState) (e : PUError) (o : List Effect) (p : β) (post : List β) :
    ∀ (pre : List β), (∀ x ∈ pre, (body x).run s = ⟨.ok (), s, g x⟩) →
      (body p).run s = ⟨.error e, s1, o⟩ →
      (for_each body (pre ++ p :: post)).run s = ⟨.error e, s1, pre.flatMap g ++ o⟩ := by
  intro pre
  induction pre with
  | nil =>
    intro _ hp
    show (body p >>= fun _ => for_each body post).run s = _
    rw [run_bind_error _ _ s s1 e o hp]
    rfl
  | cons x rest ih =>
    intro h hp
    have hx := h x (List.mem_cons_self x rest)
    have hrest := ih (fun y hy => h y (List.mem_cons_of_mem x hy)) hp
    show (body x >>= fun _ => for_each body (rest ++ p :: post)).run s = _
    rw [run_bind_ok _ _ s s () (g x) hx, hrest]
    simp

theorem cluster_chunk_run_ok (env : Env) (verbose : Bool) (cim : ChunkIndexMapping)
    (s : PUState) (hquiet : ∀ e : Effect, e.is_cluster_rel = false → env.raises e = none)
    (hcr : env.raises (Effect.cluster_rel cim.chunkoid cim.indexoid verbose) = none) :
    (cluster_chunk env verbose cim).run s = ⟨.ok (), s, cluster_chunk_calls verbose cim⟩ := by
  unfold cluster_chunk
  rw [run_bind_ok _ _ s s () [_]
    (run_call_ok env _ s (hquiet Effect.StartTransactionCommand rfl))]
  rw [run_bind_ok _ _ s s () [_] (run_call_ok env _ s (hquiet Effect.PushActiveSnapshot rfl))]
  rw [run_bind_ok _ _ s s () [_] (run_call_ok env _ s
    (hquiet (Effect.chunk_index_mark_clustered cim.chunkoid cim.indexoid) rfl))]
  rw [run_bind_ok _ _ s s () [_] (run_call_ok env _ s hcr)]
  rw [run_bind_ok _ _ s s () [_] (run_call_ok env _ s (hquiet Effect.PopActiveSnapshot rfl))]
  rw [run_call_ok env _ s (hquiet Effect.CommitTransactionCommand rfl)]
  rfl

theorem cluster_chunk_run_fail (env : Env) (verbose : Bool) (cim : ChunkIndexMapping)
    (s : PUState) (code : ErrorCode)
    (hquiet : ∀ e : Effect, e.is_cluster_rel = false → env.raises e = none)
    (hfail : env.raises (Effect.cluster_rel cim.chunkoid cim.indexoid verbose) = some code) :
    (cluster_chunk env verbose cim).run s =
      ⟨.error ⟨code, ErrorSite.in_callee⟩, s,
        [Effect.StartTransactionCommand, Effect.PushActiveSnapshot,
         Effect.chunk_index_mark_clustered cim.chunkoid cim.indexoid,
         Effect.cluster_rel cim.chunkoid cim.indexoid verbose]⟩ := by
  unfold cluster_chunk
  rw [run_bind_ok _ _ s s () [_]
    (run_call_ok env _ s (hquiet Effect.StartTransactionCommand rfl))]
  rw [run_bind_ok _ _ s s () [_] (run_call_ok env _ s (hquiet Effect.PushActiveSnapshot rfl))]
  rw [run_bind_ok _ _ s s () [_] (run_call_ok env _ s
    (hquiet (Effect.chunk_index_mark_clustered cim.chunkoid cim.indexoid) rfl))]
  rw [run_bind_error _ _ s s _ [_] (run_call_raises env _ s code hfail)]
  rfl

/-- C18: `CLUSTER` of a logical table whose owner check passes and whose index
resolves, with the captured (partition, index) pairs `pre ++ p :: post`.  If
`cluster_rel` raises for `p`, returns for the pairs of `pre`, and no other
external call raises, then `process_cluster_start` raises the error of that
call, having made the full group of calls, commit included, for exactly the
pairs of `pre` in order; the raising `cluster_rel` of `p` is the last call
made, `p` is not committed, and no call is made for a pair of `post`. -/
theorem C18_cluster_failure_at_kth (env : Env) (stmt : ClusterStmt)
    (context : ProcessUtilityContext) (rv : RangeVar) (ht : Hypertable) (s : PUState)
    (index_relid : Oid) (pre : List ChunkIndexMapping) (p : ChunkIndexMapping)
    (post : List ChunkIndexMapping) (code : ErrorCode)
    (hrel : stmt.relation = some rv)
    (hht : hypertable_cache_get_entry_rv env rv = some ht)
    (howner : env.pg_class_ownercheck ht.main_table_relid = true)
    (hidx : ((cluster_index_relid env ht stmt).run s).result = .ok index_relid)
    (hvalid : OidIsValid index_relid = true)
    (hpairs : env.chunk_index_get_mappings ht.id index_relid = pre ++ p :: post)
    (hquiet : ∀ e : Effect, e.is_cluster_rel = false → env.raises e = none)
    (hpre : ∀ q ∈ pre, env.raises (Effect.cluster_rel q.chunkoid q.indexoid stmt.verbose) = none)
    (hfail : env.raises (Effect.cluster_rel p.chunkoid p.indexoid stmt.verbose) = some code) :
    (process_cluster_start env stmt context).run s =
      ⟨.error ⟨code, ErrorSite.in_callee⟩, s,
        [Effect.hypertable_cache_pin,
          Effect.PreventTransactionChain
            (decide (context = ProcessUtilityContext.PROCESS_UTILITY_TOPLEVEL)),
          Effect.PopActiveSnapshot, Effect.CommitTransactionCommand] ++
        pre.flatMap (cluster_chunk_calls stmt.verbose) ++
        [Effect.StartTransactionCommand, Effect.PushActiveSnapshot,
          Effect.chunk_index_mark_clustered p.chunkoid p.indexoid,
          Effect.cluster_rel p.chunkoid p.indexoid stmt.verbose]⟩ := by
  have hloop : (for_each (cluster_chunk env stmt.verbose) (pre ++ p :: post)).run s =
      ⟨.error ⟨code, ErrorSite.in_callee⟩, s,
        pre.flatMap (cluster_chunk_calls stmt.verbose) ++
        [Effect.StartTransactionCommand, Effect.PushActiveSnapshot,
          Effect.chunk_index_mark_clustered p.chunkoid p.indexoid,
          Effect.cluster_rel p.chunkoid p.indexoid stmt.verbose]⟩ :=
    for_each_run_error _ _ s s _ _ p post pre
      (fun q hq => cluster_chunk_run_ok env stmt.verbose q s hquiet (hpre q hq))
      (cluster_chunk_run_fail env stmt.verbose p s code hquiet hfail)
  have hchunks : (cluster_chunks env ht stmt index_relid).run s =
      ⟨.error ⟨code, ErrorSite.in_callee⟩, s,
        [Effect.PopActiveSnapshot, Effect.CommitTransactionCommand] ++
        (pre.flatMap (cluster_chunk_calls stmt.verbose) ++
        [Effect.StartTransactionCommand, Effect.PushActiveSnapshot,
          Effect.chunk_index_mark_clustered p.chunkoid p.indexoid,
          Effect.cluster_rel p.chunkoid p.indexoid stmt.verbose])⟩ := by
    unfold cluster_chunks
    rw [hpairs]
    rw [run_bind_ok _ _ s s () [_] (run_call_ok env _ s (hquiet Effect.PopActiveSnapshot rfl))]
    rw [run_bind_ok _ _ s s () [_]
      (run_call_ok env _ s (hquiet Effect.CommitTransactionCommand rfl))]
    rw [run_bind_error _ _ s s _ _ hloop]
    rfl
  rw [process_cluster_start_run env stmt context rv ht s hrel hht howner
    (hquiet (Effect.PreventTransactionChain
      (decide (context = ProcessUtilityContext.PROCESS_UTILITY_TOPLEVEL))) rfl)]
  rw [hidx]
  simp only [hvalid, if_true, hchunks]
  simp

theorem cluster_fail_env_quiet :
    ∀ e : Effect, e.is_cluster_rel = false → cluster_fail_env.raises e = none := by
  intro e h
  cases e <;> first | rfl | simp [Effect.is_cluster_rel] at h

/-- C18 on the demo catalog with three partitions, the reorganize step of the
second raising: partition 11 is reorganized and committed, the `cluster_rel` of
partition 12 is the last call, nothing is done for partition 13, and the error
reaches the caller. -/
theorem C18_cluster_failure_at_kth_witness :
    hypertable_cache_get_entry_rv cluster_fail_env ⟨none, 10⟩ = some demo_ht ∧
    cluster_fail_env.chunk_index_get_mappings demo_ht.id 20 =
      [⟨11, 21⟩] ++ ⟨12, 22⟩ :: [⟨13, 23⟩] ∧
    cluster_fail_env.raises (Effect.cluster_rel 12 22 false) = some (ErrorCode.other 1) ∧
    (process_cluster_start cluster_fail_env demo_cluster
        ProcessUtilityContext.PROCESS_UTILITY_TOPLEVEL).run created_state =
      ⟨.error ⟨ErrorCode.other 1, ErrorSite.in_callee⟩, created_state,
        [Effect.hypertable_cache_pin, Effect.PreventTransactionChain true,
         Effect.PopActiveSnapshot, Effect.CommitTransactionCommand,
         Effect.StartTransactionCommand, Effect.PushActiveSnapshot,
         Effect.chunk_index_mark_clustered 11 21, Effect.cluster_rel 11 21 false,
         Effect.PopActiveSnapshot, Effect.CommitTransactionCommand,
         Effect.StartTransactionCommand, Effect.PushActiveSnapshot,
         Effect.chunk_index_mark_clustered 12 22, Effect.cluster_rel 12 22 false]⟩ :=
  ⟨rfl, rfl, rfl,
    C18_cluster_failure_at_kth cluster_fail_env demo_cluster
      ProcessUtilityContext.PROCESS_UTILITY_TOPLEVEL ⟨none, 10⟩ demo_ht created_state 20
      [⟨11, 21⟩] ⟨12, 22⟩ [⟨13, 23⟩] (ErrorCode.other 1) rfl rfl rfl rfl rfl rfl
      cluster_fail_env_quiet
      (fun q hq => by
        rw [List.mem_singleton] at hq
        rw [hq]
        rfl)
      rfl⟩

/-! ## C19: no index can be resolved -/

/-- C19, counterexample: `CLUSTER` of the logical table of the demo catalog
with the index name omitted, when its one index is not marked clustered.
`process_cluster_start` does not return false: `find_clustered_index` raises
"there is no previously clustered index". -/
theorem C19_omitted_name_raises :
    hypertable_cache_get_entry_rv demo_env ⟨none, 10⟩ = some demo_ht ∧
    demo_cluster_no_name.indexname = none ∧
    demo_env.RelationGetIndexList demo_ht.main_table_relid = [20] ∧
    demo_env.indisclustered 20 = some false ∧
    (process_cluster_start demo_env demo_cluster_no_name
        ProcessUtilityContext.PROCESS_UTILITY_TOPLEVEL).run created_state =
      ⟨.error ⟨ErrorCode.ERRCODE_UNDEFINED_OBJECT, ErrorSite.no_previously_clustered_index⟩,
        created_state, [Effect.hypertable_cache_pin, Effect.PreventTransactionChain true]⟩ :=
  ⟨rfl, rfl, rfl, rfl, rfl⟩

theorem find_clustered_index_loop_none (env : Env) (s : PUState) :
    ∀ l : List Oid, (l.all (fun index_relid => env.indisclustered index_relid == some false))
        = true →
      (find_clustered_index_loop env l).run s = ⟨.ok InvalidOid, s, []⟩ := by
  intro l
  induction l with
  | nil => intro _; rfl
  | cons x rest ih =>
    intro h
    simp only [List.all_cons, Bool.and_eq_true, beq_iff_eq] at h
    unfold find_clustered_index_loop
    rw [h.1]
    exact ih h.2

/-- C19, amended: `CLUSTER` of a logical table, the owner check and the
transaction-block check passing, for which no index can be resolved.  With an
explicit index name that does not exist in the namespace of the table,
`process_cluster_start` raises no error, makes no per-partition call and no
commit, releases its pin and returns false, so that default single-table
handling runs.  With the name omitted and no index of the table marked
clustered it raises the undefined-object error of `find_clustered_index`. -/
theorem C19_unresolvable_index (env : Env) (stmt : ClusterStmt)
    (context : ProcessUtilityContext) (rv : RangeVar) (ht : Hypertable) (s : PUState)
    (hrel : stmt.relation = some rv)
    (hht : hypertable_cache_get_entry_rv env rv = some ht)
    (howner : env.pg_class_ownercheck ht.main_table_relid = true)
    (hptc : env.raises (Effect.PreventTransactionChain
      (decide (context = ProcessUtilityContext.PROCESS_UTILITY_TOPLEVEL))) = none)
    (hunres : cluster_index_unresolvable env ht stmt = true) :
    (process_cluster_start env stmt context).run s =
      if stmt.indexname.isSome then
        ⟨.ok false, s, [Effect.hypertable_cache_pin,
          Effect.PreventTransactionChain
            (decide (context = ProcessUtilityContext.PROCESS_UTILITY_TOPLEVEL)),
          Effect.cache_release]⟩
      else
        ⟨.error ⟨ErrorCode.ERRCODE_UNDEFINED_OBJECT, ErrorSite.no_previously_clustered_index⟩,
          s, [Effect.hypertable_cache_pin,
          Effect.PreventTransactionChain
            (decide (context = ProcessUtilityContext.PROCESS_UTILITY_TOPLEVEL))]⟩ := by
  rw [process_cluster_start_run env stmt context rv ht s hrel hht howner hptc]
  unfold cluster_index_unresolvable at hunres
  unfold cluster_index_relid
  cases hname : stmt.indexname with
  | some indexname =>
    rw [hname] at hunres
    simp only [Bool.not_eq_true'] at hunres
    simp only [run_pure, hunres, Bool.false_eq_true, if_false, Option.isSome_some, if_true]
  | none =>
    rw [hname] at hunres
    simp only [] at hunres
    have hloop := find_clustered_index_loop_none env s _ hunres
    have hfind : (find_clustered_index env ht.main_table_relid).run s =
        ⟨.error ⟨ErrorCode.ERRCODE_UNDEFINED_OBJECT,
          ErrorSite.no_previously_clustered_index⟩, s, []⟩ := by
      unfold find_clustered_index
      rw [run_bind_ok _ _ s s InvalidOid [] hloop]
      rfl
    simp only [hfind, Option.isSome_none, Bool.false_eq_true, if_false]

/-- C19, amended, on the demo catalog: an index name that does not exist, and
the omitted name. -/
theorem C19_unresolvable_index_witness :
    hypertable_cache_get_entry_rv demo_env ⟨none, 10⟩ = some demo_ht ∧
    cluster_index_unresolvable demo_env demo_ht demo_cluster_bad_name = true ∧
    (process_cluster_start demo_env demo_cluster_bad_name
        ProcessUtilityContext.PROCESS_UTILITY_TOPLEVEL).run created_state =
      ⟨.ok false, created_state, [Effect.hypertable_cache_pin,
        Effect.PreventTransactionChain true, Effect.cache_release]⟩ ∧
    cluster_index_unresolvable demo_env demo_ht demo_cluster_no_name = true ∧
    (process_cluster_start demo_env demo_cluster_no_name
        ProcessUtilityContext.PROCESS_UTILITY_TOPLEVEL).run created_state =
      ⟨.error ⟨ErrorCode.ERRCODE_UNDEFINED_OBJECT, ErrorSite.no_previously_clustered_index⟩,
        created_state, [Effect.hypertable_cache_pin, Effect.PreventTransactionChain true]⟩ :=
  ⟨rfl, rfl,
    C19_unresolvable_index demo_env demo_cluster_bad_name
      ProcessUtilityContext.PROCESS_UTILITY_TOPLEVEL ⟨none, 10⟩ demo_ht created_state
      rfl rfl rfl rfl rfl,
    rfl,
    C19_unresolvable_index demo_env demo_cluster_no_name
      ProcessUtilityContext.PROCESS_UTILITY_TOPLEVEL ⟨none, 10⟩ demo_ht created_state
      rfl rfl rfl rfl rfl⟩

/-! ## C20: the flag `expect_chunk_modification` -/

/-- C20, counterexample: `process_alter_column_type_end` for a column that is
not a partitioning column, entered with the flag true.  It returns normally
through `if (NULL == dim) return;` and the flag is still true. -/
theorem C20_flag_survives_alter_column_type_end :
    expecting_state.expect_chunk_modification = true ∧
    hyperspace_get_dimension_by_name demo_ht 102 = none ∧
    (process_alter_column_type_end demo_env demo_ht demo_alter_type_cmd).run expecting_state =
      ⟨.ok (), expecting_state, []⟩ ∧
    ((process_alter_column_type_end demo_env demo_ht demo_alter_type_cmd).run
      expecting_state).state.expect_chunk_modification = true :=
  ⟨rfl, rfl, rfl, rfl⟩

theorem run_set_expect_chunk_modification {ω : Type} (expect : Bool) (s : PUState) :
    (process_utility_set_expect_chunk_modification expect : Cmd ω Unit).run s =
      ⟨.ok (), { s with expect_chunk_modification := expect }, []⟩ := rfl

/-- The run of `process_altertable_change_owner`: the flag is true while
`process_change_hypertable_owner` runs and when it raises, and false on
return. -/
theorem process_altertable_change_owner_run (env : Env) (ht : Hypertable) (cmd : AlterTableCmd)
    (rolename : Ident) (s : PUState) (hrole : cmd.newowner = some rolename) :
    (process_altertable_change_owner env ht cmd).run s =
      match env.raises (Effect.process_change_hypertable_owner ht.main_table_relid rolename) with
      | some code =>
        ⟨.error ⟨code, ErrorSite.in_callee⟩, { s with expect_chunk_modification := true },
          [Effect.process_change_hypertable_owner ht.main_table_relid rolename]⟩
      | none =>
        ⟨.ok (), { s with expect_chunk_modification := false },
          [Effect.process_change_hypertable_owner ht.main_table_relid rolename]⟩ := by
  unfold process_altertable_change_owner
  simp only [hrole]
  rw [run_bind_ok _ _ s _ () [] (run_set_expect_chunk_modification true s)]
  cases hr : env.raises (Effect.process_change_hypertable_owner ht.main_table_relid rolename) with
  | some code =>
    rw [run_bind_error _ _ _ _ _ _ (run_call_raises env _ _ code hr)]
    rfl
  | none =>
    rw [run_bind_ok _ _ _ _ () _ (run_call_ok env _ _ hr)]
    rfl

/-- The run of `process_alter_column_type_end` for a partitioning column. -/
theorem process_alter_column_type_end_run (env : Env) (ht : Hypertable) (cmd : AlterTableCmd)
    (coldef : ColumnDef) (name : Ident) (dim : Dimension) (s : PUState)
    (hdef : cmd.def_ = AlterTableDef.T_ColumnDef coldef) (hname : cmd.name = some name)
    (hdim : hyperspace_get_dimension_by_name ht name = some dim) :
    (process_alter_column_type_end env ht cmd).run s =
      match env.raises (Effect.dimension_update_type dim.id
          (env.TypenameGetTypid coldef.typeName)) with
      | some code =>
        ⟨.error ⟨code, ErrorSite.in_callee⟩, s,
          [Effect.dimension_update_type dim.id (env.TypenameGetTypid coldef.typeName)]⟩
      | none =>
        match env.raises (Effect.chunk_recreate_all_constraints_for_dimension dim.id) with
        | some code =>
          ⟨.error ⟨code, ErrorSite.in_callee⟩, { s with expect_chunk_modification := true },
            [Effect.dimension_update_type dim.id (env.TypenameGetTypid coldef.typeName),
             Effect.chunk_recreate_all_constraints_for_dimension dim.id]⟩
        | none =>
          ⟨.ok (), { s with expect_chunk_modification := false },
            [Effect.dimension_update_type dim.id (env.TypenameGetTypid coldef.typeName),
             Effect.chunk_recreate_all_constraints_for_dimension dim.id]⟩ := by
  unfold process_alter_column_type_end
  simp only [hdef, hname, hdim]
  cases hr1 : env.raises (Effect.dimension_update_type dim.id
      (env.TypenameGetTypid coldef.typeName)) with
  | some code =>
    rw [run_bind_error _ _ _ _ _ _ (run_call_raises env _ _ code hr1)]
  | none =>
    rw [run_bind_ok _ _ _ _ () _ (run_call_ok env _ _ hr1)]
    rw [run_bind_ok _ _ s _ () [] (run_set_expect_chunk_modification true s)]
    cases hr2 : env.raises (Effect.chunk_recreate_all_constraints_for_dimension dim.id) with
    | some code =>
      rw [run_bind_error _ _ _ _ _ _ (run_call_raises env _ _ code hr2)]
      rfl
    | none =>
      rw [run_bind_ok _ _ _ _ () _ (run_call_ok env _ _ hr2)]
      rfl

/-- C20, amended: `process_altertable_change_owner` has the flag false after
every normal return; `process_alter_column_type_end` has it false after a
normal return when the column is a partitioning column, and returns with the
flag as it found it (false if it was false) when the column is not a
partitioning column; `process_utility_AtEOXact_abort` sets the flag false on
`XACT_EVENT_ABORT` and `XACT_EVENT_PARALLEL_ABORT` and leaves the state
unchanged on every other event; `check_chunk_operation_allowed` raises exactly
when the flag is false and the relation is a chunk. -/
theorem C20_expect_chunk_modification (env : Env) (ht : Hypertable) (cmd : AlterTableCmd)
    (s s1 : PUState) (out : List Effect) :
    ((process_altertable_change_owner env ht cmd).run s = ⟨.ok (), s1, out⟩ →
      s1.expect_chunk_modification = false) ∧
    ((process_alter_column_type_end env ht cmd).run s = ⟨.ok (), s1, out⟩ →
      s1.expect_chunk_modification =
        if (cmd.name.bind (hyperspace_get_dimension_by_name ht)).isSome then false
        else s.expect_chunk_modification) ∧
    (∀ event : XactEvent, (process_utility_AtEOXact_abort event : Cmd Effect Unit).run s =
      ⟨.ok (),
        if event = XactEvent.XACT_EVENT_ABORT ∨ event = XactEvent.XACT_EVENT_PARALLEL_ABORT
        then { s with expect_chunk_modification := false } else s,
        []⟩) ∧
    (∀ relid : Oid, (check_chunk_operation_allowed env relid).run s =
      if s.expect_chunk_modification = false ∧ env.chunk_exists_relid relid = true then
        ⟨.error ⟨ErrorCode.ERRCODE_FEATURE_NOT_SUPPORTED,
          ErrorSite.chunk_operation_not_supported⟩, s, []⟩
      else ⟨.ok (), s, []⟩) := by
  refine ⟨?_, ?_, ?_, ?_⟩
  · intro h
    cases hn : cmd.newowner with
    | none =>
      simp only [process_altertable_change_owner, hn] at h
      simp at h
    | some rolename =>
      rw [process_altertable_change_owner_run env ht cmd rolename s hn] at h
      cases hr : env.raises
          (Effect.process_change_hypertable_owner ht.main_table_relid rolename) with
      | some code => rw [hr] at h; simp at h
      | none =>
        rw [hr] at h
        simp only [Run.mk.injEq] at h
        rw [← h.2.1]
  · intro h
    cases hname : cmd.name with
    | none =>
      cases hdef : cmd.def_ <;>
        simp [process_alter_column_type_end, hname, hdef] at h
    | some name =>
      cases hdef : cmd.def_ with
      | T_ColumnDef coldef =>
        cases hdim : hyperspace_get_dimension_by_name ht name with
        | none =>
          simp only [process_alter_column_type_end, hname, hdef, hdim, run_pure,
            Run.mk.injEq] at h
          simp [hdim, ← h.2.1]
        | some dim =>
          rw [process_alter_column_type_end_run env ht cmd coldef name dim s hdef hname hdim]
            at h
          cases hr1 : env.raises (Effect.dimension_update_type dim.id
              (env.TypenameGetTypid coldef.typeName)) with
          | some code => rw [hr1] at h; simp at h
          | none =>
            rw [hr1] at h
            cases hr2 : env.raises
                (Effect.chunk_recreate_all_constraints_for_dimension dim.id) with
            | some code => rw [hr2] at h; simp at h
            | none =>
              rw [hr2] at h
              simp only [Run.mk.injEq] at h
              simp [hdim, ← h.2.1]
      | NULL => simp [process_alter_column_type_end, hname, hdef] at h
      | T_IndexStmt _ => simp [process_alter_column_type_end, hname, hdef] at h
      | T_Constraint _ => simp [process_alter_column_type_end, hname, hdef] at h
      | T_PartitionCmd _ => simp [process_alter_column_type_end, hname, hdef] at h
  · intro event
    cases event <;> simp [process_utility_AtEOXact_abort, run_set_expect_chunk_modification]
  · intro relid
    unfold check_chunk_operation_allowed
    rw [run_bind_ok _ _ s s s [] rfl]
    cases hf : s.expect_chunk_modification <;> cases hc : env.chunk_exists_relid relid <;>
      simp

/-- C20, amended, on the demo catalog: a change of owner and a change of the
type of the partitioning column 100, both entered with the flag true, return
with the flag false. -/
theorem C20_expect_chunk_modification_witness :
    (process_altertable_change_owner demo_env demo_ht demo_change_owner_cmd).run
        expecting_state =
      ⟨.ok (), created_state, [Effect.process_change_hypertable_owner 10 8]⟩ ∧
    (process_alter_column_type_end demo_env demo_ht demo_alter_dimension_type_cmd).run
        expecting_state =
      ⟨.ok (), created_state, [Effect.dimension_update_type 1 7,
        Effect.chunk_recreate_all_constraints_for_dimension 1]⟩ ∧
    created_state.expect_chunk_modification = false ∧
    created_state.expect_chunk_modification =
      (if (demo_alter_dimension_type_cmd.name.bind
          (hyperspace_get_dimension_by_name demo_ht)).isSome then false
       else expecting_state.expect_chunk_modification) :=
  ⟨rfl, rfl,
    (C20_expect_chunk_modification demo_env demo_ht demo_change_owner_cmd expecting_state
      created_state [Effect.process_change_hypertable_owner 10 8]).1 rfl,
    (C20_expect_chunk_modification demo_env demo_ht demo_alter_dimension_type_cmd
      expecting_state created_state [Effect.dimension_update_type 1 7,
        Effect.chunk_recreate_all_constraints_for_dimension 1]).2.1 rfl⟩

/-! ## C21: the unit-of-work events of the reorganizer -/

theorem unit_of_work_events_cluster_chunk_calls (verbose : Bool) :
    ∀ l : List ChunkIndexMapping,
      unit_of_work_events (l.flatMap (cluster_chunk_calls verbose)) =
        l.flatMap (cluster_pair_events verbose) := by
  intro l
  induction l with
  | nil => rfl
  | cons p rest ih =>
    unfold unit_of_work_events at ih ⊢
    rw [List.flatMap_cons, List.flatMap_cons, List.filter_append, ih]
    rfl

theorem count_commit_cluster_chunk_calls (verbose : Bool) :
    ∀ l : List ChunkIndexMapping,
      (l.flatMap (cluster_chunk_calls verbose)).count Effect.CommitTransactionCommand =
        l.length := by
  intro l
  induction l with
  | nil => rfl
  | cons p rest ih =>
    rw [List.flatMap_cons, List.count_append, ih]
    simp [cluster_chunk_calls, List.count_cons]
    omega

theorem count_start_cluster_chunk_calls (verbose : Bool) :
    ∀ l : List ChunkIndexMapping,
      (l.flatMap (cluster_chunk_calls verbose)).count Effect.StartTransactionCommand =
        l.length := by
  intro l
  induction l with
  | nil => rfl
  | cons p rest ih =>
    rw [List.flatMap_cons, List.count_append, ih]
    simp [cluster_chunk_calls, List.count_cons]
    omega

theorem transaction_open_append (before : Bool) (l1 l2 : List Effect) :
    transaction_open before (l1 ++ l2) = transaction_open (transaction_open before l1) l2 := by
  unfold transaction_open
  rw [List.foldl_append]

theorem transaction_open_cluster_chunk_calls (verbose : Bool) :
    ∀ l : List ChunkIndexMapping,
      transaction_open false (l.flatMap (cluster_chunk_calls verbose)) = false := by
  intro l
  induction l with
  | nil => rfl
  | cons p rest ih =>
    rw [List.flatMap_cons, transaction_open_append]
    have hp : transaction_open false (cluster_chunk_calls verbose p) = false := rfl
    rw [hp, ih]

theorem cluster_chunks_run_ok (env : Env) (ht : Hypertable) (stmt : ClusterStmt)
    (index_relid : Oid) (s : PUState) (hraises : ∀ e, env.raises e = none) :
    (cluster_chunks env ht stmt index_relid).run s =
      ⟨.ok (), s, [Effect.PopActiveSnapshot, Effect.CommitTransactionCommand] ++
        (env.chunk_index_get_mappings ht.id index_relid).flatMap
          (cluster_chunk_calls stmt.verbose) ++
        [Effect.StartTransactionCommand, Effect.MemoryContextDelete]⟩ := by
  have hloop : (for_each (cluster_chunk env stmt.verbose)
      (env.chunk_index_get_mappings ht.id index_relid)).run s =
      ⟨.ok (), s, (env.chunk_index_get_mappings ht.id index_relid).flatMap
        (cluster_chunk_calls stmt.verbose)⟩ :=
    for_each_run_ok _ _ s _
      (fun q _ => cluster_chunk_run_ok env stmt.verbose q s (fun e _ => hraises e) (hraises _))
  unfold cluster_chunks
  rw [run_bind_ok _ _ s s () [_] (run_call_ok env _ s (hraises Effect.PopActiveSnapshot))]
  rw [run_bind_ok _ _ s s () [_]
    (run_call_ok env _ s (hraises Effect.CommitTransactionCommand))]
  rw [run_bind_ok _ _ s s () _ hloop]
  rw [run_bind_ok _ _ s s () [_]
    (run_call_ok env _ s (hraises Effect.StartTransactionCommand))]
  rw [run_call_ok env _ s (hraises Effect.MemoryContextDelete)]
  simp

/-- C21: `CLUSTER` of a logical table for which an index is resolved, with the
captured (partition, index) pairs `chunk_index_get_mappings`.  Every run of
`process_cluster_start` that returns has made exactly these unit-of-work
calls, in this order: one `CommitTransactionCommand` (of the caller's
transaction), then for each pair in captured order `StartTransactionCommand`,
`chunk_index_mark_clustered`, `cluster_rel`, `CommitTransactionCommand`, then
one final `StartTransactionCommand`; the counts of commits and of starts are
both the number of pairs plus one, and a transaction is open on return.  When
the owner check passes and no external call raises, the run does return. -/
theorem C21_cluster_unit_of_work_events (env : Env) (stmt : ClusterStmt)
    (context : ProcessUtilityContext) (rv : RangeVar) (ht : Hypertable) (s : PUState)
    (index_relid : Oid)
    (hrel : stmt.relation = some rv)
    (hht : hypertable_cache_get_entry_rv env rv = some ht)
    (hidx : ((cluster_index_relid env ht stmt).run s).result = .ok index_relid)
    (hvalid : OidIsValid index_relid = true) :
    (∀ (handled : Bool) (s1 : PUState) (out : List Effect),
      (process_cluster_start env stmt context).run s = ⟨.ok handled, s1, out⟩ →
      unit_of_work_events out =
        [Effect.CommitTransactionCommand] ++
        (env.chunk_index_get_mappings ht.id index_relid).flatMap
          (cluster_pair_events stmt.verbose) ++
        [Effect.StartTransactionCommand] ∧
      out.count Effect.CommitTransactionCommand =
        (env.chunk_index_get_mappings ht.id index_relid).length + 1 ∧
      out.count Effect.StartTransactionCommand =
        (env.chunk_index_get_mappings ht.id index_relid).length + 1 ∧
      transaction_open true out = true) ∧
    (env.pg_class_ownercheck ht.main_table_relid = true → (∀ e, env.raises e = none) →
      ∃ out, (process_cluster_start env stmt context).run s = ⟨.ok false, s, out⟩) := by
  constructor
  · intro handled s1 out h
    obtain ⟨_, _, hout⟩ :=
      process_cluster_start_ok_inv env stmt context rv ht s s1 handled out hrel hht h
    have ho := hout index_relid hidx hvalid
    subst ho
    refine ⟨?_, ?_, ?_, ?_⟩
    · unfold unit_of_work_events
      rw [List.filter_append, List.filter_append]
      have hmid := unit_of_work_events_cluster_chunk_calls stmt.verbose
        (env.chunk_index_get_mappings ht.id index_relid)
      unfold unit_of_work_events at hmid
      rw [hmid]
      rfl
    · rw [List.count_append, List.count_append, count_commit_cluster_chunk_calls]
      simp [List.count_cons]
      omega
    · rw [List.count_append, List.count_append, count_start_cluster_chunk_calls]
      simp [List.count_cons]
    · rw [transaction_open_append, transaction_open_append]
      have h1 : transaction_open true [Effect.hypertable_cache_pin,
          Effect.PreventTransactionChain
            (decide (context = ProcessUtilityContext.PROCESS_UTILITY_TOPLEVEL)),
          Effect.PopActiveSnapshot, Effect.CommitTransactionCommand] = false := rfl
      rw [h1, transaction_open_cluster_chunk_calls]
      rfl
  · intro howner hraises
    rw [process_cluster_start_run env stmt context rv ht s hrel hht howner (hraises _), hidx]
    simp only [hvalid, if_true, cluster_chunks_run_ok env ht stmt index_relid s hraises]
    exact ⟨_, rfl⟩

/-- C21 on the demo catalog: `CLUSTER` of the logical table on index 20, with
three captured pairs, returns after four commits and four starts. -/
theorem C21_cluster_unit_of_work_events_witness :
    hypertable_cache_get_entry_rv demo_env ⟨none, 10⟩ = some demo_ht ∧
    ((cluster_index_relid demo_env demo_ht demo_cluster).run created_state).result = .ok 20 ∧
    ((process_cluster_start demo_env demo_cluster
        ProcessUtilityContext.PROCESS_UTILITY_TOPLEVEL).run created_state).result = .ok false ∧
    (unit_of_work_events ((process_cluster_start demo_env demo_cluster
        ProcessUtilityContext.PROCESS_UTILITY_TOPLEVEL).run created_state).emitted =
      [Effect.CommitTransactionCommand] ++
        [⟨11, 21⟩, ⟨12, 22⟩, ⟨13, 23⟩].flatMap (cluster_pair_events false) ++
        [Effect.StartTransactionCommand] ∧
     ((process_cluster_start demo_env demo_cluster
        ProcessUtilityContext.PROCESS_UTILITY_TOPLEVEL).run created_state).emitted.count
        Effect.CommitTransactionCommand = 3 + 1 ∧
     ((process_cluster_start demo_env demo_cluster
        ProcessUtilityContext.PROCESS_UTILITY_TOPLEVEL).run created_state).emitted.count
        Effect.StartTransactionCommand = 3 + 1 ∧
     transaction_open true ((process_cluster_start demo_env demo_cluster
        ProcessUtilityContext.PROCESS_UTILITY_TOPLEVEL).run created_state).emitted = true) :=
  ⟨rfl, rfl, rfl,
    (C21_cluster_unit_of_work_events demo_env demo_cluster
      ProcessUtilityContext.PROCESS_UTILITY_TOPLEVEL ⟨none, 10⟩ demo_ht created_state 20
      rfl rfl rfl rfl).1 false created_state _ rfl⟩

/-! ## C24: `foreach_chunk` -/

/-- A loop over bodies that all return: the bodies run once each, in list
order, each in the state the one before left. -/
theorem for_each_run_steps {β : Type} (body : β → Cmd Effect Unit)
    (step : β → PUState → PUState) (g : β → List Effect) :
    ∀ (l : List β) (s : PUState),
      (∀ x ∈ l, ∀ s1, (body x).run s1 = ⟨.ok (), step x s1, g x⟩) →
      (for_each body l).run s =
        ⟨.ok (), l.foldl (fun st x => step x st) s, l.flatMap g⟩ := by
  intro l
  induction l with
  | nil => intro s _; rfl
  | cons x rest ih =>
    intro s h
    have hx := h x (List.mem_cons_self x rest) s
    have hrest := ih (step x s) (fun y hy => h y (List.mem_cons_of_mem x hy))
    show (body x >>= fun _ => for_each body rest).run s = _
    rw [run_bind_ok _ _ s (step x s) () (g x) hx, hrest]
    simp

/-- C24: `foreach_chunk` with a `NULL` hypertable returns -1 without invoking
the callback, and a run that returns has returned -1 only in that case.  For a
logical table a run that returns has returned the number of partitions listed
by `find_inheritance_children`; when the callback returns for every partition,
making the calls `g x` and changing the state by `step x`, the run returns that
number after the calls of all partitions in enumeration order, one invocation
each; with zero partitions it returns 0 without invoking the callback (not
even a callback that would raise). -/
theorem C24_foreach_chunk (env : Env) (process_chunk : Hypertable → Oid → Cmd Effect Unit)
    (s : PUState) :
    (foreach_chunk env none process_chunk).run s = ⟨.ok (-1), s, []⟩ ∧
    (∀ (ht : Option Hypertable) (n : Int) (s1 : PUState) (out : List Effect),
      (foreach_chunk env ht process_chunk).run s = ⟨.ok n, s1, out⟩ →
      (n = -1 ↔ ht = none) ∧
      ∀ h ∈ ht, n = ((env.find_inheritance_children h.main_table_relid).length : Int)) ∧
    (∀ (ht : Hypertable) (step : Oid → PUState → PUState) (g : Oid → List Effect),
      (∀ x ∈ env.find_inheritance_children ht.main_table_relid, ∀ s1,
        (process_chunk ht x).run s1 = ⟨.ok (), step x s1, g x⟩) →
      (foreach_chunk env (some ht) process_chunk).run s =
        ⟨.ok ((env.find_inheritance_children ht.main_table_relid).length : Int),
          (env.find_inheritance_children ht.main_table_relid).foldl (fun st x => step x st) s,
          (env.find_inheritance_children ht.main_table_relid).flatMap g⟩) ∧
    (∀ ht : Hypertable, env.find_inheritance_children ht.main_table_relid = [] →
      (foreach_chunk env (some ht) process_chunk).run s = ⟨.ok 0, s, []⟩) := by
  refine ⟨rfl, ?_, ?_, ?_⟩
  · intro ht n s1 out h
    cases ht with
    | none =>
      obtain ⟨hn, _, _⟩ := run_pure_ok_inv _ _ _ _ _ h
      refine ⟨⟨fun _ => rfl, fun _ => hn⟩, ?_⟩
      intro h0 hmem
      cases hmem
    | some ht =>
      unfold foreach_chunk at h
      obtain ⟨u, sa, o1, o2, _, hret, _⟩ := run_bind_ok_inv _ _ _ _ _ _ h
      obtain ⟨hn, _, _⟩ := run_pure_ok_inv _ _ _ _ _ hret
      refine ⟨⟨fun hneg => ?_, fun hnone => by cases hnone⟩, ?_⟩
      · exfalso
        rw [hn] at hneg
        omega
      · intro h0 hmem
        cases hmem
        exact hn
  · intro ht step g hbody
    unfold foreach_chunk
    rw [run_bind_ok _ _ s _ () _ (for_each_run_steps _ step g _ s hbody)]
    simp
  · intro ht hnil
    unfold foreach_chunk
    simp only [hnil]
    rfl

/-- C24 on the demo catalog, with a callback that makes one recognisable call
per partition: the three partitions are visited once each, in order. -/
theorem C24_foreach_chunk_witness :
    (foreach_chunk demo_env (some demo_ht)
        (fun _ x => emit (Effect.chunk_delete_by_relid x))).run created_state =
      ⟨.ok 3, created_state,
        [Effect.chunk_delete_by_relid 11, Effect.chunk_delete_by_relid 12,
         Effect.chunk_delete_by_relid 13]⟩ ∧
    (foreach_chunk demo_env none
        (fun _ x => emit (Effect.chunk_delete_by_relid x))).run created_state =
      ⟨.ok (-1), created_state, []⟩ :=
  ⟨(C24_foreach_chunk demo_env (fun _ x => emit (Effect.chunk_delete_by_relid x))
      created_state).2.2.1 demo_ht (fun _ st => st) (fun x => [Effect.chunk_delete_by_relid x])
      (fun _ _ _ => rfl),
    (C24_foreach_chunk demo_env (fun _ x => emit (Effect.chunk_delete_by_relid x))
      created_state).1⟩

/-! ## C25 and C26: the extension state -/

/-- The run of the state refresh `extension_update_state` in closed form. -/
theorem extension_update_state_run (env : Env) (s : PUState) :
    (extension_update_state env).run s =
      if env.extension_current_state = s.extstate then ⟨.ok false, s, []⟩
      else
        match env.extension_current_state with
        | ExtensionState.EXTENSION_STATE_CREATED =>
          if env.version_check_possible && !env.sql_version_matches then
            ⟨.error ⟨ErrorCode.ERRCODE_FEATURE_NOT_SUPPORTED, ErrorSite.mismatched_version⟩,
              s, []⟩
          else
            match env.extension_proxy_table with
            | none => ⟨.error ⟨ErrorCode.ERRCODE_UNDEFINED_OBJECT, ErrorSite.in_callee⟩, s, []⟩
            | some oid =>
              ⟨.ok true,
                { s with extension_proxy_oid := oid,
                         extstate := ExtensionState.EXTENSION_STATE_CREATED },
                [Effect.catalog_reset]⟩
        | ExtensionState.EXTENSION_STATE_NOT_INSTALLED =>
          ⟨.ok true,
            { s with extension_proxy_oid := InvalidOid,
                     extstate := ExtensionState.EXTENSION_STATE_NOT_INSTALLED },
            [Effect.catalog_reset]⟩
        | st => ⟨.ok true, { s with extstate := st }, []⟩ := by
  unfold extension_update_state extension_set_state
  rw [run_bind_ok _ _ s s s [] rfl]
  by_cases hsame : env.extension_current_state = s.extstate
  · simp only [hsame, if_true]
    rfl
  · simp only [hsame, if_false]
    cases hcur : env.extension_current_state <;>
      cases hv : env.version_check_possible <;> cases hm : env.sql_version_matches <;>
        cases hp : env.extension_proxy_table <;>
          simp [hcur, hv, hm, hp, run_bind, extension_check_version]

/-- The run of `extension_is_loaded` in terms of the state refresh. -/
theorem extension_is_loaded_run (env : Env) (s : PUState) :
    (extension_is_loaded env).run s =
      if env.guc_restoring then ⟨.ok false, s, []⟩
      else if s.extstate = ExtensionState.EXTENSION_STATE_UNKNOWN ∨
          s.extstate = ExtensionState.EXTENSION_STATE_TRANSITIONING then
        match (extension_update_state env).run s with
        | ⟨.error e, s1, o⟩ => ⟨.error e, s1, o⟩
        | ⟨.ok _, s1, o⟩ =>
          ⟨.ok (decide (s1.extstate = ExtensionState.EXTENSION_STATE_CREATED)), s1, o⟩
      else ⟨.ok (decide (s.extstate = ExtensionState.EXTENSION_STATE_CREATED)), s, []⟩ := by
  unfold extension_is_loaded
  cases hg : env.guc_restoring with
  | true => rfl
  | false =>
    simp only [Bool.false_eq_true, if_false]
    rw [run_bind_ok _ _ s s s [] rfl]
    rcases hr : (extension_update_state env).run s with ⟨r, s1, o⟩
    cases hs : s.extstate <;> cases r <;> cases hs1 : s1.extstate <;>
      simp [hs, hr, hs1, run_bind]

/-- A refresh that returns has set the state to `extension_current_state()`. -/
theorem extension_update_state_ok_inv (env : Env) (s s1 : PUState) (changed : Bool)
    (o : List Effect) (h : (extension_update_state env).run s = ⟨.ok changed, s1, o⟩) :
    s1.extstate = env.extension_current_state := by
  rw [extension_update_state_run] at h
  cases hs : s.extstate <;> cases hcur : env.extension_current_state <;>
    cases hv : env.version_check_possible <;> cases hm : env.sql_version_matches <;>
      cases hp : env.extension_proxy_table <;>
        simp [hs, hcur, hv, hm, hp] at h <;>
          simp [← h.2.1, hs]

/-- The refresh returns unless the new state is CREATED and the version check
or the lookup of the cache schema raises. -/
theorem extension_update_state_returns (env : Env) (s : PUState)
    (h : env.extension_current_state ≠ ExtensionState.EXTENSION_STATE_CREATED ∨
      ((env.version_check_possible = false ∨ env.sql_version_matches = true) ∧
        env.extension_proxy_table.isSome = true)) :
    ∃ changed s1 o, (extension_update_state env).run s = ⟨.ok changed, s1, o⟩ := by
  rw [extension_update_state_run]
  cases hs : s.extstate <;> cases hcur : env.extension_current_state <;>
    cases hv : env.version_check_possible <;> cases hm : env.sql_version_matches <;>
      cases hp : env.extension_proxy_table <;>
        simp [hs, hcur, hv, hm, hp] at h ⊢

/-- C25: `extension_is_loaded` returns true exactly when `guc_restoring` is
false and the state it leaves is CREATED.  With `guc_restoring` true it returns
false, leaving the state alone and making no call.  A state NOT_INSTALLED or
CREATED on entry is not refreshed: the state is left alone, no call is made,
and the value is true exactly for CREATED with `guc_restoring` false.  With
`guc_restoring` false and the state UNKNOWN or TRANSITIONING on entry, the
state is refreshed by `extension_update_state` and the value is whether the
refreshed state is CREATED; the call then returns, with the state
`extension_current_state()`, unless that state is CREATED and the version check
or the lookup of the cache schema raises. -/
theorem C25_extension_is_loaded (env : Env) (s : PUState) :
    (((extension_is_loaded env).run s).result = .ok true ↔
      env.guc_restoring = false ∧
      ((extension_is_loaded env).run s).state.extstate =
        ExtensionState.EXTENSION_STATE_CREATED) ∧
    (env.guc_restoring = true → (extension_is_loaded env).run s = ⟨.ok false, s, []⟩) ∧
    (s.extstate = ExtensionState.EXTENSION_STATE_NOT_INSTALLED ∨
        s.extstate = ExtensionState.EXTENSION_STATE_CREATED →
      (extension_is_loaded env).run s =
        ⟨.ok (!env.guc_restoring &&
          decide (s.extstate = ExtensionState.EXTENSION_STATE_CREATED)), s, []⟩) ∧
    (env.guc_restoring = false →
      s.extstate = ExtensionState.EXTENSION_STATE_UNKNOWN ∨
        s.extstate = ExtensionState.EXTENSION_STATE_TRANSITIONING →
      (extension_is_loaded env).run s =
        match (extension_update_state env).run s with
        | ⟨.error e, s1, o⟩ => ⟨.error e, s1, o⟩
        | ⟨.ok _, s1, o⟩ =>
          ⟨.ok (decide (s1.extstate = ExtensionState.EXTENSION_STATE_CREATED)), s1, o⟩) ∧
    (env.guc_restoring = false →
      s.extstate = ExtensionState.EXTENSION_STATE_UNKNOWN ∨
        s.extstate = ExtensionState.EXTENSION_STATE_TRANSITIONING →
      env.extension_current_state ≠ ExtensionState.EXTENSION_STATE_CREATED ∨
        ((env.version_check_possible = false ∨ env.sql_version_matches = true) ∧
          env.extension_proxy_table.isSome = true) →
      ∃ s1 o, (extension_is_loaded env).run s =
        ⟨.ok (decide (env.extension_current_state = ExtensionState.EXTENSION_STATE_CREATED)),
          s1, o⟩ ∧
        s1.extstate = env.extension_current_state) := by
  refine ⟨?_, ?_, ?_, ?_, ?_⟩
  · rw [extension_is_loaded_run, extension_update_state_run]
    cases hg : env.guc_restoring <;> cases hs : s.extstate <;>
      cases hcur : env.extension_current_state <;>
        cases hv : env.version_check_possible <;> cases hm : env.sql_version_matches <;>
          cases hp : env.extension_proxy_table <;>
            simp [hs]
  · intro hg
    rw [extension_is_loaded_run, hg]
    rfl
  · intro hs
    rw [extension_is_loaded_run]
    cases hg : env.guc_restoring <;> rcases hs with hs | hs <;> simp [hs]
  · intro hg hs
    rw [extension_is_loaded_run, hg]
    simp only [Bool.false_eq_true, if_false, hs, if_true]
  · intro hg hs hret
    obtain ⟨changed, s1, o, hr⟩ := extension_update_state_returns env s hret
    have hcur := extension_update_state_ok_inv env s s1 changed o hr
    refine ⟨s1, o, ?_, hcur⟩
    rw [extension_is_loaded_run, hg]
    simp only [Bool.false_eq_true, if_false, hs, if_true, hr, hcur]

/-- C25 on the demo catalog: from the state UNKNOWN the first call refreshes to
CREATED and returns true; while restoring, the call returns false and leaves
the state UNKNOWN. -/
theorem C25_extension_is_loaded_witness :
    ((extension_is_loaded demo_env).run
        { created_state with extstate := ExtensionState.EXTENSION_STATE_UNKNOWN,
                             extension_proxy_oid := InvalidOid }).result = .ok true ∧
    (demo_env.guc_restoring = false ∧
      ((extension_is_loaded demo_env).run
        { created_state with extstate := ExtensionState.EXTENSION_STATE_UNKNOWN,
                             extension_proxy_oid := InvalidOid }).state.extstate =
        ExtensionState.EXTENSION_STATE_CREATED) ∧
    (extension_is_loaded { demo_env with guc_restoring := true }).run
        { created_state with extstate := ExtensionState.EXTENSION_STATE_UNKNOWN } =
      ⟨.ok false, { created_state with extstate := ExtensionState.EXTENSION_STATE_UNKNOWN },
        []⟩ :=
  ⟨rfl,
    (C25_extension_is_loaded demo_env
      { created_state with extstate := ExtensionState.EXTENSION_STATE_UNKNOWN,
                           extension_proxy_oid := InvalidOid }).1.mp rfl,
    (C25_extension_is_loaded { demo_env with guc_restoring := true }
      { created_state with extstate := ExtensionState.EXTENSION_STATE_UNKNOWN }).2.1 rfl⟩

/-- The run of `extension_invalidate` in terms of the state refresh. -/
theorem extension_invalidate_run (env : Env) (relid : Oid) (s : PUState) :
    (extension_invalidate env relid).run s =
      if s.extstate = ExtensionState.EXTENSION_STATE_CREATED then
        if s.extension_proxy_oid = relid ∨ OidIsValid relid = false then
          match (extension_update_state env).run s with
          | ⟨.error e, s1, o⟩ => ⟨.error e, s1, o⟩
          | ⟨.ok _, s1, o⟩ =>
            ⟨.ok (decide (s1.extstate ≠ ExtensionState.EXTENSION_STATE_CREATED)), s1, o⟩
        else ⟨.ok false, s, []⟩
      else
        match (extension_update_state env).run s with
        | ⟨.error e, s1, o⟩ => ⟨.error e, s1, o⟩
        | ⟨.ok _, s1, o⟩ => ⟨.ok false, s1, o⟩ := by
  unfold extension_invalidate
  rw [run_bind_ok _ _ s s s [] rfl]
  rcases hr : (extension_update_state env).run s with ⟨r, s1, o⟩
  by_cases hpr : s.extension_proxy_oid = relid <;> cases hvr : OidIsValid relid <;>
    cases hs : s.extstate <;> cases r <;> cases hs1 : s1.extstate <;>
      simp [hs, hr, hs1, hpr, hvr, run_bind]

/-- C26: `extension_invalidate(relid)` returns true exactly when the state on
entry is CREATED, `relid` is the proxy table oid or an invalid oid, and the
state it leaves is not CREATED.  In the states NOT_INSTALLED, UNKNOWN and
TRANSITIONING it runs the refresh `extension_update_state` and returns false.
In state CREATED with a valid `relid` other than the proxy oid it returns false,
leaving the state alone and making no call.  In state CREATED with the proxy
oid or an invalid oid it always returns, the state left is
`extension_current_state()` and the value is whether that is not CREATED.  In
the other three states the call returns false, with the state
`extension_current_state()`, unless that state is CREATED and the version check
or the lookup of the cache schema raises in the refresh. -/
theorem C26_extension_invalidate (env : Env) (relid : Oid) (s : PUState) :
    (((extension_invalidate env relid).run s).result = .ok true ↔
      s.extstate = ExtensionState.EXTENSION_STATE_CREATED ∧
      (s.extension_proxy_oid = relid ∨ OidIsValid relid = false) ∧
      ((extension_invalidate env relid).run s).state.extstate ≠
        ExtensionState.EXTENSION_STATE_CREATED) ∧
    (s.extstate ≠ ExtensionState.EXTENSION_STATE_CREATED →
      (extension_invalidate env relid).run s =
        match (extension_update_state env).run s with
        | ⟨.error e, s1, o⟩ => ⟨.error e, s1, o⟩
        | ⟨.ok _, s1, o⟩ => ⟨.ok false, s1, o⟩) ∧
    (s.extstate = ExtensionState.EXTENSION_STATE_CREATED →
      s.extension_proxy_oid ≠ relid → OidIsValid relid = true →
      (extension_invalidate env relid).run s = ⟨.ok false, s, []⟩) ∧
    (s.extstate = ExtensionState.EXTENSION_STATE_CREATED →
      s.extension_proxy_oid = relid ∨ OidIsValid relid = false →
      ((extension_invalidate env relid).run s).result =
        .ok (decide (env.extension_current_state ≠ ExtensionState.EXTENSION_STATE_CREATED)) ∧
      ((extension_invalidate env relid).run s).state.extstate = env.extension_current_state) ∧
    (s.extstate ≠ ExtensionState.EXTENSION_STATE_CREATED →
      env.extension_current_state ≠ ExtensionState.EXTENSION_STATE_CREATED ∨
        ((env.version_check_possible = false ∨ env.sql_version_matches = true) ∧
          env.extension_proxy_table.isSome = true) →
      ∃ s1 o, (extension_invalidate env relid).run s = ⟨.ok false, s1, o⟩ ∧
        s1.extstate = env.extension_current_state) := by
  refine ⟨?_, ?_, ?_, ?_, ?_⟩
  · rw [extension_invalidate_run, extension_update_state_run]
    by_cases hpr : s.extension_proxy_oid = relid <;> cases hvr : OidIsValid relid <;>
      cases hs : s.extstate <;> cases hcur : env.extension_current_state <;>
        cases hv : env.version_check_possible <;> cases hm : env.sql_version_matches <;>
          cases hp : env.extension_proxy_table <;>
            simp [hs, hpr]
  · intro hs
    rw [extension_invalidate_run]
    simp only [hs, if_false]
  · intro hs hpr hvr
    rw [extension_invalidate_run]
    simp [hs, hpr, hvr]
  · intro hs hcond
    rw [extension_invalidate_run, extension_update_state_run]
    simp only [hs, hcond, if_true]
    cases hcur : env.extension_current_state <;> simp [hcur, hs]
  · intro hs hret
    obtain ⟨changed, s1, o, hr⟩ := extension_update_state_returns env s hret
    have hcur := extension_update_state_ok_inv env s s1 changed o hr
    refine ⟨s1, o, ?_, hcur⟩
    rw [extension_invalidate_run]
    simp only [hs, if_false, hr]

/-- C26 on the demo catalog, in state CREATED with proxy table 5, after the
extension has been dropped (`extension_current_state()` is NOT_INSTALLED): an
invalidation of the proxy table returns true, an invalidation of relation 30
returns false and leaves the state alone. -/
theorem C26_extension_invalidate_witness :
    ((extension_invalidate
        { demo_env with extension_current_state := ExtensionState.EXTENSION_STATE_NOT_INSTALLED }
        5).run created_state).result = .ok true ∧
    (created_state.extstate = ExtensionState.EXTENSION_STATE_CREATED ∧
      (created_state.extension_proxy_oid = 5 ∨ OidIsValid 5 = false) ∧
      ((extension_invalidate
        { demo_env with extension_current_state := ExtensionState.EXTENSION_STATE_NOT_INSTALLED }
        5).run created_state).state.extstate ≠ ExtensionState.EXTENSION_STATE_CREATED) ∧
    (extension_invalidate
        { demo_env with extension_current_state := ExtensionState.EXTENSION_STATE_NOT_INSTALLED }
        30).run created_state = ⟨.ok false, created_state, []⟩ :=
  ⟨rfl,
    (C26_extension_invalidate
      { demo_env with extension_current_state := ExtensionState.EXTENSION_STATE_NOT_INSTALLED }
      5 created_state).1.mp rfl,
    (C26_extension_invalidate
      { demo_env with extension_current_state := ExtensionState.EXTENSION_STATE_NOT_INSTALLED }
      30 created_state).2.2.1 rfl (by decide) rfl⟩

/-! ## C22 and C23: pins of the registry cache that are not released -/

/-- For a relation that is not a logical table `foreach_chunk_relid` returns -1
after its pin, without a release, whatever the callback. -/
theorem foreach_chunk_relid_not_hypertable (env : Env) (relid : Oid)
    (process_chunk : Hypertable → Oid → Cmd Effect Unit) (s : PUState)
    (hht : hypertable_cache_get_entry env relid = none) :
    (foreach_chunk_relid env relid process_chunk).run s =
      ⟨.ok (-1), s, [Effect.hypertable_cache_pin]⟩ := by
  unfold foreach_chunk_relid
  simp only [hht]
  rfl

/-- C22: `CREATE TRIGGER ... FOR EACH ROW` on the plain table 30 of the demo
catalog.  `process_create_trigger_end` calls `foreach_chunk_relid` through
`foreach_chunk_relation`; relation 30 is not a logical table, so the call
returns -1 through `if (NULL == ht) return -1;` after the pin and without a
release.  On a registry cache with `refcount` 1 and an empty pin list the
handler returns with `refcount` 2 and one record in the pin list. -/
theorem C22_foreach_chunk_relid_leaks_pin :
    hypertable_cache_get_entry demo_env 30 = none ∧
    (foreach_chunk_relid demo_env 30
        (create_trigger_chunk demo_env (demo_row_trigger 30))).run created_state =
      ⟨.ok (-1), created_state, [Effect.hypertable_cache_pin]⟩ ∧
    (process_create_trigger_end demo_env (demo_row_trigger 30)).run created_state =
      ⟨.ok (), created_state, [Effect.hypertable_cache_pin]⟩ ∧
    ((fresh_backend 0).caches 0).refcount = 1 ∧
    (fresh_backend 0).pinned_caches = [] ∧
    registry_pins_after true (fresh_backend 0) 0
        ((process_create_trigger_end demo_env (demo_row_trigger 30)).run
          created_state).emitted =
      .ok (2, [0]) :=
  ⟨rfl, rfl, rfl, rfl, rfl, rfl⟩

/-- A property of all calls of every body holds of all calls of the loop. -/
theorem for_each_emitted_forall {β : Type} (body : β → Cmd Effect Unit) (P : Effect → Prop)
    (hbody : ∀ x s, ∀ e ∈ ((body x).run s).emitted, P e) :
    ∀ (l : List β) (s : PUState), ∀ e ∈ ((for_each body l).run s).emitted, P e := by
  intro l
  induction l with
  | nil =>
    intro s e he
    cases he
  | cons x rest ih =>
    intro s e he
    have hrun : (for_each body (x :: rest)).run s =
        (body x >>= fun _ => for_each body rest).run s := rfl
    rw [hrun, run_bind] at he
    rcases hx : (body x).run s with ⟨r, s1, o1⟩
    have hx1 : ∀ e ∈ o1, P e := by
      intro e1 he1
      have := hbody x s e1
      rw [hx] at this
      exact this he1
    rw [hx] at he
    cases r with
    | error err => exact hx1 e he
    | ok u =>
      simp only [List.mem_append] at he
      rcases he with he | he
      · exact hx1 e he
      · exact ih s1 e he

theorem run_call_emitted (env : Env) (e : Effect) (s : PUState) :
    ((call env e).run s).emitted = [e] := by
  rw [run_call]
  cases env.raises e <;> rfl

/-- `process_drop_index` makes no `cache_release` call, whatever the statement
and the catalog. -/
theorem process_drop_index_never_releases (env : Env) (stmt : DropStmt) (s : PUState) :
    ∀ e ∈ ((process_drop_index env stmt).run s).emitted, e ≠ Effect.cache_release := by
  unfold process_drop_index
  apply for_each_emitted_forall
  intro object s1 e he
  cases hrv : env.makeRangeVarFromNameList object with
  | none =>
    simp only [hrv] at he
    cases he
  | some relation =>
    simp only [hrv] at he
    cases hv : OidIsValid (env.RangeVarGetRelid relation) with
    | false =>
      simp only [hv, Bool.false_eq_true, if_false] at he
      cases he
    | true =>
      simp only [hv, if_true] at he
      cases hi : OidIsValid (env.IndexGetRelation (env.RangeVarGetRelid relation)) <;>
        cases hht : hypertable_cache_get_entry env
          (env.IndexGetRelation (env.RangeVarGetRelid relation)) <;>
          cases hch : env.chunk_of (env.IndexGetRelation (env.RangeVarGetRelid relation)) <;>
            simp [found_or_raise, hi, hht, hch, run_bind, run_call_emitted] at he
      all_goals
        intro hrelease
        rw [hrelease] at he
        simp at he

/-- C23: `DROP INDEX` on the demo catalog.  For index 20 of the logical table
`process_drop_index` pins the registry cache, deletes the partition indexes and
returns without a release; for the two indexes 20 and 31 it pins twice.  On a
registry cache with `refcount` 1 and an empty pin list the handler returns with
`refcount` 2 and one record, respectively `refcount` 3 and two records. -/
theorem C23_process_drop_index_leaks_pins :
    (process_drop_index demo_env (demo_drop_index [20])).run created_state =
      ⟨.ok (), created_state,
        [Effect.hypertable_cache_pin, Effect.chunk_index_delete_children_of 1 20 true]⟩ ∧
    (process_drop_index demo_env (demo_drop_index [20, 31])).run created_state =
      ⟨.ok (), created_state,
        [Effect.hypertable_cache_pin, Effect.chunk_index_delete_children_of 1 20 true,
         Effect.hypertable_cache_pin]⟩ ∧
    ((fresh_backend 0).caches 0).refcount = 1 ∧
    (fresh_backend 0).pinned_caches = [] ∧
    registry_pins_after true (fresh_backend 0) 0
        ((process_drop_index demo_env (demo_drop_index [20])).run created_state).emitted =
      .ok (2, [0]) ∧
    registry_pins_after true (fresh_backend 0) 0
        ((process_drop_index demo_env (demo_drop_index [20, 31])).run created_state).emitted =
      .ok (3, [0, 0]) :=
  ⟨rfl, rfl, rfl, rfl, rfl, rfl⟩

end TimescaleCache
